import Mathlib

/-!
# ember-frame-player: the DiscreteButtonSpatial mini-game

Shallow embedding of `src/app/components/exp-lookit-games/discreteButtonSpatial.js`.

The module-level variables of the source (`ball`, `pressed`, `initialTime`, `jitterT`,
`startTime`, `buttonPressDelay`, `trajectoryParameters`) and the round counter of the base
class become the fields of `Game`.  Calls that leave the module (sounds, `finishGame`,
`storeData`) are recorded, in order, in `Game.effects`.  Canvas drawing has no influence on
the state and is left out, except where a draw dereferences an `undefined` target and so
raises a `TypeError`.  Timestamps are integer milliseconds, as `new Date().getTime()` gives.
-/

namespace DiscreteButtonSpatial

/-- Columns of the row built by `dataCollection` (the two ball position columns, which the
base class converts from canvas coordinates, are left out).  `none` in `window` stands for
`NaN`, the value of `undefined + 1`. -/
structure ExportRow where
  game_type : String
  window : Option Int
  selected_button : Int
  obstruction_number : Option Int
  trial : Nat
  timestamp : ℚ
deriving DecidableEq, Repr

/-- Calls made by the game on its sounds (`gameSound`) and on the base class. -/
inductive Effect
  | playStart
  | pauseStart
  | playLaunch
  | playCatch
  | playFail
  | finishGame (score : Bool)
  | storeData (row : ExportRow)
deriving DecidableEq, Repr

/-- Module-level state of `discreteButtonSpatial.js` together with `super.currentRounds`. -/
structure Game where
  ballState : String
  pressed : List Bool
  initialTime : Int
  jitterT : ℚ
  startTime : Int
  buttonPressDelay : Int
  currentRounds : Nat
  trajectoryParameters : List (List Int)
  effects : List Effect
deriving DecidableEq, Repr

/-- Result of running a method: the state it left behind and whether it raised. -/
structure Run where
  game : Game
  threw : Bool
deriving DecidableEq, Repr

/-- Sequencing of two statements: the second runs only if the first did not raise. -/
def Run.andThen (r : Run) (f : Game → Run) : Run :=
  if r.threw then r else f r.game

/-- Value of each clock read of one `loop()` call, by source line. -/
structure LoopClock where
  atInitialDelay : Int
  atJitter : Int
  atLaunch : Int
  atFall : Int
  atTimeout : Int
  atTimeoutStamp : Int
  atHitStamp : Int
  atSettle : Int
  atFinish : Int
deriving DecidableEq, Repr

/-- A clock that shows the same time at every read of the call. -/
def LoopClock.const (now : Int) : LoopClock :=
  ⟨now, now, now, now, now, now, now, now, now⟩

def INITIAL_DELAY : ℚ := 2.5

/-- Keyboard keys for upper, middle and lower windows. -/
def keys : List String := ["y", "g", "v"]

/-- Column of the velocity in a row of `trajectoryParameters` (`gameRandomization.VELOCITY`). -/
def VELOCITY : Nat := 1

/-- Column of the obstruction in a row of `trajectoryParameters`. -/
def OBSTRUCTION : Nat := 0

/-- Modelled from the spec: `Base.getElapsedTime` is not among the sources; it "returns
elapsed seconds since a reference timestamp", here the clock read `now` minus `since`. -/
def getElapsedTime (now since : Int) : ℚ := ((now - since : Int) : ℚ) / 1000

/-- JavaScript array read `xs[i]`: `none` is `undefined`. -/
def jsIndex {α : Type} (xs : List α) (i : Int) : Option α :=
  if 0 ≤ i then xs[i.toNat]? else none

/-- The expression `pressed.findIndex(item => item !== false)`. -/
def findIndex (pressed : List Bool) : Int :=
  match pressed.findIdx? (fun item => item != false) with
  | some i => (i : Int)
  | none => -1

def emit (e : Effect) (g : Game) : Game :=
  { g with effects := g.effects ++ [e] }

/-- The read `trajectoryParameters[super.currentRounds]`. -/
def currentRow (g : Game) : Option (List Int) :=
  g.trajectoryParameters[g.currentRounds]?

/-- Correct index for current trajectory.  `none` when the row of the round is missing
(the source raises), `some none` when the lookup in `indexArr` gives `undefined`. -/
def getCorrectIndex (g : Game) : Option (Option Int) :=
  match currentRow g with
  | none => none
  | some row =>
    let indexArr : List Int := [2, 1, 0]
    some ((row[VELOCITY]?).bind (fun v => jsIndex indexArr (v - 1)))

/-- Whether `targets[index]` is defined: `targets` holds the three windows built by
`initGame`. -/
def hasTarget (index : Option Int) : Bool :=
  match index with
  | some i => decide (0 ≤ i ∧ i < 3)
  | none => false

/-- Draws of `showWindow(index)`: `showBallLocation(getCorrectIndex())` reads
`target.position` and raises when there is no such target.  `true` means it raised. -/
def showWindowThrows (g : Game) : Bool :=
  match getCorrectIndex g with
  | none => true
  | some correct => !hasTarget correct

/-- The guard `index >= 0` followed by `createWindow(targets[index])`, which reads
`target.image`.  `true` means it raised. -/
def createPressedWindowThrows (index : Int) : Bool :=
  decide (0 ≤ index) && !hasTarget (some index)

def keyDownHandler (key : String) (g : Game) : Game :=
  if g.ballState ≠ "hit" ∧ g.ballState ≠ "hit target" then
    let pressed := g.pressed.map (fun _ => false)
    { g with pressed := pressed.enum.map (fun (index, _) => decide (keys[index]? = some key)) }
  else g

/-- Show result after button press. -/
def checkHitState (index : Int) (g : Game) : Run :=
  if createPressedWindowThrows index then ⟨g, true⟩
  else if decide (0 ≤ index) && showWindowThrows g then ⟨g, true⟩
  else
    match getCorrectIndex g with
    | none => ⟨g, true⟩
    | some correct =>
      let g := if some index = correct then emit .playCatch g else emit .playFail g
      ⟨{ g with ballState := "hit target" }, false⟩

/-- Line 356: the start sound of the first round. -/
def initialCue (c : LoopClock) (g : Game) : Game :=
  if g.initialTime = 0 ∧ g.currentRounds = 0 ∧ getElapsedTime c.atInitialDelay g.startTime ≥ INITIAL_DELAY then
    emit .playStart g
  else g

/-- Lines 362-373. -/
def startBlock (c : LoopClock) (g : Game) : Game :=
  if g.ballState = "start" then
    if 0 < g.initialTime ∧ getElapsedTime c.atJitter g.initialTime > g.jitterT then
      let g := emit .playLaunch (emit .pauseStart g)
      { g with initialTime := c.atLaunch, ballState := "fall" }
    else g
  else g

/-- Lines 376-386. -/
def fallBlock (c : LoopClock) (g : Game) : Game :=
  if g.ballState = "fall" then
    if getElapsedTime c.atFall g.initialTime ≥ 0.5 then { g with ballState := "hit house" }
    else g
  else g

/-- Lines 388-392. -/
def pressBlock (index : Int) (g : Game) : Game :=
  if (g.ballState = "fall" ∨ g.ballState = "hit house") ∧ 0 ≤ index then
    { g with ballState := "hit" }
  else g

/-- Lines 395-401. -/
def timeoutBlock (c : LoopClock) (g : Game) : Game :=
  if g.ballState = "hit house" then
    if getElapsedTime c.atTimeout g.initialTime ≥ 2.5 then
      { g with initialTime := c.atTimeoutStamp, ballState := "hit" }
    else g
  else g

/-- Lines 406-408: the time of entry into 'hit' is stamped once. -/
def stampHit (c : LoopClock) (g : Game) : Game :=
  if g.buttonPressDelay = 0 then { g with buttonPressDelay := c.atHitStamp } else g

/-- Lines 404-414. -/
def hitBlock (c : LoopClock) (index : Int) (g : Game) : Run :=
  if g.ballState = "hit" then
    let g := stampHit c g
    if 0 < g.buttonPressDelay ∧ getElapsedTime c.atSettle g.buttonPressDelay ≥ 0.5 then
      checkHitState index g
    else ⟨g, false⟩
  else ⟨g, false⟩

/-- Lines 418-431. -/
def hitTargetBlock (c : LoopClock) (index : Int) (g : Game) : Run :=
  if g.ballState = "hit target" then
    if createPressedWindowThrows index then ⟨g, true⟩
    else if showWindowThrows g then ⟨g, true⟩
    else if getElapsedTime c.atFinish g.initialTime ≥ 3 then ⟨emit (.finishGame false) g, false⟩
    else ⟨g, false⟩
  else ⟨g, false⟩

/-- Main loop of the game. -/
def loop (c : LoopClock) (g : Game) : Run :=
  match currentRow g with
  | none => ⟨g, true⟩
  | some _ =>
    let index := findIndex g.pressed
    let g := initialCue c g
    let g := startBlock c g
    let g := fallBlock c g
    let g := pressBlock index g
    let g := timeoutBlock c g
    (hitBlock c index g).andThen (hitTargetBlock c index)

/-- The state of a call of `loop` when it reaches line 404, the `if` on 'hit': lines 356-401
have run, with the `index` of line 354. -/
def beforeHitBlock (c : LoopClock) (g : Game) : Game :=
  timeoutBlock c (pressBlock (findIndex g.pressed) (fallBlock c (startBlock c (initialCue c g))))

/-- The row of `dataCollection` (`exportData`); `none` when building it raises because the
round has no row in `trajectoryParameters`. -/
def exportData (now : Int) (g : Game) : Option ExportRow :=
  let target_state := findIndex g.pressed
  let target_state := if jsIndex keys target_state = none then 3 else target_state
  match getCorrectIndex g, currentRow g with
  | some correct, some row =>
    some {
      game_type := "discreteButtonSpatial"
      window := correct.map (fun i => i + 1)
      selected_button := target_state + 1
      obstruction_number := row[OBSTRUCTION]?
      trial := g.currentRounds
      timestamp := getElapsedTime now g.initialTime }
  | _, _ => none

/-- Lines 496-521; `now` is the clock read of the `timestamp` column. -/
def dataCollection (now : Int) (g : Game) : Run :=
  match exportData now g with
  | none => ⟨g, true⟩
  | some row =>
    if g.ballState = "hit" ∨ g.ballState = "fall" then ⟨emit (.storeData row) g, false⟩
    else ⟨g, false⟩

/-! ## The state machine as the specification draws it -/

/-- Position of a ball state in the order start < fall < hit house < hit < hit target. -/
def stateRank (s : String) : Option Nat :=
  ["start", "fall", "hit house", "hit", "hit target"].indexOf? s

/-- One state is strictly later than another in the order of `stateRank`. -/
def Later (s t : String) : Prop :=
  ∃ r r', stateRank s = some r ∧ stateRank t = some r' ∧ r < r'

/-- The arrows `start → fall → (hit | hit house) → hit → hit target` of the specification. -/
inductive Transition : String → String → Prop
  | launch : Transition "start" "fall"
  | reachHouse : Transition "fall" "hit house"
  | pressInFall : Transition "fall" "hit"
  | leaveHouse : Transition "hit house" "hit"
  | settle : Transition "hit" "hit target"

/-! ## Sample trials -/

/-- First round, obstruction 1 and velocity bucket 3; the start sound began at 1000 ms and
the jitter is 1 s. -/
def sampleStart : Game :=
  ⟨"start", [false, false, false], 1000, 1, 0, 0, 0, [[1, 3]], []⟩

/-- The ball of `sampleStart` launched at 3000 ms, with the key 'y' down. -/
def sampleFallPressed : Game :=
  { sampleStart with ballState := "fall", initialTime := 3000, pressed := [true, false, false] }

/-- The ball of `sampleFallPressed` once in 'hit', the press stamped at 3100 ms. -/
def sampleHit : Game :=
  { sampleFallPressed with ballState := "hit", buttonPressDelay := 3100 }

/-- The ball of `sampleHit` in 'hit target': round of velocity bucket 3 (correct index 0),
key 'y' (index 0) pressed, launched at 3000 ms. -/
def sampleHitTarget : Game :=
  { sampleHit with ballState := "hit target" }

/-- Calls made during one call of `loop`: what it appended to the record of calls. -/
def loopEffects (c : LoopClock) (g : Game) : List Effect :=
  (loop c g).game.effects.drop g.effects.length

/-- Successive calls of `loop`, one per animation frame, the clock constant within a call. -/
def frames (g : Game) : List Int → Game
  | [] => g
  | now :: rest => frames (loop (LoopClock.const now) g).game rest

/-- The second state records every call of the first, followed by further calls none of
which is `finishGame`. -/
def Quiet (g g' : Game) : Prop :=
  ∃ new, g'.effects = g.effects ++ new ∧ ∀ b, Effect.finishGame b ∉ new

/-- The ball of `sampleStart` in 'hit house', launched at 3000 ms, no key down. -/
def sampleHitHouse : Game :=
  { sampleStart with ballState := "hit house", initialTime := 3000 }

/-! ## `initGame` and the trial list -/

/-- A window of the shuttle, as `getWindow` returns it; pairs are (width, height) and
(x, y), the image is named by its URL. -/
structure Window where
  dimensions : ℚ × ℚ
  position : ℚ × ℚ
  radius : ℚ
  image : Option String
deriving DecidableEq, Repr

/-- The ball object: its `state` and the fields of the literal of lines 252-258.  The base
class builds it in `ballObject()`. -/
structure Ball where
  state : String
  position : ℚ × ℚ
  radius : ℚ
  restitution : ℚ
  timeReached : Int
deriving DecidableEq, Repr

/-- Module-level state written by `initGame`: the variables of `Game` (where
`Game.ballState` is `ball.state`), the rest of `ball`, and `targets`. -/
structure Session where
  game : Game
  ball : Ball
  targets : List Window
deriving DecidableEq, Repr

/-- What a call of `initGame` reads from outside the module: the results of
`super.ballObject()` and `super.trialStartTime()`, `super.Utils.SCALE`, the loaded window
images and the clock. -/
structure InitEnv where
  ballObject : Ball
  trialStartTime : ℚ
  SCALE : ℚ
  windowImgs : List String
  now : Int
deriving DecidableEq, Repr

/-- Get Current window position and align it according to possible obstruction (shuttle)
size. -/
def getWindow (SCALE : ℚ) (windowImgs : List String) (index : Nat) : Window :=
  let index := index + 1
  let (top, windowPosition, leftBorder) : ℚ × Nat × ℚ :=
    match index with
    | 2 => (1.25, 1, 1.555 * SCALE)
    | 3 => (1.39, 2, 1.555 * SCALE)
    | _ => (1.12, 0, 1.5450 * SCALE)
  let topBorder := top * SCALE
  { dimensions := (0.10238 * SCALE, 0.075 * SCALE)
    position := (leftBorder, topBorder)
    radius := 0.00956 * SCALE
    image := windowImgs[windowPosition]? }

/-- Initialize each game round with initial object parameters.  The literal assigned to
`ball` at lines 252-258 is replaced at line 260 before anything reads it; `super.initGame()`
cannot reach the variables of the module. -/
def initGame (env : InitEnv) (s : Session) : Session :=
  let g := { s.game with
    initialTime := 0
    pressed := List.replicate 3 false
    jitterT := env.trialStartTime
    buttonPressDelay := 0
    ballState := env.ballObject.state }
  let g := if 0 < g.currentRounds then emit .playStart g else g
  let targets := (List.range 3).map (fun index => getWindow env.SCALE env.windowImgs index)
  let g := if getElapsedTime env.now g.startTime ≥ 2 then emit .playStart g else g
  { game := g, ball := env.ballObject, targets := targets }

/-- The per-trial state: ball, targets and pressed input, with the two per-trial
timestamps. -/
def Session.perTrial (s : Session) :
    Ball × String × List Window × List Bool × Int × Int :=
  (s.ball, s.game.ballState, s.targets, s.game.pressed, s.game.initialTime,
    s.game.buttonPressDelay)

/-- A session left over from an earlier trial: 'v' pressed, ball in 'hit target'. -/
def sampleSession : Session :=
  { game := { sampleHitTarget with pressed := [false, false, true] }
    ball := ⟨"hit target", (700, 300), 12, 1, 2900⟩
    targets := [] }

/-- Values read by a call of `initGame` on a canvas of scale 420. -/
def sampleEnv : InitEnv :=
  { ballObject := ⟨"start", (0, 0), 10, 1, 7000⟩
    trialStartTime := 0.9
    SCALE := 420
    windowImgs := ["yellow.png", "green.png", "violet.png"]
    now := 7000 }

/-- Obstruction sizes of `gameArrayValues`. -/
def OBSTRUCTIONS : List Int := [1, 2, 3]

/-- Velocity buckets of `gameArrayValues`. -/
def VELOCITIES : List Int := [1, 2, 3]

/-- A shuffle of the trial list: whatever the random source, the result is a rearrangement
of the list it is given. -/
structure Shuffle where
  run : List (List Int) → List (List Int)
  perm : ∀ l, (run l).Perm l

/-- The shuffle that leaves the order as it is. -/
def Shuffle.identity : Shuffle := ⟨id, fun l => List.Perm.refl l⟩

/-- The shuffle that reverses the order. -/
def Shuffle.reversed : Shuffle := ⟨List.reverse, fun l => List.reverse_perm l⟩

/-- Modelled from the spec: `Base.getTrajectoriesObstacles` is not among the sources.  The
specification (4.1) has it produce "a randomized, exhaustive pairing of obstruction-size
values × velocity values, one pairing per trial, such that across the full trial sequence
every (size, velocity) combination appears exactly once in randomized order (a full
factorial design, shuffled)"; catalogs of different lengths are "rejected with a
configuration error", and so are empty catalogs (`none`).  A trial is the row
`[size, velocity]` that `loop` reads from `trajectoryParameters`. -/
def getTrajectoriesObstacles (shuffle : Shuffle) (sizes velocities : List Int) :
    Option (List (List Int)) :=
  if sizes.length ≠ velocities.length ∨ sizes = [] then none
  else some (shuffle.run ((List.product sizes velocities).map (fun p => [p.1, p.2])))

end DiscreteButtonSpatial

/-!
# The FeedCroc game

Embedding of `paddleBallCollision` of `src/app/components/exp-test/feedCroc.js`.  The
numbers of the source are doubles; here they are rationals and rounding is not modelled.
-/

namespace FeedCroc

structure Vec where
  x : ℚ
  y : ℚ
deriving DecidableEq, Repr

structure Size where
  width : ℚ
  height : ℚ
deriving DecidableEq, Repr

/-- The module-level `ball`, as `initGame` builds it. -/
structure Ball where
  position : Vec
  velocity : Vec
  mass : ℚ
  radius : ℚ
  restitution : ℚ
  color : String
deriving DecidableEq, Repr

/-- The module-level `paddle`, as `init` builds it. -/
structure Paddle where
  dimensions : Size
  position : Vec
  paddleLastMovedMillis : Int
  velocity : ℚ
deriving DecidableEq, Repr

/-- State read and written by `paddleBallCollision`; `bounces` counts the calls of
`bounceSound.play()`. -/
structure World where
  ball : Ball
  paddle : Paddle
  bounces : Nat
deriving DecidableEq, Repr

/-- Launch velocities of the module-level `trajectories`. -/
def trajectories : List Vec :=
  [⟨3.9, -6.8⟩, ⟨3.7, -7.2⟩, ⟨3.5, -7.7⟩, ⟨3.6, -7.6⟩]

/-- The ball literal of `initGame` (lines 237-246) for the trajectory drawn; `ballMass` is
`super.Utils.ballMass`. -/
def initBall (paddleWidth canvasHeight ballMass : ℚ) (trajectory : Vec) : Ball :=
  { position := ⟨paddleWidth * 5 + 20, canvasHeight - paddleWidth * 2⟩
    velocity := ⟨trajectory.x, trajectory.y⟩
    mass := ballMass
    radius := 10
    restitution := -1.5
    color := "#dadd0f" }

/-- The two nested conditions of `paddleBallCollision`: the ball is inside the contact box
of the paddle. -/
def inContactBox (ball : Ball) (paddle : Paddle) : Prop :=
  (ball.position.y ≥ paddle.position.y - paddle.dimensions.height ∧
    ball.position.y < paddle.position.y + paddle.dimensions.height) ∧
  (ball.position.x > paddle.position.x - paddle.dimensions.width ∧
    ball.position.x < paddle.position.x + paddle.dimensions.width)

instance (ball : Ball) (paddle : Paddle) : Decidable (inContactBox ball paddle) := by
  unfold inContactBox
  infer_instance

/-- Handle paddle collision here.  Adjust velocity to the ball by restitution factor.
`atSound` and `atStamp` are the two clock reads. -/
def paddleBallCollision (atSound atStamp : Int) (w : World) : World :=
  if inContactBox w.ball w.paddle then
    let bounces := if atSound - w.paddle.paddleLastMovedMillis > 150 then w.bounces + 1
      else w.bounces
    let velocityY := w.ball.velocity.y * (w.ball.restitution * 1.12)
    let velocityX := w.ball.velocity.x * (-w.ball.restitution)
    let positionY := w.paddle.position.y - w.ball.radius
    { ball := { w.ball with
        velocity := ⟨velocityX, velocityY⟩
        position := ⟨w.ball.position.x, positionY⟩ }
      paddle := { w.paddle with paddleLastMovedMillis := atStamp }
      bounces := bounces }
  else w

/-- A ball of `initGame` coming down on the paddle: moving right at 3.9 and down at 5.2,
10 above the paddle line. -/
def sampleContact : World :=
  { ball := { initBall 40 600 1 ⟨3.9, -6.8⟩ with
      position := ⟨400, 480⟩
      velocity := ⟨3.9, 5.2⟩ }
    paddle := {
      dimensions := ⟨60, 11⟩
      position := ⟨400, 487⟩
      paddleLastMovedMillis := 100
      velocity := 1 }
    bounces := 0 }

/-- The same ball well above the paddle. -/
def sampleApart : World :=
  { sampleContact with ball := { sampleContact.ball with position := ⟨400, 200⟩ } }

end FeedCroc

/-!
# The select randomizer

Embedding of `src/app/randomizers/select.js`.  A JSON object is modelled by the lookup of
its own properties; `whichFrames` is absent, an integer or a list of integers.
-/

namespace Select

/-- A JSON object: the value of each own property, `none` where there is none. -/
abbrev Obj (V : Type) := String → Option V

/-- The object literal `{}`. -/
def emptyObject {V : Type} : Obj V := fun _ => none

/-- The call `Object.assign(target, source)`: every own property of `source` is written to
`target`. -/
def assign {V : Type} (target source : Obj V) : Obj V :=
  fun p =>
    match source p with
    | some v => some v
    | none => target p

/-- Values of `frameConfig.whichFrames`: no such property, an integer, or a list of
integers. -/
inductive WhichFrames
  | absent
  | number (n : Int)
  | list (indices : List Int)
deriving DecidableEq, Repr

/-- The properties of `frameConfig` the randomizer reads. -/
structure FrameConfig (V : Type) where
  whichFrames : WhichFrames
  frameOptions : List (Obj V)
  commonFrameProperties : Obj V

/-- The test `(typeof frameConfig.whichFrames) === 'number'`. -/
def typeofNumber : WhichFrames → Bool
  | .number _ => true
  | _ => false

/-- The test `frameConfig.hasOwnProperty('whichFrames')`. -/
def hasOwnWhichFrames : WhichFrames → Bool
  | .absent => false
  | _ => true

/-- The loose comparison `frameConfig.whichFrames == -1`.  An array is first converted to
the string of its elements joined by commas and then to a number, so among the lists of
integers exactly `[-1]` compares equal to -1 (`[]` converts to 0). -/
def looseEqMinusOne : WhichFrames → Bool
  | .absent => false
  | .number n => n == -1
  | .list indices => indices == [-1]

/-- The test `!frameConfig.whichFrames`: `undefined` and 0 are falsy, every array is
truthy. -/
def falsy : WhichFrames → Bool
  | .absent => true
  | .number n => n == 0
  | .list _ => false

/-- The message thrown at line 109. -/
def outOfRange : String :=
  "Frame index in whichFrames out of range in select randomizer. All frame indices must be between 0 and frameOptions.length - 1."

/-- Lines 100-105: the value of `frameConfig.whichFrames` when the loop starts. -/
def whichFramesList {V : Type} (frameConfig : FrameConfig V) : List Int :=
  if typeofNumber frameConfig.whichFrames && !looseEqMinusOne frameConfig.whichFrames then
    match frameConfig.whichFrames with
    | .number n => [n]
    | _ => []
  else if !hasOwnWhichFrames frameConfig.whichFrames ||
      looseEqMinusOne frameConfig.whichFrames || falsy frameConfig.whichFrames then
    (List.range frameConfig.frameOptions.length).map Int.ofNat
  else
    match frameConfig.whichFrames with
    | .list indices => indices
    | _ => []

/-- Lines 113-118: `thisFrame` after the two `Object.assign` calls for the option of index
`k` (an `undefined` source is skipped by `Object.assign`). -/
def thisFrame {V : Type} (frameConfig : FrameConfig V) (k : Int) : Obj V :=
  assign (assign emptyObject frameConfig.commonFrameProperties)
    ((frameConfig.frameOptions[k.toNat]?).getD emptyObject)

/-- The first argument of `resolveFrame`: `frameId + '-' + iFrame`. -/
def childId (frameId : String) (iFrame : Nat) : String :=
  frameId ++ "-" ++ toString iFrame

/-- The loop of lines 107-122 from `iFrame` on, over the indices still to come, with the
frames pushed and the arguments of the `resolveFrame` calls made so far.  `resolveFrame`
gives element 0 of what the callback returns. -/
def forLoop {V F : Type} (frameId : String) (frameConfig : FrameConfig V)
    (resolveFrame : String → Obj V → List F) :
    List Int → Nat → List F → List (String × Obj V) →
      List (String × Obj V) × Except String (List F)
  | [], _, frames, calls => (calls, .ok frames)
  | k :: rest, iFrame, frames, calls =>
    if k < 0 ∨ k ≥ frameConfig.frameOptions.length then (calls, .error outOfRange)
    else
      forLoop frameId frameConfig resolveFrame rest (iFrame + 1)
        (frames ++ resolveFrame (childId frameId iFrame) (thisFrame frameConfig k))
        (calls ++ [(childId frameId iFrame, thisFrame frameConfig k)])

/-- What a call of the randomizer leaves: `frameConfig` as rewritten, the arguments of its
`resolveFrame` calls in order, and either the thrown message or the returned pair of the
frames and the `whichFrames` condition. -/
structure Outcome (V F : Type) where
  frameConfig : FrameConfig V
  calls : List (String × Obj V)
  result : Except String (List F × List Int)

def randomizer {V F P : Type} (frameId : String) (frameConfig : FrameConfig V)
    (_pastSessions : P) (resolveFrame : String → Obj V → List F) : Outcome V F :=
  let whichFrames := whichFramesList frameConfig
  let frameConfig := { frameConfig with whichFrames := .list whichFrames }
  let run := forLoop frameId frameConfig resolveFrame whichFrames 0 [] []
  { frameConfig := frameConfig
    calls := run.1
    result := run.2.map (fun frames => (frames, whichFrames)) }

/-- An index is one of `frameOptions`. -/
def InRange {V : Type} (frameConfig : FrameConfig V) (k : Int) : Prop :=
  0 ≤ k ∧ k < frameConfig.frameOptions.length

/-- The example of the class documentation, values as strings: two text frames and a
common `kind`. -/
def sampleConfig (whichFrames : WhichFrames) : FrameConfig String :=
  { whichFrames := whichFrames
    frameOptions := [
      fun p => if p = "title" then some "FRAME 1" else none,
      fun p => if p = "title" then some "FRAME 2" else
        if p = "kind" then some "special-frame" else none]
    commonFrameProperties := fun p => if p = "kind" then some "exp-lookit-text" else none }

/-- A `resolveFrame` that returns the one frame it is given, as its id, kind and title. -/
def sampleResolve (id : String) (frame : Obj String) : List (String × String × String) :=
  [(id, (frame "kind").getD "", (frame "title").getD "")]

end Select

/-!
# The infant-controlled-timing mixin

Embedding of `src/app/mixins/infant-controlled-timing.js`.  The properties of the mixin are
the fields of `Mixin` (without the leading underscore of the source).  Handlers run to
completion, one event at a time; every event carries the clock value `new Date()` shows
while it is handled.  The hook `onLookawayCriterion`, which the frame using the mixin
overrides, is recorded as a call.
-/

namespace InfantControlledTiming

/-- The frame parameters of `frameSchemaProperties`; the threshold is in seconds. -/
structure Config where
  lookawayType : String
  lookawayThreshold : ℚ
  lookawayKey : String
  endTrialKey : String
deriving DecidableEq, Repr

/-- The defaults of `frameSchemaProperties`. -/
def defaultConfig : Config :=
  { lookawayType := "total", lookawayThreshold := 2, lookawayKey := "p", endTrialKey := "q" }

/-- What the mixin sends out: `this.send('setTimeEvent', name)` and calls of the hook
`onLookawayCriterion`. -/
inductive Output
  | timeEvent (name : String)
  | onLookawayCriterion
deriving DecidableEq, Repr

/-- A pending `window.setTimeout`: its id, the clock when it was set and the delay in
milliseconds it was given. -/
structure Timer where
  id : Nat
  setAt : Int
  delay : ℚ
deriving DecidableEq, Repr

/-- The properties of the mixin, the timers pending in the window, the number of
`keyup.parentEndTrial` handlers bound on the document, and what has been sent so far. -/
structure Mixin where
  totalLookaway : Int
  lastLookawayStart : Int
  isLooking : Bool
  endTrialDueToLookawayTimer : Option Nat
  controlPeriodStarted : Bool
  anyLookDuringControlPeriod : Bool
  parentEndTrialHandlers : Nat
  timers : List Timer
  nextTimerId : Nat
  log : List Output
deriving DecidableEq, Repr

/-- What the browser and the frame do to the mixin.  `keyup` carries the result of
`checkFullscreen()`; `wait` is time passing with nothing else happening. -/
inductive Event
  | keydown (key : String)
  | keyup (key : String) (fullscreen : Bool)
  | mousedown
  | mouseup
  | startParentControl
  | endParentControl
  | wait
deriving DecidableEq, Repr

def setTimeEvent (name : String) (s : Mixin) : Mixin :=
  { s with log := s.log ++ [.timeEvent name] }

/-- The callback given to `window.setTimeout` at lines 111-119. -/
def timerCallback (s : Mixin) : Mixin :=
  let s := setTimeEvent "lookawayEndedTrial" s
  { s with log := s.log ++ [.onLookawayCriterion] }

def recordLookawayStart (cfg : Config) (now : Int) (s : Mixin) : Mixin :=
  let s := { s with lastLookawayStart := now }
  let s := setTimeEvent "lookawayStart" s
  if s.controlPeriodStarted then
    let delay : ℚ :=
      if cfg.lookawayType = "total" then cfg.lookawayThreshold * 1000 - s.totalLookaway
      else cfg.lookawayThreshold * 1000
    { s with
      endTrialDueToLookawayTimer := some s.nextTimerId
      timers := s.timers ++ [⟨s.nextTimerId, now, delay⟩]
      nextTimerId := s.nextTimerId + 1 }
  else s

def recordLookawayEnd (cfg : Config) (now : Int) (s : Mixin) : Mixin :=
  let s := { s with
    timers := s.timers.filter (fun t => some t.id ≠ s.endTrialDueToLookawayTimer) }
  let s := setTimeEvent "lookawayEnd" s
  if cfg.lookawayType = "total" ∧ s.controlPeriodStarted then
    if s.anyLookDuringControlPeriod then
      { s with totalLookaway := s.totalLookaway + (now - s.lastLookawayStart) }
    else { s with anyLookDuringControlPeriod := true }
  else s

def startParentControl (s : Mixin) : Mixin :=
  let s := { s with
    totalLookaway := 0
    anyLookDuringControlPeriod := s.isLooking
    controlPeriodStarted := true }
  let s := setTimeEvent "parentControlPeriodStart" s
  { s with parentEndTrialHandlers := s.parentEndTrialHandlers + 1 }

def endParentControl (s : Mixin) : Mixin :=
  let s := { s with controlPeriodStarted := false }
  let s := setTimeEvent "parentControlPeriodEnd" s
  { s with parentEndTrialHandlers := 0 }

/-- The state `didInsertElement` leaves (lines 212-215), on the defaults of lines 86-93. -/
def didInsertElement (now : Int) : Mixin :=
  { totalLookaway := 0
    lastLookawayStart := now
    isLooking := true
    endTrialDueToLookawayTimer := none
    controlPeriodStarted := false
    anyLookDuringControlPeriod := false
    parentEndTrialHandlers := 0
    timers := []
    nextTimerId := 1
    log := [] }

/-- The event is one the handler of `lookawayOnEvent` acts on: the guard of line 227, for
the kind of event the handler was bound to at line 217. -/
def isLookawayOn (cfg : Config) : Event → Bool
  | .keydown key => cfg.lookawayKey != "mouse" && cfg.lookawayKey != "" && key == cfg.lookawayKey
  | .mousedown => cfg.lookawayKey == "mouse"
  | _ => false

/-- The event is one the handler of `lookawayOffEvent` acts on (lines 216 and 219). -/
def isLookawayOff (cfg : Config) : Event → Bool
  | .keyup key _ => cfg.lookawayKey != "mouse" && cfg.lookawayKey != "" && key == cfg.lookawayKey
  | .mouseup => cfg.lookawayKey == "mouse"
  | _ => false

/-- The handler bound at lines 226-233. -/
def lookawayOn (cfg : Config) (now : Int) (s : Mixin) : Mixin :=
  if s.isLooking then recordLookawayStart cfg now { s with isLooking := false } else s

/-- The handler bound at lines 218-225. -/
def lookawayOff (cfg : Config) (now : Int) (s : Mixin) : Mixin :=
  if !s.isLooking then recordLookawayEnd cfg now { s with isLooking := true } else s

/-- One handler bound at lines 179-191, for a `keyup` of `key`. -/
def parentEndTrial (cfg : Config) (key : String) (fullscreen : Bool) (s : Mixin) : Mixin :=
  if fullscreen ∧ cfg.endTrialKey ≠ "" ∧ key = cfg.endTrialKey then
    let s := setTimeEvent "parentEndedTrial" s
    { s with log := s.log ++ [.onLookawayCriterion] }
  else s

/-- The pending timers whose delay has run out are called, in the order they were set, and
are pending no more. -/
def fireDue (now : Int) (s : Mixin) : Mixin :=
  let due := s.timers.filter (fun t => decide ((t.setAt : ℚ) + max t.delay 0 ≤ now))
  let s := { s with timers := s.timers.filter (fun t => !decide ((t.setAt : ℚ) + max t.delay 0 ≤ now)) }
  due.foldl (fun s _ => timerCallback s) s

/-- The handlers an event reaches, in the order they were bound. -/
def handle (cfg : Config) (now : Int) (e : Event) (s : Mixin) : Mixin :=
  match e with
  | .keydown _ => if isLookawayOn cfg e then lookawayOn cfg now s else s
  | .mousedown => if isLookawayOn cfg e then lookawayOn cfg now s else s
  | .keyup key fullscreen =>
    let s := if isLookawayOff cfg e then lookawayOff cfg now s else s
    (List.range s.parentEndTrialHandlers).foldl (fun s _ => parentEndTrial cfg key fullscreen s) s
  | .mouseup => if isLookawayOff cfg e then lookawayOff cfg now s else s
  | .startParentControl => startParentControl s
  | .endParentControl => endParentControl s
  | .wait => s

/-- One event at clock `now`: timers that came due before it are called first. -/
def step (cfg : Config) (s : Mixin) (te : Int × Event) : Mixin :=
  handle cfg te.1 te.2 (fireDue te.1 s)

/-- A sequence of events, in the order of their clock values. -/
def run (cfg : Config) (s : Mixin) (events : List (Int × Event)) : Mixin :=
  events.foldl (step cfg) s

/-- The events of a stretch in which the frame neither starts nor ends parent control. -/
def WithinControl (events : List (Int × Event)) : Prop :=
  ∀ te ∈ events, te.2 ≠ Event.startParentControl ∧ te.2 ≠ Event.endParentControl

/-- The durations, in order, of the lookaways that begin and are completed within the
events: `looking` says whether the child is looking at the screen before them, `began` is
the clock at the start of a lookaway in progress that began within the stretch.  With the
events since `startParentControl` these are the completed lookaways that began after the
first look of the child: a lookaway in progress when the period starts began before it. -/
def lookawayDurations (cfg : Config) : Bool → Option Int → List (Int × Event) → List Int
  | _, _, [] => []
  | looking, began, (now, e) :: rest =>
    if looking && isLookawayOn cfg e then lookawayDurations cfg false (some now) rest
    else if !looking && isLookawayOff cfg e then
      match began with
      | some t => (now - t) :: lookawayDurations cfg true none rest
      | none => lookawayDurations cfg true none rest
    else lookawayDurations cfg looking began rest

/-- A control period: the child looks away at 1000 ms for half a second. -/
def sampleEvents : List (Int × Event) :=
  [(1000, .keydown "p"), (1500, .keyup "p" true)]

/-- The properties of the mixin that decide the lookaway count: `_totalLookaway`,
`_lastLookawayStart`, `_isLooking`, `_controlPeriodStarted` and
`_anyLookDuringControlPeriod`. -/
def Mixin.counters (s : Mixin) : Int × Int × Bool × Bool × Bool :=
  (s.totalLookaway, s.lastLookawayStart, s.isLooking, s.controlPeriodStarted,
    s.anyLookDuringControlPeriod)

/-- The mixin agrees with the bookkeeping of `lookawayDurations`: while the child looks, a
look has been seen and no lookaway is in progress; while the child looks away, the lookaway
in progress began within the period, at `_lastLookawayStart`, exactly if a look has been
seen. -/
def Tracks (s : Mixin) (began : Option Int) : Prop :=
  (s.isLooking = true → s.anyLookDuringControlPeriod = true ∧ began = none) ∧
  (s.isLooking = false →
    began = if s.anyLookDuringControlPeriod then some s.lastLookawayStart else none)

/-- Parent control is off: the control period is not started, no `keyup.parentEndTrial`
handler is bound and no timer is pending. -/
def ControlOff (s : Mixin) : Prop :=
  s.controlPeriodStarted = false ∧ s.parentEndTrialHandlers = 0 ∧ s.timers = []

/-- The second state has sent what the first had, then more, with no call of
`onLookawayCriterion`. -/
def Silent (s t : Mixin) : Prop :=
  ∃ new, t.log = s.log ++ new ∧ Output.onLookawayCriterion ∉ new

end InfantControlledTiming

/-!
# The exp-lookit-video-assent frame

Embedding of the page navigation and of the age check of
`src/app/components/exp-lookit-video-assent/component.js`.  A page is what the component
reads of it, whether its `audio` and its `video` are truthy; `pages` and `pages_parsed`, the
pages with their asset paths expanded, are one list.  The two arrays
`hasCompletedEachPage...` are modelled by their value at every integer index, `none` where
the array holds nothing.  A date is what `getFullYear()`, `getMonth()` (0 to 11) and
`getDate()` give.
-/

namespace VideoAssent

structure Page where
  audio : Bool
  video : Bool
deriving DecidableEq, Repr

structure Date where
  year : Int
  month : Nat
  date : Nat
deriving DecidableEq, Repr

/-- The frame parameters the modelled methods read. -/
structure Config where
  pages : List Page
  recordLastPage : Bool
  recordWholeProcedure : Bool
  minimumYearsToAssent : ℚ
deriving DecidableEq, Repr

/-- What the frame sends and starts: `setTimeEvent` with its page number if it has one,
`startRecorder()`, `playMedia` on the audio and on the video element, and
`this.send('next')`. -/
inductive Output
  | timeEvent (name : String) (pageNumber : Option Int)
  | startRecorder
  | playAudio
  | playVideo
  | next
deriving DecidableEq, Repr

/-- The properties of the component that the page navigation reads and writes. -/
structure Frame where
  config : Config
  pageIndex : Int
  readAllPages : Bool
  hasCompletedEachPageAudio : Int → Option Bool
  hasCompletedEachPageVideo : Int → Option Bool
  hasCompletedThisPageAudio : Option Bool
  hasCompletedThisPageVideo : Option Bool
  log : List Output

/-- Result of running a method: the state it left behind and whether it raised. -/
structure Run where
  frame : Frame
  threw : Bool

/-- The actions of lines 219-295 that move between pages or mark media as finished. -/
inductive Action
  | nextVideo
  | previousVideo
  | audioCompleted
  | videoCompleted
deriving DecidableEq, Repr

/-- The read `pages_parsed[i]`; `none` is `undefined`. -/
def pageAt (f : Frame) (i : Int) : Option Page :=
  if 0 ≤ i then f.config.pages[i.toNat]? else none

/-- JavaScript truthiness of a flag that is `undefined`, `false` or `true`. -/
def truthy : Option Bool → Bool
  | some true => true
  | _ => false

def send (o : Output) (f : Frame) : Frame :=
  { f with log := f.log ++ [o] }

def noNext (f : Frame) : Bool :=
  decide (f.pageIndex ≥ (f.config.pages.length : Int) - 1) ||
    !truthy f.hasCompletedThisPageAudio || !truthy f.hasCompletedThisPageVideo

def noPrev (f : Frame) : Bool :=
  decide (f.pageIndex ≤ 0)

/-- Lines 203-215.  Reading `pageHasAudio` raises a `TypeError` when there is no page of
index `pageIndex`. -/
def updatePage (f : Frame) : Run :=
  let f :=
    if f.config.recordLastPage && !f.config.recordWholeProcedure &&
        decide (f.pageIndex = (f.config.pages.length : Int) - 1) then
      send .startRecorder f
    else f
  match pageAt f f.pageIndex with
  | none => ⟨f, true⟩
  | some page =>
    let f := if page.audio then send .playAudio f else f
    let f := if page.video then send .playVideo f else f
    ⟨{ f with
        hasCompletedThisPageAudio := f.hasCompletedEachPageAudio f.pageIndex
        hasCompletedThisPageVideo := f.hasCompletedEachPageVideo f.pageIndex }, false⟩

def nextVideo (f : Frame) : Run :=
  let f := { f with pageIndex := f.pageIndex + 1 }
  if f.pageIndex = (f.config.pages.length : Int) - 1 then
    match pageAt f f.pageIndex with
    | none => ⟨f, true⟩
    | some page =>
      let f := if !page.audio && !page.video then { f with readAllPages := true } else f
      updatePage (send (.timeEvent "nextAssentPage" (some f.pageIndex)) f)
  else updatePage (send (.timeEvent "nextAssentPage" (some f.pageIndex)) f)

def previousVideo (f : Frame) : Run :=
  let f := { f with pageIndex := f.pageIndex - 1 }
  updatePage (send (.timeEvent "previousAssentPage" (some f.pageIndex)) f)

def audioCompleted (f : Frame) : Frame :=
  let f := { f with
    hasCompletedEachPageAudio :=
      fun i => if i = f.pageIndex then some true else f.hasCompletedEachPageAudio i
    hasCompletedThisPageAudio := some true }
  if f.pageIndex = (f.config.pages.length : Int) - 1 then { f with readAllPages := true } else f

def videoCompleted (f : Frame) : Frame :=
  let f := { f with
    hasCompletedEachPageVideo :=
      fun i => if i = f.pageIndex then some true else f.hasCompletedEachPageVideo i
    hasCompletedThisPageVideo := some true }
  if f.pageIndex = (f.config.pages.length : Int) - 1 then { f with readAllPages := true } else f

def act (a : Action) (f : Frame) : Run :=
  match a with
  | .nextVideo => nextVideo f
  | .previousVideo => previousVideo f
  | .audioCompleted => ⟨audioCompleted f, false⟩
  | .videoCompleted => ⟨videoCompleted f, false⟩

/-- A sequence of actions, each handled on the state the one before left, whether or not
that one raised. -/
def runActions (f : Frame) (actions : List Action) : Frame :=
  actions.foldl (fun f a => (act a f).frame) f

/-- Lines 522-527: the age in full years. -/
def ageInYears (dob today : Date) : Int :=
  let beforeBirthday : Int :=
    if today.month < dob.month ∨ (today.month = dob.month ∧ today.date < dob.date) then 1
    else 0
  today.year - dob.year - beforeBirthday

/-- The component as `didInsertElement` finds it: the defaults of lines 152, 153 and
175-179.  `pageIndex` is `null` there and is not read before line 512 sets it to -1; it is -1
here. -/
def create (config : Config) : Frame :=
  { config := config
    pageIndex := -1
    readAllPages := false
    hasCompletedEachPageAudio := fun i => if i = 0 then some false else none
    hasCompletedEachPageVideo := fun i => if i = 0 then some false else none
    hasCompletedThisPageAudio := some false
    hasCompletedThisPageVideo := some false
    log := [] }

/-- Lines 500-512: the two arrays filled from the pages, and the page index set to -1. -/
def populate (f : Frame) : Frame :=
  { f with
    hasCompletedEachPageAudio := fun i => (pageAt f i).map (fun page => !page.audio)
    hasCompletedEachPageVideo := fun i => (pageAt f i).map (fun page => !page.video)
    pageIndex := -1 }

/-- Lines 496-540; `birthday` is `none` when the session has no child or the child no
birthday, `today` is `new Date()`. -/
def didInsertElement (config : Config) (birthday : Option Date) (today : Date) : Run :=
  let r := nextVideo (populate (create config))
  if r.threw then r
  else
    match birthday with
    | none => r
    | some dob =>
      if config.minimumYearsToAssent ≠ 0 ∧
          (ageInYears dob today : ℚ) < config.minimumYearsToAssent then
        ⟨send .next (send (.timeEvent "skipAssentDueToParticipantAge" none) r.frame), false⟩
      else r

/-! ## Birthdays on the calendar -/

def isLeapYear (y : Int) : Bool :=
  (y % 4 == 0 && y % 100 != 0) || y % 400 == 0

/-- Days of month `m` (0 to 11) of year `y`. -/
def daysInMonth (y : Int) (m : Nat) : Nat :=
  match m with
  | 1 => if isLeapYear y then 29 else 28
  | 3 => 30
  | 5 => 30
  | 8 => 30
  | 10 => 30
  | _ => 31

/-- The triple is a day of the calendar. -/
def Date.Valid (d : Date) : Prop :=
  d.month < 12 ∧ 1 ≤ d.date ∧ d.date ≤ daysInMonth d.year d.month

instance (d : Date) : Decidable d.Valid := by
  unfold Date.Valid
  infer_instance

/-- The first date is the second or earlier. -/
def Date.OnOrBefore (a b : Date) : Prop :=
  a.year < b.year ∨ (a.year = b.year ∧ (a.month < b.month ∨ (a.month = b.month ∧ a.date ≤ b.date)))

instance (a b : Date) : Decidable (a.OnOrBefore b) := by
  unfold Date.OnOrBefore
  infer_instance

/-- The month and day of `dob` in the `i`-th year after the year of birth. -/
def anniversary (dob : Date) (i : Nat) : Date :=
  ⟨dob.year + 1 + i, dob.month, dob.date⟩

/-- The number of birthdays, days of the calendar with the month and day of `dob` in a year
after the year of birth, that have occurred on or before `today`. -/
def birthdays (dob today : Date) : Nat :=
  ((List.range (today.year - dob.year).toNat).filter
    (fun i => decide ((anniversary dob i).Valid ∧ (anniversary dob i).OnOrBefore today))).length

/-- The number of years after the year of birth in which the month and day of `dob` have
been reached on or before `today`, whether or not that year has such a day. -/
def yearsReached (dob today : Date) : Nat :=
  ((List.range (today.year - dob.year).toNat).filter
    (fun i => decide ((anniversary dob i).OnOrBefore today))).length

/-- Action `a` was received while the frame, started in `f` and having handled the actions
before it, was on the page of index `i`. -/
def completedOn (a : Action) : Frame → List Action → Int → Bool
  | _, [], _ => false
  | f, b :: rest, i =>
    (decide (b = a) && decide (f.pageIndex = i)) || completedOn a (act b f).frame rest i

/-- When there is a page of index `pageIndex`, the flags of the current page are the stored
entries of that page. -/
def Synced (f : Frame) : Prop :=
  ∀ page, pageAt f f.pageIndex = some page →
    f.hasCompletedThisPageAudio = f.hasCompletedEachPageAudio f.pageIndex ∧
    f.hasCompletedThisPageVideo = f.hasCompletedEachPageVideo f.pageIndex

/-- Three pages: text only, audio and video, text only. -/
def sampleConfig : Config :=
  { pages := [⟨false, false⟩, ⟨true, true⟩, ⟨false, false⟩]
    recordLastPage := false
    recordWholeProcedure := false
    minimumYearsToAssent := 7 }

/-- A child born on 29 February 2016. -/
def leapDayBirthday : Date := ⟨2016, 1, 29⟩

/-- The first of March 2021. -/
def sampleToday : Date := ⟨2021, 2, 1⟩

/-- The frame of `sampleConfig` once inserted, with no child in the session. -/
def sampleStart : Frame := (didInsertElement sampleConfig none sampleToday).frame

end VideoAssent

/-! ## Theorems -/

namespace DiscreteButtonSpatial

theorem transition_later {s t : String} (h : Transition s t) : Later s t := by
  cases h <;> exact ⟨_, _, by rfl, by rfl, by decide⟩

theorem later_trans {s t u : String} (h₁ : Later s t) (h₂ : Later t u) : Later s u := by
  obtain ⟨a, b, ha, hb, hab⟩ := h₁
  obtain ⟨b', d, hb', hd, hbd⟩ := h₂
  rw [hb] at hb'
  cases hb'
  exact ⟨a, d, ha, hd, lt_trans hab hbd⟩

theorem later_or_eq_of_path {s t : String} (h : Relation.ReflTransGen Transition s t) :
    t = s ∨ Later s t := by
  induction h with
  | refl => exact Or.inl rfl
  | tail _ hbc ih =>
    rcases ih with rfl | ih
    · exact Or.inr (transition_later hbc)
    · exact Or.inr (later_trans ih (transition_later hbc))

theorem initialCue_ballState (c : LoopClock) (g : Game) :
    (initialCue c g).ballState = g.ballState := by
  unfold initialCue emit
  split_ifs <;> rfl

theorem startBlock_path (c : LoopClock) (g : Game) :
    Relation.ReflTransGen Transition g.ballState (startBlock c g).ballState := by
  unfold startBlock emit
  split_ifs with h₁ h₂
  · simp only [h₁]
    exact .single .launch
  · exact .refl
  · exact .refl

theorem fallBlock_path (c : LoopClock) (g : Game) :
    Relation.ReflTransGen Transition g.ballState (fallBlock c g).ballState := by
  unfold fallBlock
  split_ifs with h₁ h₂
  · simp only [h₁]
    exact .single .reachHouse
  · exact .refl
  · exact .refl

theorem pressBlock_path (index : Int) (g : Game) :
    Relation.ReflTransGen Transition g.ballState (pressBlock index g).ballState := by
  unfold pressBlock
  split_ifs with h₁
  · rcases h₁.1 with h | h <;> simp only [h]
    · exact .single .pressInFall
    · exact .single .leaveHouse
  · exact .refl

theorem timeoutBlock_path (c : LoopClock) (g : Game) :
    Relation.ReflTransGen Transition g.ballState (timeoutBlock c g).ballState := by
  unfold timeoutBlock
  split_ifs with h₁ h₂
  · simp only [h₁]
    exact .single .leaveHouse
  · exact .refl
  · exact .refl

theorem checkHitState_ballState (index : Int) (g : Game) :
    (checkHitState index g).game.ballState = g.ballState ∨
      (checkHitState index g).game.ballState = "hit target" := by
  unfold checkHitState emit
  split_ifs
  · exact Or.inl rfl
  · exact Or.inl rfl
  · split
    · exact Or.inl rfl
    · exact Or.inr rfl

theorem stampHit_ballState (c : LoopClock) (g : Game) :
    (stampHit c g).ballState = g.ballState := by
  unfold stampHit
  split_ifs <;> rfl

theorem hitBlock_path (c : LoopClock) (index : Int) (g : Game) :
    Relation.ReflTransGen Transition g.ballState (hitBlock c index g).game.ballState := by
  unfold hitBlock
  split_ifs with h₁
  · dsimp only
    split_ifs
    · rcases checkHitState_ballState index (stampHit c g) with h | h
      · simp only [h, stampHit_ballState]
        exact .refl
      · simp only [h, h₁]
        exact .single .settle
    · simp only [stampHit_ballState]
      exact .refl
  · exact .refl

theorem hitTargetBlock_ballState (c : LoopClock) (index : Int) (g : Game) :
    (hitTargetBlock c index g).game.ballState = g.ballState := by
  unfold hitTargetBlock emit
  split_ifs <;> rfl

theorem andThen_hitTargetBlock_ballState (c : LoopClock) (index : Int) (r : Run) :
    (r.andThen (hitTargetBlock c index)).game.ballState = r.game.ballState := by
  unfold Run.andThen
  split_ifs
  · rfl
  · exact hitTargetBlock_ballState c index r.game

theorem loop_path (c : LoopClock) (g : Game) :
    Relation.ReflTransGen Transition g.ballState (loop c g).game.ballState := by
  unfold loop
  split
  · exact .refl
  · simp only [andThen_hitTargetBlock_ballState]
    have h₀ := initialCue_ballState c g
    have h₁ := startBlock_path c (initialCue c g)
    have h₂ := fallBlock_path c (startBlock c (initialCue c g))
    have h₃ := pressBlock_path (findIndex g.pressed) (fallBlock c (startBlock c (initialCue c g)))
    have h₄ := timeoutBlock_path c
      (pressBlock (findIndex g.pressed) (fallBlock c (startBlock c (initialCue c g))))
    have h₅ := hitBlock_path c (findIndex g.pressed) (timeoutBlock c
      (pressBlock (findIndex g.pressed) (fallBlock c (startBlock c (initialCue c g)))))
    rw [h₀] at h₁
    exact h₁.trans (h₂.trans (h₃.trans (h₄.trans h₅)))

theorem startBlock_ballState_cases (c : LoopClock) (g : Game) :
    (startBlock c g).ballState = g.ballState ∨ (startBlock c g).ballState = "fall" := by
  unfold startBlock emit
  split_ifs
  · exact Or.inr rfl
  · exact Or.inl rfl
  · exact Or.inl rfl

theorem fallBlock_ballState_cases (c : LoopClock) (g : Game) :
    (fallBlock c g).ballState = g.ballState ∨ (fallBlock c g).ballState = "hit house" := by
  unfold fallBlock
  split_ifs
  · exact Or.inr rfl
  · exact Or.inl rfl
  · exact Or.inl rfl

theorem pressBlock_ballState_cases (index : Int) (g : Game) :
    (pressBlock index g).ballState = g.ballState ∨ (pressBlock index g).ballState = "hit" := by
  unfold pressBlock
  split_ifs
  · exact Or.inr rfl
  · exact Or.inl rfl

theorem timeoutBlock_ballState_cases (c : LoopClock) (g : Game) :
    (timeoutBlock c g).ballState = g.ballState ∨ (timeoutBlock c g).ballState = "hit" := by
  unfold timeoutBlock
  split_ifs
  · exact Or.inr rfl
  · exact Or.inl rfl
  · exact Or.inl rfl

theorem ne_hit_target_of_cases {s t u : String} (h : t = s ∨ t = u) (hs : s ≠ "hit target")
    (hu : u ≠ "hit target") : t ≠ "hit target" := by
  rcases h with h | h <;> rw [h] <;> assumption

theorem beforeHitBlock_not_hit_target (c : LoopClock) (g : Game)
    (h : g.ballState ≠ "hit target") : (beforeHitBlock c g).ballState ≠ "hit target" := by
  unfold beforeHitBlock
  have h₀ : (initialCue c g).ballState ≠ "hit target" := by
    rw [initialCue_ballState]
    exact h
  have h₁ := ne_hit_target_of_cases (startBlock_ballState_cases c (initialCue c g)) h₀
    (by decide)
  have h₂ := ne_hit_target_of_cases (fallBlock_ballState_cases c _) h₁ (by decide)
  have h₃ := ne_hit_target_of_cases (pressBlock_ballState_cases (findIndex g.pressed) _) h₂
    (by decide)
  exact ne_hit_target_of_cases (timeoutBlock_ballState_cases c _) h₃ (by decide)

theorem checkHitState_game_of_threw (index : Int) (g : Game)
    (h : (checkHitState index g).threw = true) : (checkHitState index g).game = g := by
  revert h
  unfold checkHitState
  split_ifs
  · exact fun _ => rfl
  · exact fun _ => rfl
  · split
    · exact fun _ => rfl
    · intro h
      exact absurd h (by simp)

theorem hitBlock_enters_hit_target (c : LoopClock) (index : Int) (g : Game)
    (hne : g.ballState ≠ "hit target")
    (h : (hitBlock c index g).game.ballState = "hit target") :
    g.ballState = "hit" ∧ hitBlock c index g = checkHitState index (stampHit c g) ∧
      (checkHitState index (stampHit c g)).threw = false := by
  unfold hitBlock at h ⊢
  by_cases h₁ : g.ballState = "hit"
  · rw [if_pos h₁] at h ⊢
    dsimp only at h ⊢
    by_cases h₂ : 0 < (stampHit c g).buttonPressDelay ∧
        getElapsedTime c.atSettle (stampHit c g).buttonPressDelay ≥ 0.5
    · rw [if_pos h₂] at h ⊢
      refine ⟨h₁, rfl, ?_⟩
      cases ht : (checkHitState index (stampHit c g)).threw
      · rfl
      · rw [checkHitState_game_of_threw index _ ht, stampHit_ballState] at h
        exact absurd h hne
    · rw [if_neg h₂] at h
      rw [stampHit_ballState] at h
      exact absurd h hne
  · rw [if_neg h₁] at h
    exact absurd h hne

theorem loop_eq_of_row (c : LoopClock) (g : Game) {row : List Int}
    (h : currentRow g = some row) :
    loop c g = (hitBlock c (findIndex g.pressed) (beforeHitBlock c g)).andThen
      (hitTargetBlock c (findIndex g.pressed)) := by
  unfold loop beforeHitBlock
  rw [h]

/-- C1: a call of `loop` leaves `ball.state` unchanged or moves it to a state later in the
order start < fall < hit house < hit < hit target, along the arrows of the state machine.
'hit target' is entered only from 'hit' and only by `checkHitState`: lines 356-401 of a call
that did not find the ball in 'hit target' do not leave it there; when the call ends in
'hit target' without having started there, the ball was in 'hit' at line 404 and the call is
`checkHitState`, which did not raise, followed by the block of lines 418-431; and block by
block, from any state other than 'hit target' no block but that of lines 404-414 gives
'hit target', and that one only on a ball in 'hit' and as the result of `checkHitState`. -/
theorem loop_ballState_forward (c : LoopClock) (g : Game) :
    ((loop c g).game.ballState = g.ballState ∨ Later g.ballState (loop c g).game.ballState) ∧
    Relation.ReflTransGen Transition g.ballState (loop c g).game.ballState ∧
    (g.ballState ≠ "hit target" → (beforeHitBlock c g).ballState ≠ "hit target") ∧
    ((loop c g).game.ballState = "hit target" → g.ballState ≠ "hit target" →
      (beforeHitBlock c g).ballState = "hit" ∧
      (checkHitState (findIndex g.pressed) (stampHit c (beforeHitBlock c g))).threw = false ∧
      loop c g =
        (checkHitState (findIndex g.pressed) (stampHit c (beforeHitBlock c g))).andThen
          (hitTargetBlock c (findIndex g.pressed))) ∧
    (∀ (index : Int) (h : Game), h.ballState ≠ "hit target" →
      (initialCue c h).ballState ≠ "hit target" ∧
      (startBlock c h).ballState ≠ "hit target" ∧
      (fallBlock c h).ballState ≠ "hit target" ∧
      (pressBlock index h).ballState ≠ "hit target" ∧
      (timeoutBlock c h).ballState ≠ "hit target" ∧
      (hitTargetBlock c index h).game.ballState ≠ "hit target" ∧
      ((hitBlock c index h).game.ballState = "hit target" →
        h.ballState = "hit" ∧ hitBlock c index h = checkHitState index (stampHit c h))) := by
  refine ⟨later_or_eq_of_path (loop_path c g), loop_path c g,
    beforeHitBlock_not_hit_target c g, ?_, ?_⟩
  · intro hend hne
    cases hrow : currentRow g with
    | none =>
      have hl : loop c g = ⟨g, true⟩ := by
        unfold loop
        rw [hrow]
      rw [hl] at hend
      exact absurd hend hne
    | some row =>
      have hloop := loop_eq_of_row c g hrow
      have hb := beforeHitBlock_not_hit_target c g hne
      have hend' : (hitBlock c (findIndex g.pressed) (beforeHitBlock c g)).game.ballState =
          "hit target" := by
        rw [hloop, andThen_hitTargetBlock_ballState] at hend
        exact hend
      obtain ⟨h₁, h₂, h₃⟩ := hitBlock_enters_hit_target c _ _ hb hend'
      refine ⟨h₁, h₃, ?_⟩
      rw [hloop, h₂]
  · intro index h hne
    refine ⟨?_, ne_hit_target_of_cases (startBlock_ballState_cases c h) hne (by decide),
      ne_hit_target_of_cases (fallBlock_ballState_cases c h) hne (by decide),
      ne_hit_target_of_cases (pressBlock_ballState_cases index h) hne (by decide),
      ne_hit_target_of_cases (timeoutBlock_ballState_cases c h) hne (by decide), ?_, ?_⟩
    · rw [initialCue_ballState]
      exact hne
    · rw [hitTargetBlock_ballState]
      exact hne
    · intro hh
      obtain ⟨h₁, h₂, _⟩ := hitBlock_enters_hit_target c index h hne hh
      exact ⟨h₁, h₂⟩

theorem loop_ballState_forward_witness :
    (loop (LoopClock.const 3600) sampleHit).game.ballState = "hit target" ∧
    sampleHit.ballState ≠ "hit target" ∧
    (beforeHitBlock (LoopClock.const 3600) sampleHit).ballState = "hit" ∧
    loop (LoopClock.const 3600) sampleHit =
      (checkHitState (findIndex sampleHit.pressed)
        (stampHit (LoopClock.const 3600) (beforeHitBlock (LoopClock.const 3600) sampleHit))).andThen
          (hitTargetBlock (LoopClock.const 3600) (findIndex sampleHit.pressed)) := by
  have hend : (loop (LoopClock.const 3600) sampleHit).game.ballState = "hit target" := by
    with_unfolding_all decide
  have hne : sampleHit.ballState ≠ "hit target" := by decide
  have h := (loop_ballState_forward (LoopClock.const 3600) sampleHit).2.2.2.1 hend hne
  exact ⟨hend, hne, h.1, h.2.2⟩

theorem startBlock_stays (c : LoopClock) (g : Game) (hs : g.ballState = "start")
    (h : ¬ (0 < g.initialTime ∧ getElapsedTime c.atJitter g.initialTime > g.jitterT)) :
    startBlock c g = g := by
  unfold startBlock
  rw [if_pos hs, if_neg h]

theorem fallBlock_of_ne (c : LoopClock) (g : Game) (hs : g.ballState ≠ "fall") :
    fallBlock c g = g := by
  unfold fallBlock
  rw [if_neg hs]

theorem pressBlock_of_ne (index : Int) (g : Game) (h₁ : g.ballState ≠ "fall")
    (h₂ : g.ballState ≠ "hit house") : pressBlock index g = g := by
  unfold pressBlock
  rw [if_neg]
  rintro ⟨h | h, _⟩
  · exact h₁ h
  · exact h₂ h

theorem timeoutBlock_of_ne (c : LoopClock) (g : Game) (hs : g.ballState ≠ "hit house") :
    timeoutBlock c g = g := by
  unfold timeoutBlock
  rw [if_neg hs]

theorem hitBlock_of_ne (c : LoopClock) (index : Int) (g : Game) (hs : g.ballState ≠ "hit") :
    hitBlock c index g = ⟨g, false⟩ := by
  unfold hitBlock
  rw [if_neg hs]

theorem hitTargetBlock_of_ne (c : LoopClock) (index : Int) (g : Game)
    (hs : g.ballState ≠ "hit target") : hitTargetBlock c index g = ⟨g, false⟩ := by
  unfold hitTargetBlock
  rw [if_neg hs]

theorem initialCue_initialTime (c : LoopClock) (g : Game) :
    (initialCue c g).initialTime = g.initialTime := by
  unfold initialCue emit
  split_ifs <;> rfl

theorem initialCue_jitterT (c : LoopClock) (g : Game) :
    (initialCue c g).jitterT = g.jitterT := by
  unfold initialCue emit
  split_ifs <;> rfl

/-- C2: a call of `loop` that finds the ball in 'start' and leaves it in another state (in
'fall', or further along) is a call in which `initialTime` is set (> 0) and the time elapsed
since `initialTime`, at the clock read of line 364, is greater than `jitterT`. -/
theorem loop_leaves_start_only_after_jitter (c : LoopClock) (g : Game)
    (hs : g.ballState = "start") (hl : (loop c g).game.ballState ≠ "start") :
    0 < g.initialTime ∧ getElapsedTime c.atJitter g.initialTime > g.jitterT := by
  by_contra hcon
  apply hl
  unfold loop
  split
  · exact hs
  · have h₀ : (initialCue c g).ballState = "start" := by rw [initialCue_ballState, hs]
    have h₁ : startBlock c (initialCue c g) = initialCue c g := by
      apply startBlock_stays c _ h₀
      rw [initialCue_initialTime, initialCue_jitterT]
      exact hcon
    rw [andThen_hitTargetBlock_ballState, h₁,
      fallBlock_of_ne c _ (by rw [h₀]; decide),
      pressBlock_of_ne _ _ (by rw [h₀]; decide) (by rw [h₀]; decide),
      timeoutBlock_of_ne c _ (by rw [h₀]; decide),
      hitBlock_of_ne c _ _ (by rw [h₀]; decide)]
    exact h₀

theorem loop_leaves_start_only_after_jitter_witness :
    (sampleStart.ballState = "start" ∧
      (loop (LoopClock.const 3000) sampleStart).game.ballState ≠ "start") ∧
    0 < sampleStart.initialTime ∧
    getElapsedTime (LoopClock.const 3000).atJitter sampleStart.initialTime >
      sampleStart.jitterT :=
  ⟨⟨by decide, by with_unfolding_all decide⟩,
    loop_leaves_start_only_after_jitter (LoopClock.const 3000) sampleStart (by decide)
      (by with_unfolding_all decide)⟩

theorem findIndex_nonneg_of_mem {pressed : List Bool} (h : true ∈ pressed) :
    0 ≤ findIndex pressed := by
  unfold findIndex
  cases hf : pressed.findIdx? (fun item => item != false) with
  | none =>
    rw [List.findIdx?_eq_none_iff] at hf
    have := hf true h
    simp at this
  | some i => exact Int.ofNat_nonneg i

theorem findIndex_eq_neg_one_or_nonneg (pressed : List Bool) :
    findIndex pressed = -1 ∨ 0 ≤ findIndex pressed := by
  unfold findIndex
  cases pressed.findIdx? (fun item => item != false) with
  | none => exact Or.inl rfl
  | some i => exact Or.inr (Int.ofNat_nonneg i)

theorem initialCue_buttonPressDelay (c : LoopClock) (g : Game) :
    (initialCue c g).buttonPressDelay = g.buttonPressDelay := by
  unfold initialCue emit
  split_ifs <;> rfl

theorem startBlock_of_ne (c : LoopClock) (g : Game) (hs : g.ballState ≠ "start") :
    startBlock c g = g := by
  unfold startBlock
  rw [if_neg hs]

theorem fallBlock_ballState_of_fall (c : LoopClock) (g : Game) (hs : g.ballState = "fall") :
    (fallBlock c g).ballState = "fall" ∨ (fallBlock c g).ballState = "hit house" := by
  unfold fallBlock
  rw [if_pos hs]
  split_ifs
  · exact Or.inr rfl
  · exact Or.inl hs

theorem fallBlock_initialTime (c : LoopClock) (g : Game) :
    (fallBlock c g).initialTime = g.initialTime := by
  unfold fallBlock
  split_ifs <;> rfl

theorem fallBlock_buttonPressDelay (c : LoopClock) (g : Game) :
    (fallBlock c g).buttonPressDelay = g.buttonPressDelay := by
  unfold fallBlock
  split_ifs <;> rfl

theorem pressBlock_of_pressed (index : Int) (g : Game)
    (hs : g.ballState = "fall" ∨ g.ballState = "hit house") (hi : 0 ≤ index) :
    pressBlock index g = { g with ballState := "hit" } := by
  unfold pressBlock
  rw [if_pos ⟨hs, hi⟩]

theorem checkHitState_initialTime (index : Int) (g : Game) :
    (checkHitState index g).game.initialTime = g.initialTime := by
  unfold checkHitState emit
  split_ifs
  · rfl
  · rfl
  · split
    · rfl
    · dsimp only
      split_ifs <;> rfl

theorem stampHit_initialTime (c : LoopClock) (g : Game) :
    (stampHit c g).initialTime = g.initialTime := by
  unfold stampHit
  split_ifs <;> rfl

theorem hitBlock_initialTime (c : LoopClock) (index : Int) (g : Game) :
    (hitBlock c index g).game.initialTime = g.initialTime := by
  unfold hitBlock
  split_ifs
  · dsimp only
    split_ifs
    · rw [checkHitState_initialTime, stampHit_initialTime]
    · exact stampHit_initialTime c g
  · rfl

theorem hitTargetBlock_initialTime (c : LoopClock) (index : Int) (g : Game) :
    (hitTargetBlock c index g).game.initialTime = g.initialTime := by
  unfold hitTargetBlock emit
  split_ifs <;> rfl

theorem andThen_hitTargetBlock_initialTime (c : LoopClock) (index : Int) (r : Run) :
    (r.andThen (hitTargetBlock c index)).game.initialTime = r.game.initialTime := by
  unfold Run.andThen
  split_ifs
  · rfl
  · exact hitTargetBlock_initialTime c index r.game

theorem hitBlock_of_fresh (c : LoopClock) (index : Int) (g : Game) (hs : g.ballState = "hit")
    (hd : g.buttonPressDelay = 0) (hclk : getElapsedTime c.atSettle c.atHitStamp < 0.5) :
    hitBlock c index g = ⟨{ g with buttonPressDelay := c.atHitStamp }, false⟩ := by
  unfold hitBlock stampHit
  rw [if_pos hs, if_pos hd]
  dsimp only
  rw [if_neg]
  rintro ⟨_, h⟩
  exact absurd h (not_le.mpr hclk)

theorem hitBlock_ballState_of_hit (c : LoopClock) (index : Int) (g : Game)
    (hs : g.ballState = "hit") :
    (hitBlock c index g).game.ballState = "hit" ∨
      (hitBlock c index g).game.ballState = "hit target" := by
  unfold hitBlock
  rw [if_pos hs]
  dsimp only
  split_ifs
  · rcases checkHitState_ballState index (stampHit c g) with h | h
    · rw [h, stampHit_ballState]
      exact Or.inl hs
    · exact Or.inr h
  · rw [stampHit_ballState]
    exact Or.inl hs

theorem loop_of_row (c : LoopClock) (g : Game) {row : List Int} (h : currentRow g = some row) :
    loop c g = (hitBlock c (findIndex g.pressed) (timeoutBlock c (pressBlock (findIndex g.pressed)
      (fallBlock c (startBlock c (initialCue c g)))))).andThen
        (hitTargetBlock c (findIndex g.pressed)) := by
  unfold loop
  rw [h]

theorem loop_of_no_row (c : LoopClock) (g : Game) (h : currentRow g = none) :
    loop c g = ⟨g, true⟩ := by
  unfold loop
  rw [h]

theorem loop_tail_of_press (c : LoopClock) (index : Int) (g : Game) (hi : 0 ≤ index)
    (hs : g.ballState = "fall" ∨ g.ballState = "hit house") :
    (((hitBlock c index (timeoutBlock c (pressBlock index (fallBlock c g)))).andThen
        (hitTargetBlock c index)).game.ballState = "hit" ∨
      ((hitBlock c index (timeoutBlock c (pressBlock index (fallBlock c g)))).andThen
        (hitTargetBlock c index)).game.ballState = "hit target") ∧
    ((hitBlock c index (timeoutBlock c (pressBlock index (fallBlock c g)))).andThen
        (hitTargetBlock c index)).game.initialTime = g.initialTime ∧
    (g.buttonPressDelay = 0 → getElapsedTime c.atSettle c.atHitStamp < 0.5 →
      ((hitBlock c index (timeoutBlock c (pressBlock index (fallBlock c g)))).andThen
        (hitTargetBlock c index)).game.ballState = "hit" ∧
      ((hitBlock c index (timeoutBlock c (pressBlock index (fallBlock c g)))).andThen
        (hitTargetBlock c index)).game.buttonPressDelay = c.atHitStamp) := by
  have h₁ : (fallBlock c g).ballState = "fall" ∨ (fallBlock c g).ballState = "hit house" := by
    rcases hs with h | h
    · exact fallBlock_ballState_of_fall c _ h
    · rw [fallBlock_of_ne c _ (by rw [h]; decide)]
      exact Or.inr h
  rw [pressBlock_of_pressed _ _ h₁ hi,
    timeoutBlock_of_ne c { fallBlock c g with ballState := "hit" }
      (by show "hit" ≠ "hit house"; decide)]
  refine ⟨?_, ?_, ?_⟩
  · rw [andThen_hitTargetBlock_ballState]
    exact hitBlock_ballState_of_hit c _ _ rfl
  · rw [andThen_hitTargetBlock_initialTime, hitBlock_initialTime]
    exact fallBlock_initialTime c _
  · intro hd hclk
    rw [hitBlock_of_fresh c _ { fallBlock c g with ballState := "hit" } rfl
      ((fallBlock_buttonPressDelay c _).trans hd) hclk]
    unfold Run.andThen
    rw [if_neg (by simp), hitTargetBlock_of_ne c _ _ (by show "hit" ≠ "hit target"; decide)]
    exact ⟨rfl, rfl⟩

/-- C3: when the round has its parameters, some entry of `pressed` is true and the ball is in
'fall' or 'hit house', the call of `loop` takes the ball to 'hit' whatever time has elapsed
since `initialTime`: after the call the ball is in 'hit' (or already past it, in
'hit target'), and `initialTime` is not restamped, so the 2.5 s branch did not run.  With
`buttonPressDelay` still 0, as `initGame` left it, and less than 0.5 s between the clock
reads of lines 407 and 410, the ball is exactly in 'hit' and `buttonPressDelay` holds the
time of the press. -/
theorem loop_press_enters_hit (c : LoopClock) (g : Game) (hrow : currentRow g ≠ none)
    (hp : true ∈ g.pressed) (hs : g.ballState = "fall" ∨ g.ballState = "hit house") :
    ((loop c g).game.ballState = "hit" ∨ (loop c g).game.ballState = "hit target") ∧
    (loop c g).game.initialTime = g.initialTime ∧
    (g.buttonPressDelay = 0 → getElapsedTime c.atSettle c.atHitStamp < 0.5 →
      (loop c g).game.ballState = "hit" ∧ (loop c g).game.buttonPressDelay = c.atHitStamp) := by
  have hi := findIndex_nonneg_of_mem hp
  have hne : (initialCue c g).ballState ≠ "start" := by
    rw [initialCue_ballState]
    rcases hs with h | h <;> rw [h] <;> decide
  obtain ⟨row, hrow⟩ := Option.ne_none_iff_exists'.mp hrow
  have ht := loop_tail_of_press c (findIndex g.pressed) (initialCue c g) hi
    (by rwa [initialCue_ballState])
  rw [initialCue_initialTime, initialCue_buttonPressDelay] at ht
  rw [loop_of_row c g hrow, startBlock_of_ne c _ hne]
  exact ht

theorem loop_press_enters_hit_witness :
    (currentRow sampleFallPressed ≠ none ∧ true ∈ sampleFallPressed.pressed ∧
      sampleFallPressed.ballState = "fall") ∧
    (loop (LoopClock.const 5900) sampleFallPressed).game.ballState = "hit" ∧
    (loop (LoopClock.const 5900) sampleFallPressed).game.initialTime = 3000 ∧
    (loop (LoopClock.const 5900) sampleFallPressed).game.buttonPressDelay = 5900 :=
  have h := loop_press_enters_hit (LoopClock.const 5900) sampleFallPressed (by decide)
    (by decide) (Or.inl (by decide))
  have h' := h.2.2 (by decide) (by with_unfolding_all decide)
  ⟨⟨by decide, by decide, by decide⟩, h'.1, h.2.1, h'.2⟩

theorem keyDownHandler_of_open (key : String) (g : Game) (h₁ : g.ballState ≠ "hit")
    (h₂ : g.ballState ≠ "hit target") :
    keyDownHandler key g = { g with pressed := ((g.pressed.map (fun _ => false)).enum.map
      (fun (index, _) => decide (keys[index]? = some key))) } := by
  unfold keyDownHandler
  rw [if_pos ⟨h₁, h₂⟩]

theorem keyDownHandler_of_closed (key : String) (g : Game)
    (h : g.ballState = "hit" ∨ g.ballState = "hit target") : keyDownHandler key g = g := by
  unfold keyDownHandler
  rw [if_neg]
  rintro ⟨h₁, h₂⟩
  rcases h with h | h
  · exact h₁ h
  · exact h₂ h

theorem keyDownHandler_ballState (key : String) (g : Game) :
    (keyDownHandler key g).ballState = g.ballState := by
  unfold keyDownHandler
  split_ifs <;> rfl

theorem pressedAfter_getElem? (key : String) (pressed : List Bool) (i : Nat) :
    ((pressed.map (fun _ => false)).enum.map
      (fun (index, _) => decide (keys[index]? = some key)))[i]? =
      if i < pressed.length then some (decide (keys[i]? = some key)) else none := by
  rw [List.getElem?_map, List.getElem?_enum, List.getElem?_map]
  split_ifs with h
  · rw [List.getElem?_eq_getElem h]
    rfl
  · rw [List.getElem?_eq_none (not_lt.mp h)]
    rfl

theorem keys_index_unique {key : String} {i j : Nat} (hi : keys[i]? = some key)
    (hj : keys[j]? = some key) : i = j := by
  have hlt : i < keys.length := by
    by_contra h
    rw [List.getElem?_eq_none (not_lt.mp h)] at hi
    cases hi
  exact List.getElem?_inj hlt (by decide) (hi.trans hj.symm)

theorem initialCue_pressed (c : LoopClock) (g : Game) :
    (initialCue c g).pressed = g.pressed := by
  unfold initialCue emit
  split_ifs <;> rfl

theorem startBlock_pressed (c : LoopClock) (g : Game) :
    (startBlock c g).pressed = g.pressed := by
  unfold startBlock emit
  split_ifs <;> rfl

theorem fallBlock_pressed (c : LoopClock) (g : Game) :
    (fallBlock c g).pressed = g.pressed := by
  unfold fallBlock
  split_ifs <;> rfl

theorem pressBlock_pressed (index : Int) (g : Game) :
    (pressBlock index g).pressed = g.pressed := by
  unfold pressBlock
  split_ifs <;> rfl

theorem timeoutBlock_pressed (c : LoopClock) (g : Game) :
    (timeoutBlock c g).pressed = g.pressed := by
  unfold timeoutBlock
  split_ifs <;> rfl

theorem stampHit_pressed (c : LoopClock) (g : Game) :
    (stampHit c g).pressed = g.pressed := by
  unfold stampHit
  split_ifs <;> rfl

theorem checkHitState_pressed (index : Int) (g : Game) :
    (checkHitState index g).game.pressed = g.pressed := by
  unfold checkHitState emit
  split_ifs
  · rfl
  · rfl
  · split
    · rfl
    · dsimp only
      split_ifs <;> rfl

theorem hitBlock_pressed (c : LoopClock) (index : Int) (g : Game) :
    (hitBlock c index g).game.pressed = g.pressed := by
  unfold hitBlock
  split_ifs
  · dsimp only
    split_ifs
    · rw [checkHitState_pressed, stampHit_pressed]
    · exact stampHit_pressed c g
  · rfl

theorem hitTargetBlock_pressed (c : LoopClock) (index : Int) (g : Game) :
    (hitTargetBlock c index g).game.pressed = g.pressed := by
  unfold hitTargetBlock emit
  split_ifs <;> rfl

theorem loop_pressed (c : LoopClock) (g : Game) : (loop c g).game.pressed = g.pressed := by
  cases hrow : currentRow g with
  | none => rw [loop_of_no_row c g hrow]
  | some row =>
    rw [loop_of_row c g hrow]
    unfold Run.andThen
    split_ifs
    · rw [hitBlock_pressed, timeoutBlock_pressed, pressBlock_pressed, fallBlock_pressed,
        startBlock_pressed, initialCue_pressed]
    · rw [hitTargetBlock_pressed, hitBlock_pressed, timeoutBlock_pressed, pressBlock_pressed,
        fallBlock_pressed, startBlock_pressed, initialCue_pressed]

theorem startBlock_of_launch (c : LoopClock) (g : Game) (hs : g.ballState = "start")
    (h : 0 < g.initialTime ∧ getElapsedTime c.atJitter g.initialTime > g.jitterT) :
    startBlock c g = { emit .playLaunch (emit .pauseStart g) with
      initialTime := c.atLaunch, ballState := "fall" } := by
  unfold startBlock
  rw [if_pos hs, if_pos h]

theorem initialCue_currentRow (c : LoopClock) (g : Game) :
    currentRow (initialCue c g) = currentRow g := by
  unfold initialCue emit currentRow
  split_ifs <;> rfl

theorem keyDownHandler_initialTime (key : String) (g : Game) :
    (keyDownHandler key g).initialTime = g.initialTime := by
  unfold keyDownHandler
  split_ifs <;> rfl

theorem keyDownHandler_jitterT (key : String) (g : Game) :
    (keyDownHandler key g).jitterT = g.jitterT := by
  unfold keyDownHandler
  split_ifs <;> rfl

theorem keyDownHandler_buttonPressDelay (key : String) (g : Game) :
    (keyDownHandler key g).buttonPressDelay = g.buttonPressDelay := by
  unfold keyDownHandler
  split_ifs <;> rfl

theorem keyDownHandler_currentRow (key : String) (g : Game) :
    currentRow (keyDownHandler key g) = currentRow g := by
  unfold keyDownHandler currentRow
  split_ifs <;> rfl

/-- C4, as stated, fails: a 'y' pressed while the ball is in 'start' changes `pressed`, and
the call of `loop` that would launch the ball into 'fall' takes it to 'hit' instead. -/
theorem keyDownHandler_in_start_not_ignored :
    sampleStart.ballState = "start" ∧
    (keyDownHandler "y" sampleStart).pressed ≠ sampleStart.pressed ∧
    (loop (LoopClock.const 3000) sampleStart).game.ballState = "fall" ∧
    (loop (LoopClock.const 3000) (keyDownHandler "y" sampleStart)).game.ballState = "hit" :=
  ⟨by decide, by decide, by with_unfolding_all decide, by with_unfolding_all decide⟩

/-- C4, amended: a key event handled while the ball is in 'start' is recorded like any other
outside 'hit' and 'hit target': the ball stays in 'start' and `pressed[i]` becomes
`keys[i] === key`.  If the key is one of y, g, v, the call of `loop` that launches the ball
(round parameters present, `initialTime` set, jitter elapsed) takes it to 'hit' in that same
call, given `buttonPressDelay` is 0 and less than 0.5 s lie between the clock reads of
lines 407 and 410. -/
theorem keyDownHandler_in_start_recorded (c : LoopClock) (key : String) (g : Game)
    (hs : g.ballState = "start") :
    (keyDownHandler key g).ballState = "start" ∧
    (∀ i : Nat, i < g.pressed.length →
      (keyDownHandler key g).pressed[i]? = some (decide (keys[i]? = some key))) ∧
    (currentRow g ≠ none → (∃ i : Nat, i < g.pressed.length ∧ keys[i]? = some key) →
      0 < g.initialTime → getElapsedTime c.atJitter g.initialTime > g.jitterT →
      g.buttonPressDelay = 0 → getElapsedTime c.atSettle c.atHitStamp < 0.5 →
      (loop c (keyDownHandler key g)).game.ballState = "hit") := by
  have h₁ : g.ballState ≠ "hit" := by rw [hs]; decide
  have h₂ : g.ballState ≠ "hit target" := by rw [hs]; decide
  have hpress : ∀ i, i < g.pressed.length →
      (keyDownHandler key g).pressed[i]? = some (decide (keys[i]? = some key)) := by
    intro i hi
    rw [keyDownHandler_of_open key g h₁ h₂]
    show ((g.pressed.map (fun _ => false)).enum.map
      (fun (index, _) => decide (keys[index]? = some key)))[i]? = _
    rw [pressedAfter_getElem?, if_pos hi]
  refine ⟨by rw [keyDownHandler_ballState, hs], hpress, ?_⟩
  intro hrow ⟨i, hi, hkey⟩ hinit hjit hd hclk
  have hmem : true ∈ (keyDownHandler key g).pressed := by
    have := hpress i hi
    rw [decide_eq_true hkey] at this
    exact List.getElem?_mem this
  have hidx := findIndex_nonneg_of_mem hmem
  obtain ⟨row, hrow⟩ := Option.ne_none_iff_exists'.mp hrow
  have hrow' : currentRow (keyDownHandler key g) = some row := by
    rw [keyDownHandler_currentRow]
    exact hrow
  have hstart : (initialCue c (keyDownHandler key g)).ballState = "start" := by
    rw [initialCue_ballState, keyDownHandler_ballState, hs]
  have hlaunch : 0 < (initialCue c (keyDownHandler key g)).initialTime ∧
      getElapsedTime c.atJitter (initialCue c (keyDownHandler key g)).initialTime >
        (initialCue c (keyDownHandler key g)).jitterT := by
    rw [initialCue_initialTime, initialCue_jitterT, keyDownHandler_initialTime,
      keyDownHandler_jitterT]
    exact ⟨hinit, hjit⟩
  have hd' : (initialCue c (keyDownHandler key g)).buttonPressDelay = 0 := by
    rw [initialCue_buttonPressDelay, keyDownHandler_buttonPressDelay]
    exact hd
  rw [loop_of_row c _ hrow', startBlock_of_launch c _ hstart hlaunch]
  have hfall : ({ emit .playLaunch (emit .pauseStart (initialCue c (keyDownHandler key g))) with
      initialTime := c.atLaunch, ballState := "fall" } : Game).ballState = "fall" := rfl
  have hstamp : ({ emit .playLaunch (emit .pauseStart (initialCue c (keyDownHandler key g))) with
      initialTime := c.atLaunch, ballState := "fall" } : Game).buttonPressDelay = 0 := hd'
  exact ((loop_tail_of_press c (findIndex (keyDownHandler key g).pressed) _ hidx
    (Or.inl hfall)).2.2 hstamp hclk).1

theorem keyDownHandler_in_start_recorded_witness :
    sampleStart.ballState = "start" ∧
    (keyDownHandler "y" sampleStart).ballState = "start" ∧
    (keyDownHandler "y" sampleStart).pressed[0]? = some true ∧
    (loop (LoopClock.const 3000) (keyDownHandler "y" sampleStart)).game.ballState = "hit" :=
  have h := keyDownHandler_in_start_recorded (LoopClock.const 3000) "y" sampleStart (by decide)
  ⟨by decide, h.1, h.2.1 0 (by decide),
    h.2.2 (by decide) ⟨0, by decide, by decide⟩ (by decide) (by with_unfolding_all decide)
      (by decide) (by with_unfolding_all decide)⟩

theorem loop_ballState_of_closed (c : LoopClock) (g : Game)
    (hs : g.ballState = "hit" ∨ g.ballState = "hit target") :
    (loop c g).game.ballState = "hit" ∨ (loop c g).game.ballState = "hit target" := by
  have hp := loop_path c g
  rcases hs with h | h
  · rw [h] at hp
    rcases Relation.ReflTransGen.cases_head hp with heq | ⟨b, hb, hrest⟩
    · exact Or.inl heq.symm
    · have hb' : b = "hit target" := by
        generalize hx : "hit" = x at hb
        cases hb <;> first | rfl | exact absurd hx (by decide)
      rw [hb'] at hrest
      rcases Relation.ReflTransGen.cases_head hrest with heq | ⟨d, hd, _⟩
      · exact Or.inr heq.symm
      · generalize hx : "hit target" = x at hd
        cases hd <;> exact absurd hx (by decide)
  · rw [h] at hp
    rcases Relation.ReflTransGen.cases_head hp with heq | ⟨d, hd, _⟩
    · exact Or.inr heq.symm
    · generalize hx : "hit target" = x at hd
      cases hd <;> exact absurd hx (by decide)

/-- C5: while the ball is in 'hit' or 'hit target', `keyDownHandler` changes nothing, for
every key; `loop` never writes `pressed` and keeps the ball in 'hit' or 'hit target', so the
index of the selected window, `pressed.findIndex(...)`, stays what it was. -/
theorem keyDownHandler_closed_after_hit (c : LoopClock) (key : String) (g : Game)
    (hs : g.ballState = "hit" ∨ g.ballState = "hit target") :
    keyDownHandler key g = g ∧
    (keyDownHandler key g).pressed = g.pressed ∧
    (loop c g).game.pressed = g.pressed ∧
    findIndex (loop c g).game.pressed = findIndex g.pressed ∧
    ((loop c g).game.ballState = "hit" ∨ (loop c g).game.ballState = "hit target") := by
  refine ⟨keyDownHandler_of_closed key g hs, ?_, loop_pressed c g, ?_,
    loop_ballState_of_closed c g hs⟩
  · rw [keyDownHandler_of_closed key g hs]
  · rw [loop_pressed]

theorem keyDownHandler_closed_after_hit_witness :
    sampleHit.ballState = "hit" ∧
    keyDownHandler "v" sampleHit = sampleHit ∧
    (loop (LoopClock.const 3200) sampleHit).game.pressed = [true, false, false] :=
  have h := keyDownHandler_closed_after_hit (LoopClock.const 3200) "v" sampleHit
    (Or.inl (by decide))
  ⟨by decide, h.1, h.2.2.1⟩

/-- C6: after `keyDownHandler` handles a key while the ball is in neither 'hit' nor
'hit target', `pressed` has its old length and `pressed[i]` is `keys[i] === key`; so at most
one entry is true, a key outside y, g, v leaves no entry true, and a second key event
overwrites the first: handling `first` then `key` gives the state of handling `key` alone. -/
theorem keyDownHandler_records_last_key (key : String) (g : Game) (h₁ : g.ballState ≠ "hit")
    (h₂ : g.ballState ≠ "hit target") :
    (keyDownHandler key g).pressed.length = g.pressed.length ∧
    (∀ i : Nat, i < g.pressed.length →
      (keyDownHandler key g).pressed[i]? = some (decide (keys[i]? = some key))) ∧
    (∀ i : Nat, (keyDownHandler key g).pressed[i]? = some true ↔
      i < g.pressed.length ∧ keys[i]? = some key) ∧
    (∀ i j : Nat, (keyDownHandler key g).pressed[i]? = some true →
      (keyDownHandler key g).pressed[j]? = some true → i = j) ∧
    (key ∉ keys → true ∉ (keyDownHandler key g).pressed) ∧
    (∀ first, keyDownHandler key (keyDownHandler first g) = keyDownHandler key g) := by
  have hget : ∀ i, (keyDownHandler key g).pressed[i]? =
      if i < g.pressed.length then some (decide (keys[i]? = some key)) else none := by
    intro i
    rw [keyDownHandler_of_open key g h₁ h₂]
    exact pressedAfter_getElem? key g.pressed i
  have hiff : ∀ i, (keyDownHandler key g).pressed[i]? = some true ↔
      i < g.pressed.length ∧ keys[i]? = some key := by
    intro i
    rw [hget i]
    split_ifs with hi
    · simp [hi]
    · simp [hi]
  refine ⟨?_, ?_, hiff, ?_, ?_, ?_⟩
  · rw [keyDownHandler_of_open key g h₁ h₂]
    simp
  · intro i hi
    rw [hget i, if_pos hi]
  · intro i j hi hj
    exact keys_index_unique ((hiff i).mp hi).2 ((hiff j).mp hj).2
  · intro hkey hmem
    obtain ⟨i, hi⟩ := List.mem_iff_getElem?.mp hmem
    exact hkey (List.getElem?_mem ((hiff i).mp hi).2)
  · intro first
    have h₁' : (keyDownHandler first g).ballState ≠ "hit" := by
      rwa [keyDownHandler_ballState]
    have h₂' : (keyDownHandler first g).ballState ≠ "hit target" := by
      rwa [keyDownHandler_ballState]
    rw [keyDownHandler_of_open key _ h₁' h₂', keyDownHandler_of_open key g h₁ h₂,
      keyDownHandler_of_open first g h₁ h₂]
    simp

theorem keyDownHandler_records_last_key_witness :
    (sampleFallPressed.ballState ≠ "hit" ∧ sampleFallPressed.ballState ≠ "hit target") ∧
    (keyDownHandler "v" sampleFallPressed).pressed[2]? = some true ∧
    (keyDownHandler "v" sampleFallPressed).pressed[0]? ≠ some true ∧
    keyDownHandler "v" (keyDownHandler "g" sampleFallPressed) =
      keyDownHandler "v" sampleFallPressed :=
  have h := keyDownHandler_records_last_key "v" sampleFallPressed (by decide) (by decide)
  ⟨⟨by decide, by decide⟩, (h.2.2.1 2).mpr ⟨by decide, by decide⟩,
    fun h0 => absurd (h.2.2.2.1 0 2 h0 ((h.2.2.1 2).mpr ⟨by decide, by decide⟩))
      (show (0 : Nat) ≠ 2 by decide),
    h.2.2.2.2.2 "g"⟩

theorem jsIndex_indexArr (v : Int) (h : v = 1 ∨ v = 2 ∨ v = 3) :
    jsIndex ([2, 1, 0] : List Int) (v - 1) = some (3 - v) := by
  rcases h with rfl | rfl | rfl <;> rfl

/-- C7: for a round whose velocity parameter `v` is 1, 2 or 3, `getCorrectIndex` returns
entry `v - 1` of `[2, 1, 0]`, which is `3 - v`, whatever the obstruction column and the rest
of the state hold; velocity bucket 3 gives index 0. -/
theorem getCorrectIndex_reverse_lookup (g : Game) (row : List Int) (v : Int)
    (hrow : currentRow g = some row) (hv : row[VELOCITY]? = some v)
    (h : v = 1 ∨ v = 2 ∨ v = 3) :
    getCorrectIndex g = some (jsIndex [2, 1, 0] (v - 1)) ∧
    getCorrectIndex g = some (some (3 - v)) ∧
    (v = 3 → getCorrectIndex g = some (some 0)) := by
  have h₁ : getCorrectIndex g = some (jsIndex [2, 1, 0] (v - 1)) := by
    unfold getCorrectIndex
    rw [hrow]
    dsimp only
    rw [hv]
    rfl
  refine ⟨h₁, ?_, ?_⟩
  · rw [h₁, jsIndex_indexArr v h]
  · intro h3
    rw [h₁, jsIndex_indexArr v h, h3]
    rfl

theorem getCorrectIndex_reverse_lookup_witness :
    (currentRow sampleStart = some [1, 3] ∧ ([1, 3] : List Int)[VELOCITY]? = some 3) ∧
    getCorrectIndex sampleStart = some (some 0) ∧
    getCorrectIndex { sampleStart with trajectoryParameters := [[2, 3]] } = some (some 0) :=
  ⟨⟨by decide, by decide⟩,
    (getCorrectIndex_reverse_lookup sampleStart [1, 3] 3 (by decide) (by decide)
      (Or.inr (Or.inr rfl))).2.2 rfl,
    (getCorrectIndex_reverse_lookup { sampleStart with trajectoryParameters := [[2, 3]] }
      [2, 3] 3 (by decide) (by decide) (Or.inr (Or.inr rfl))).2.2 rfl⟩

theorem jsIndex_keys_eq_none (i : Int) : jsIndex keys i = none ↔ i < 0 ∨ 3 ≤ i := by
  unfold jsIndex
  split_ifs with h
  · rw [List.getElem?_eq_none_iff]
    show keys.length ≤ i.toNat ↔ _
    have : keys.length = 3 := rfl
    omega
  · simp only [true_iff]
    omega

theorem findIndex_eq_neg_one_of_not_mem {pressed : List Bool} (h : true ∉ pressed) :
    findIndex pressed = -1 := by
  unfold findIndex
  cases hf : pressed.findIdx? (fun item => item != false) with
  | none => rfl
  | some i =>
    exfalso
    have := List.findIdx?_eq_some_iff_getElem.mp hf
    obtain ⟨hlt, hp, _⟩ := this
    apply h
    have hmem := List.getElem_mem hlt
    have htrue : pressed[i] = true := by simpa using hp
    rwa [htrue] at hmem

/-- C8: for a round of velocity 1, 2 or 3 `dataCollection` builds a row (and stores it when
the ball is in 'hit' or 'fall') in which `selected_button` equals `window` if and only if
the index of the pressed key, `pressed.findIndex(...)`, equals `getCorrectIndex()`;
`window` is 1, 2 or 3, `selected_button` is 1, 2, 3 or 4, and with no key pressed
`selected_button` is 4 and differs from `window`. -/
theorem exportData_marks_match (now : Int) (g : Game) (row : List Int) (v : Int)
    (hrow : currentRow g = some row) (hv : row[VELOCITY]? = some v)
    (h : v = 1 ∨ v = 2 ∨ v = 3) :
    ∃ r : ExportRow, exportData now g = some r ∧
      dataCollection now g =
        (if g.ballState = "hit" ∨ g.ballState = "fall" then ⟨emit (.storeData r) g, false⟩
          else ⟨g, false⟩) ∧
      (some r.selected_button = r.window ↔
        getCorrectIndex g = some (some (findIndex g.pressed))) ∧
      (r.window = some 1 ∨ r.window = some 2 ∨ r.window = some 3) ∧
      (r.selected_button = 1 ∨ r.selected_button = 2 ∨ r.selected_button = 3 ∨
        r.selected_button = 4) ∧
      (true ∉ g.pressed → r.selected_button = 4 ∧ some r.selected_button ≠ r.window) := by
  have hc : getCorrectIndex g = some (some (3 - v)) := by
    unfold getCorrectIndex
    rw [hrow]
    dsimp only
    rw [hv]
    exact congrArg some (jsIndex_indexArr v h)
  have he : exportData now g = some {
      game_type := "discreteButtonSpatial"
      window := some (3 - v + 1)
      selected_button :=
        (if jsIndex keys (findIndex g.pressed) = none then 3 else findIndex g.pressed) + 1
      obstruction_number := row[OBSTRUCTION]?
      trial := g.currentRounds
      timestamp := getElapsedTime now g.initialTime } := by
    unfold exportData
    rw [hc, hrow]
    rfl
  refine ⟨_, he, ?_, ?_, ?_, ?_, ?_⟩
  · unfold dataCollection
    rw [he]
  · rw [hc]
    dsimp only
    have hk := jsIndex_keys_eq_none (findIndex g.pressed)
    split_ifs with hn
    · have := hk.mp hn
      simp only [Option.some.injEq]
      omega
    · have : ¬ (findIndex g.pressed < 0 ∨ 3 ≤ findIndex g.pressed) := fun hh => hn (hk.mpr hh)
      simp only [Option.some.injEq]
      omega
  · dsimp only
    rcases h with rfl | rfl | rfl
    · exact Or.inr (Or.inr rfl)
    · exact Or.inr (Or.inl rfl)
    · exact Or.inl rfl
  · dsimp only
    have hk := jsIndex_keys_eq_none (findIndex g.pressed)
    split_ifs with hn
    · exact Or.inr (Or.inr (Or.inr rfl))
    · have : ¬ (findIndex g.pressed < 0 ∨ 3 ≤ findIndex g.pressed) := fun hh => hn (hk.mpr hh)
      rcases findIndex_eq_neg_one_or_nonneg g.pressed with h1 | h1
      · omega
      · omega
  · intro hno
    have hf := findIndex_eq_neg_one_of_not_mem hno
    have hn : jsIndex keys (findIndex g.pressed) = none :=
      (jsIndex_keys_eq_none _).mpr (Or.inl (by omega))
    dsimp only
    rw [if_pos hn]
    refine ⟨rfl, ?_⟩
    simp only [ne_eq, Option.some.injEq]
    omega

theorem exportData_marks_match_witness :
    (currentRow sampleHit = some [1, 3] ∧ ([1, 3] : List Int)[VELOCITY]? = some 3) ∧
    ∃ r : ExportRow, exportData 3200 sampleHit = some r ∧
      some r.selected_button = r.window := by
  obtain ⟨r, hr, _, hiff, _⟩ := exportData_marks_match 3200 sampleHit [1, 3] 3 (by decide)
    (by decide) (Or.inr (Or.inr rfl))
  exact ⟨⟨by decide, by decide⟩, r, hr, hiff.mpr (by decide)⟩

theorem quiet_refl (g : Game) : Quiet g g :=
  ⟨[], (List.append_nil _).symm, fun _ h => absurd h (List.not_mem_nil _)⟩

theorem quiet_of_effects_eq {g g' : Game} (h : g'.effects = g.effects) : Quiet g g' :=
  ⟨[], by rw [h, List.append_nil], fun _ h => absurd h (List.not_mem_nil _)⟩

theorem quiet_trans {g₁ g₂ g₃ : Game} (h₁ : Quiet g₁ g₂) (h₂ : Quiet g₂ g₃) : Quiet g₁ g₃ := by
  obtain ⟨a, ha, hna⟩ := h₁
  obtain ⟨b, hb, hnb⟩ := h₂
  refine ⟨a ++ b, by rw [hb, ha, List.append_assoc], ?_⟩
  intro x hx
  rcases List.mem_append.mp hx with h | h
  · exact hna x h
  · exact hnb x h

theorem quiet_emit {g : Game} {e : Effect} (he : ∀ b, e ≠ Effect.finishGame b) :
    Quiet g (emit e g) :=
  ⟨[e], rfl, fun b h => he b (List.mem_singleton.mp h).symm⟩

theorem initialCue_quiet (c : LoopClock) (g : Game) : Quiet g (initialCue c g) := by
  unfold initialCue
  split_ifs
  · exact quiet_emit (fun b h => by cases h)
  · exact quiet_refl g

theorem startBlock_quiet (c : LoopClock) (g : Game) : Quiet g (startBlock c g) := by
  unfold startBlock
  split_ifs
  · exact ⟨[.pauseStart, .playLaunch], by simp [emit], by simp⟩
  · exact quiet_refl g
  · exact quiet_refl g

theorem fallBlock_quiet (c : LoopClock) (g : Game) : Quiet g (fallBlock c g) := by
  unfold fallBlock
  split_ifs
  · exact quiet_of_effects_eq rfl
  · exact quiet_refl g
  · exact quiet_refl g

theorem pressBlock_quiet (index : Int) (g : Game) : Quiet g (pressBlock index g) := by
  unfold pressBlock
  split_ifs
  · exact quiet_of_effects_eq rfl
  · exact quiet_refl g

theorem timeoutBlock_quiet (c : LoopClock) (g : Game) : Quiet g (timeoutBlock c g) := by
  unfold timeoutBlock
  split_ifs
  · exact quiet_of_effects_eq rfl
  · exact quiet_refl g
  · exact quiet_refl g

theorem stampHit_quiet (c : LoopClock) (g : Game) : Quiet g (stampHit c g) := by
  unfold stampHit
  split_ifs
  · exact quiet_of_effects_eq rfl
  · exact quiet_refl g

theorem checkHitState_quiet (index : Int) (g : Game) :
    Quiet g (checkHitState index g).game := by
  unfold checkHitState
  split_ifs
  · exact quiet_refl g
  · exact quiet_refl g
  · split
    · exact quiet_refl g
    · dsimp only
      split_ifs
      · exact ⟨[.playCatch], rfl, by simp⟩
      · exact ⟨[.playFail], rfl, by simp⟩

theorem hitBlock_quiet (c : LoopClock) (index : Int) (g : Game) :
    Quiet g (hitBlock c index g).game := by
  unfold hitBlock
  split_ifs
  · dsimp only
    split_ifs
    · exact quiet_trans (stampHit_quiet c g) (checkHitState_quiet index _)
    · exact stampHit_quiet c g
  · exact quiet_refl g

theorem hitTargetBlock_effects (c : LoopClock) (index : Int) (g : Game) :
    (hitTargetBlock c index g).game.effects = g.effects ∨
    ((hitTargetBlock c index g).game.effects = g.effects ++ [.finishGame false] ∧
      g.ballState = "hit target" ∧ getElapsedTime c.atFinish g.initialTime ≥ 3) := by
  unfold hitTargetBlock
  split_ifs with h₁ h₂ h₃ h₄
  · exact Or.inl rfl
  · exact Or.inl rfl
  · exact Or.inr ⟨rfl, h₁, h₄⟩
  · exact Or.inl rfl
  · exact Or.inl rfl

theorem loop_effects (c : LoopClock) (g : Game) :
    ∃ new, (∀ b, Effect.finishGame b ∉ new) ∧
      ((loop c g).game.effects = g.effects ++ new ∨
        ((loop c g).game.effects = g.effects ++ (new ++ [.finishGame false]) ∧
          (loop c g).game.ballState = "hit target" ∧
          getElapsedTime c.atFinish (loop c g).game.initialTime ≥ 3)) := by
  cases hrow : currentRow g with
  | none =>
    rw [loop_of_no_row c g hrow]
    exact ⟨[], fun _ h => absurd h (List.not_mem_nil _), Or.inl (List.append_nil _).symm⟩
  | some row =>
    rw [loop_of_row c g hrow]
    have hq : Quiet g (hitBlock c (findIndex g.pressed) (timeoutBlock c
        (pressBlock (findIndex g.pressed) (fallBlock c (startBlock c (initialCue c g)))))).game :=
      quiet_trans (initialCue_quiet c g) (quiet_trans (startBlock_quiet c _)
        (quiet_trans (fallBlock_quiet c _) (quiet_trans (pressBlock_quiet _ _)
          (quiet_trans (timeoutBlock_quiet c _) (hitBlock_quiet c _ _)))))
    obtain ⟨new, hnew, hno⟩ := hq
    refine ⟨new, hno, ?_⟩
    rw [andThen_hitTargetBlock_ballState, andThen_hitTargetBlock_initialTime]
    unfold Run.andThen
    split_ifs
    · exact Or.inl hnew
    · rcases hitTargetBlock_effects c (findIndex g.pressed) (hitBlock c (findIndex g.pressed)
        (timeoutBlock c (pressBlock (findIndex g.pressed)
          (fallBlock c (startBlock c (initialCue c g)))))).game with h | ⟨h, hs, ht⟩
      · exact Or.inl (h.trans hnew)
      · exact Or.inr ⟨by rw [h, hnew, List.append_assoc], hs, ht⟩

theorem loopEffects_cases (c : LoopClock) (g : Game) :
    ∃ new, (∀ b, Effect.finishGame b ∉ new) ∧
      (loopEffects c g = new ∨
        (loopEffects c g = new ++ [.finishGame false] ∧
          (loop c g).game.ballState = "hit target" ∧
          getElapsedTime c.atFinish (loop c g).game.initialTime ≥ 3)) := by
  obtain ⟨new, hno, h | ⟨h, hs, ht⟩⟩ := loop_effects c g
  · exact ⟨new, hno, Or.inl (by unfold loopEffects; rw [h, List.drop_left])⟩
  · exact ⟨new, hno, Or.inr ⟨by unfold loopEffects; rw [h, List.drop_left], hs, ht⟩⟩

theorem loop_never_reports_success (c : LoopClock) (g : Game) :
    Effect.finishGame true ∉ loopEffects c g := by
  obtain ⟨new, hno, h | ⟨h, _, _⟩⟩ := loopEffects_cases c g
  · rw [h]
    exact hno true
  · rw [h]
    intro hmem
    rcases List.mem_append.mp hmem with h' | h'
    · exact hno true h'
    · simp at h'

/-- C9 fails on the code: a round of velocity bucket 3 (correct index 0) with 'y' (index 0)
pressed during 'fall'.  Three frames later the trial ends from 'hit target'; `checkHitState`
played the catch sound, and `finishGame` was called with `false`. -/
theorem finishGame_flag_on_match :
    findIndex sampleFallPressed.pressed = 0 ∧
    getCorrectIndex sampleFallPressed = some (some 0) ∧
    (frames sampleFallPressed [3100, 3600]).ballState = "hit target" ∧
    (frames sampleFallPressed [3100, 3600, 6000]).effects =
      [.playCatch, .finishGame false] :=
  ⟨by decide, by decide, by with_unfolding_all decide, by with_unfolding_all decide⟩

/-- C10, as stated, fails: 'y' is down when the ball is launched at 3000 ms; the ball is in
'hit' after the frame at 3100 ms, enters 'hit target' in the frame at 3600 ms, and the frame
at 6000 ms calls `finishGame`, 2.4 s after the entry into 'hit target'. -/
theorem finishGame_before_three_seconds_of_display :
    (frames sampleFallPressed [3100]).ballState = "hit" ∧
    (frames sampleFallPressed [3100, 3600]).ballState = "hit target" ∧
    Effect.finishGame false ∈
      loopEffects (LoopClock.const 6000) (frames sampleFallPressed [3100, 3600]) ∧
    getElapsedTime 6000 3600 < 3 :=
  ⟨by with_unfolding_all decide, by with_unfolding_all decide, by with_unfolding_all decide,
    by with_unfolding_all decide⟩

theorem startBlock_initialTime (c : LoopClock) (g : Game) :
    (startBlock c g).initialTime = g.initialTime ∨ (startBlock c g).initialTime = c.atLaunch := by
  unfold startBlock emit
  split_ifs
  · exact Or.inr rfl
  · exact Or.inl rfl
  · exact Or.inl rfl

theorem pressBlock_initialTime (index : Int) (g : Game) :
    (pressBlock index g).initialTime = g.initialTime := by
  unfold pressBlock
  split_ifs <;> rfl

theorem timeoutBlock_initialTime (c : LoopClock) (g : Game) :
    (timeoutBlock c g).initialTime = g.initialTime ∨
      (timeoutBlock c g).initialTime = c.atTimeoutStamp := by
  unfold timeoutBlock
  split_ifs
  · exact Or.inr rfl
  · exact Or.inl rfl
  · exact Or.inl rfl

theorem loop_initialTime_cases (c : LoopClock) (g : Game) :
    (loop c g).game.initialTime = g.initialTime ∨ (loop c g).game.initialTime = c.atLaunch ∨
      (loop c g).game.initialTime = c.atTimeoutStamp := by
  cases hrow : currentRow g with
  | none =>
    rw [loop_of_no_row c g hrow]
    exact Or.inl rfl
  | some row =>
    rw [loop_of_row c g hrow, andThen_hitTargetBlock_initialTime, hitBlock_initialTime]
    rcases timeoutBlock_initialTime c (pressBlock (findIndex g.pressed)
      (fallBlock c (startBlock c (initialCue c g)))) with h | h
    · rw [h, pressBlock_initialTime, fallBlock_initialTime]
      rcases startBlock_initialTime c (initialCue c g) with h' | h'
      · rw [h', initialCue_initialTime]
        exact Or.inl rfl
      · exact Or.inr (Or.inl h')
    · exact Or.inr (Or.inr h)

/-- C10, amended: a call of `loop` that calls `finishGame` leaves the ball in 'hit target'
and, at the clock read of line 426, at least 3 seconds have elapsed since `initialTime`,
not since the entry into 'hit target'; `finishGame` is the last call made by that `loop`.
The only writes of `initialTime` in `loop` are the stamp of the launch (line 367) and the
restamp by the forced timeout (line 397). -/
theorem finishGame_only_three_seconds_after_initialTime (c : LoopClock) (g : Game) (b : Bool)
    (h : Effect.finishGame b ∈ loopEffects c g) :
    (loop c g).game.ballState = "hit target" ∧
    getElapsedTime c.atFinish (loop c g).game.initialTime ≥ 3 ∧
    (loopEffects c g).getLast? = some (.finishGame b) ∧
    ((loop c g).game.initialTime = g.initialTime ∨ (loop c g).game.initialTime = c.atLaunch ∨
      (loop c g).game.initialTime = c.atTimeoutStamp) := by
  obtain ⟨new, hno, h' | ⟨h', hs, ht⟩⟩ := loopEffects_cases c g
  · rw [h'] at h
    exact absurd h (hno b)
  · refine ⟨hs, ht, ?_, loop_initialTime_cases c g⟩
    rw [h'] at h ⊢
    rcases List.mem_append.mp h with hm | hm
    · exact absurd hm (hno b)
    · rw [List.mem_singleton.mp hm]
      simp

theorem finishGame_only_three_seconds_after_initialTime_witness :
    Effect.finishGame false ∈ loopEffects (LoopClock.const 6000) sampleHitTarget ∧
    (loop (LoopClock.const 6000) sampleHitTarget).game.ballState = "hit target" ∧
    getElapsedTime (LoopClock.const 6000).atFinish
      (loop (LoopClock.const 6000) sampleHitTarget).game.initialTime ≥ 3 :=
  have h := finishGame_only_three_seconds_after_initialTime (LoopClock.const 6000)
    sampleHitTarget false (by with_unfolding_all decide)
  ⟨by with_unfolding_all decide, h.1, h.2.1⟩

theorem startBlock_buttonPressDelay (c : LoopClock) (g : Game) :
    (startBlock c g).buttonPressDelay = g.buttonPressDelay := by
  unfold startBlock emit
  split_ifs <;> rfl

theorem pressBlock_buttonPressDelay (index : Int) (g : Game) :
    (pressBlock index g).buttonPressDelay = g.buttonPressDelay := by
  unfold pressBlock
  split_ifs <;> rfl

theorem timeoutBlock_buttonPressDelay (c : LoopClock) (g : Game) :
    (timeoutBlock c g).buttonPressDelay = g.buttonPressDelay := by
  unfold timeoutBlock
  split_ifs <;> rfl

theorem hitTargetBlock_buttonPressDelay (c : LoopClock) (index : Int) (g : Game) :
    (hitTargetBlock c index g).game.buttonPressDelay = g.buttonPressDelay := by
  unfold hitTargetBlock emit
  split_ifs <;> rfl

/-- The hypothesis `buttonPressDelay = 0` of the theorems on key presses holds throughout a
trial until the ball is in 'hit': `initGame` sets it to 0 (line 251), `keyDownHandler` does
not write it, and a call of `loop` that does not leave the ball in 'hit' or 'hit target'
keeps it 0. -/
theorem loop_keeps_buttonPressDelay_zero (c : LoopClock) (g : Game)
    (hd : g.buttonPressDelay = 0) (h₁ : (loop c g).game.ballState ≠ "hit")
    (h₂ : (loop c g).game.ballState ≠ "hit target") :
    (loop c g).game.buttonPressDelay = 0 := by
  cases hrow : currentRow g with
  | none =>
    rw [loop_of_no_row c g hrow]
    exact hd
  | some row =>
    rw [loop_of_row c g hrow] at h₁ h₂ ⊢
    rw [andThen_hitTargetBlock_ballState] at h₁ h₂
    by_cases hs : (timeoutBlock c (pressBlock (findIndex g.pressed)
        (fallBlock c (startBlock c (initialCue c g))))).ballState = "hit"
    · rcases hitBlock_ballState_of_hit c (findIndex g.pressed) _ hs with h | h
      · exact absurd h h₁
      · exact absurd h h₂
    · rw [hitBlock_of_ne c _ _ hs] at h₁ h₂ ⊢
      unfold Run.andThen
      rw [if_neg (by simp), hitTargetBlock_buttonPressDelay, timeoutBlock_buttonPressDelay,
        pressBlock_buttonPressDelay, fallBlock_buttonPressDelay, startBlock_buttonPressDelay,
        initialCue_buttonPressDelay]
      exact hd

theorem pressBlock_of_no_press (index : Int) (g : Game) (hi : index < 0) :
    pressBlock index g = g := by
  unfold pressBlock
  rw [if_neg]
  rintro ⟨_, h⟩
  omega

theorem timeoutBlock_of_early (c : LoopClock) (g : Game)
    (h : getElapsedTime c.atTimeout g.initialTime < 2.5) : timeoutBlock c g = g := by
  unfold timeoutBlock
  split_ifs with h₁ h₂
  · exact absurd h₂ (not_le.mpr h)
  · rfl
  · rfl

theorem timeoutBlock_of_due (c : LoopClock) (g : Game) (hs : g.ballState = "hit house")
    (h : getElapsedTime c.atTimeout g.initialTime ≥ 2.5) :
    timeoutBlock c g = { g with initialTime := c.atTimeoutStamp, ballState := "hit" } := by
  unfold timeoutBlock
  rw [if_pos hs, if_pos h]

theorem initialCue_effects_only (c : LoopClock) (g : Game) :
    initialCue c g = { g with effects := (initialCue c g).effects } := by
  unfold initialCue emit
  split_ifs <;> rfl

theorem loop_of_hit_house_early (c : LoopClock) (g : Game) (hrow : currentRow g ≠ none)
    (hp : true ∉ g.pressed) (hs : g.ballState = "hit house")
    (h : getElapsedTime c.atTimeout g.initialTime < 2.5) :
    loop c g = ⟨initialCue c g, false⟩ := by
  obtain ⟨row, hrow⟩ := Option.ne_none_iff_exists'.mp hrow
  have hs₀ : (initialCue c g).ballState = "hit house" := by rw [initialCue_ballState, hs]
  rw [loop_of_row c g hrow, findIndex_eq_neg_one_of_not_mem hp,
    startBlock_of_ne c _ (by rw [hs₀]; decide), fallBlock_of_ne c _ (by rw [hs₀]; decide),
    pressBlock_of_no_press _ _ (by decide),
    timeoutBlock_of_early c _ (by rw [initialCue_initialTime]; exact h),
    hitBlock_of_ne c _ _ (by rw [hs₀]; decide)]
  unfold Run.andThen
  rw [if_neg (by simp), hitTargetBlock_of_ne c _ _ (by rw [hs₀]; decide)]

theorem loop_of_hit_house_due (c : LoopClock) (g : Game) (hrow : currentRow g ≠ none)
    (hp : true ∉ g.pressed) (hs : g.ballState = "hit house")
    (h : getElapsedTime c.atTimeout g.initialTime ≥ 2.5) :
    loop c g = (hitBlock c (-1)
      { initialCue c g with initialTime := c.atTimeoutStamp, ballState := "hit" }).andThen
        (hitTargetBlock c (-1)) := by
  obtain ⟨row, hrow⟩ := Option.ne_none_iff_exists'.mp hrow
  have hs₀ : (initialCue c g).ballState = "hit house" := by rw [initialCue_ballState, hs]
  rw [loop_of_row c g hrow, findIndex_eq_neg_one_of_not_mem hp,
    startBlock_of_ne c _ (by rw [hs₀]; decide), fallBlock_of_ne c _ (by rw [hs₀]; decide),
    pressBlock_of_no_press _ _ (by decide),
    timeoutBlock_of_due c _ hs₀ (by rw [initialCue_initialTime]; exact h)]

theorem loop_of_hit (c : LoopClock) (g : Game) {row : List Int} (hrow : currentRow g = some row)
    (hs : g.ballState = "hit") :
    loop c g = (hitBlock c (findIndex g.pressed) (initialCue c g)).andThen
      (hitTargetBlock c (findIndex g.pressed)) := by
  have hs₀ : (initialCue c g).ballState = "hit" := by rw [initialCue_ballState, hs]
  rw [loop_of_row c g hrow, startBlock_of_ne c _ (by rw [hs₀]; decide),
    fallBlock_of_ne c _ (by rw [hs₀]; decide),
    pressBlock_of_ne _ _ (by rw [hs₀]; decide) (by rw [hs₀]; decide),
    timeoutBlock_of_ne c _ (by rw [hs₀]; decide)]

theorem stampHit_buttonPressDelay (c : LoopClock) (g : Game) :
    (stampHit c g).buttonPressDelay =
      if g.buttonPressDelay = 0 then c.atHitStamp else g.buttonPressDelay := by
  unfold stampHit
  split_ifs <;> rfl

theorem checkHitState_buttonPressDelay (index : Int) (g : Game) :
    (checkHitState index g).game.buttonPressDelay = g.buttonPressDelay := by
  unfold checkHitState emit
  split_ifs
  · rfl
  · rfl
  · split
    · rfl
    · dsimp only
      split_ifs <;> rfl

theorem hitBlock_buttonPressDelay_of_hit (c : LoopClock) (index : Int) (g : Game)
    (hs : g.ballState = "hit") :
    (hitBlock c index g).game.buttonPressDelay = (stampHit c g).buttonPressDelay := by
  unfold hitBlock
  rw [if_pos hs]
  dsimp only
  split_ifs
  · exact checkHitState_buttonPressDelay index _
  · rfl

theorem hitBlock_settled_of_hit_target (c : LoopClock) (index : Int) (g : Game)
    (hs : g.ballState = "hit") (h : (hitBlock c index g).game.ballState = "hit target") :
    0 < (stampHit c g).buttonPressDelay ∧
      getElapsedTime c.atSettle (stampHit c g).buttonPressDelay ≥ 0.5 := by
  unfold hitBlock at h
  rw [if_pos hs] at h
  dsimp only at h
  split_ifs at h with hc
  · exact hc
  · rw [stampHit_ballState, hs] at h
    exact absurd h (by decide)

theorem hitBlock_waits (c : LoopClock) (index : Int) (g : Game) (hs : g.ballState = "hit")
    (h : ¬ (0 < (stampHit c g).buttonPressDelay ∧
      getElapsedTime c.atSettle (stampHit c g).buttonPressDelay ≥ 0.5)) :
    hitBlock c index g = ⟨stampHit c g, false⟩ := by
  unfold hitBlock
  rw [if_pos hs]
  dsimp only
  rw [if_neg h]

theorem andThen_hitTargetBlock_buttonPressDelay (c : LoopClock) (index : Int) (r : Run) :
    (r.andThen (hitTargetBlock c index)).game.buttonPressDelay = r.game.buttonPressDelay := by
  unfold Run.andThen
  split_ifs
  · rfl
  · exact hitTargetBlock_buttonPressDelay c index r.game

theorem getElapsedTime_self (now : Int) : getElapsedTime now now = 0 := by
  unfold getElapsedTime
  simp

theorem frames_append (g : Game) (xs ys : List Int) :
    frames g (xs ++ ys) = frames (frames g xs) ys := by
  induction xs generalizing g with
  | nil => rfl
  | cons now rest ih => exact ih _

theorem frames_of_hit_house_early (g : Game) (nows : List Int) (hrow : currentRow g ≠ none)
    (hp : true ∉ g.pressed) (hs : g.ballState = "hit house")
    (hall : ∀ now ∈ nows, getElapsedTime now g.initialTime < 2.5) :
    (frames g nows).ballState = "hit house" ∧ (frames g nows).pressed = g.pressed ∧
    (frames g nows).initialTime = g.initialTime ∧
    (frames g nows).buttonPressDelay = g.buttonPressDelay ∧
    currentRow (frames g nows) = currentRow g := by
  induction nows generalizing g with
  | nil => exact ⟨hs, rfl, rfl, rfl, rfl⟩
  | cons now rest ih =>
    have hstep : frames g (now :: rest) =
        frames (initialCue (LoopClock.const now) g) rest := by
      show frames (loop (LoopClock.const now) g).game rest = _
      rw [loop_of_hit_house_early (LoopClock.const now) g hrow hp hs
        (hall now (List.mem_cons_self _ _))]
    rw [hstep]
    have h := ih (initialCue (LoopClock.const now) g)
      (by rw [initialCue_currentRow]; exact hrow)
      (by rw [initialCue_pressed]; exact hp)
      (by rw [initialCue_ballState]; exact hs)
      (by
        intro t ht
        rw [initialCue_initialTime]
        exact hall t (List.mem_cons_of_mem _ ht))
    rw [initialCue_pressed, initialCue_initialTime, initialCue_buttonPressDelay,
      initialCue_currentRow] at h
    exact h

theorem checkHitState_of_no_press (g : Game) (hrow : currentRow g ≠ none) :
    (checkHitState (-1) g).game.ballState = "hit target" := by
  obtain ⟨row, hrow⟩ := Option.ne_none_iff_exists'.mp hrow
  unfold checkHitState getCorrectIndex
  rw [hrow]
  rfl

theorem stampHit_currentRow (c : LoopClock) (g : Game) :
    currentRow (stampHit c g) = currentRow g := by
  unfold stampHit currentRow
  split_ifs <;> rfl

theorem loop_of_hit_house_due_fresh (c : LoopClock) (g : Game) (hrow : currentRow g ≠ none)
    (hp : true ∉ g.pressed) (hs : g.ballState = "hit house")
    (h : getElapsedTime c.atTimeout g.initialTime ≥ 2.5) (hd : g.buttonPressDelay = 0)
    (hclk : getElapsedTime c.atSettle c.atHitStamp < 0.5) :
    loop c g = ⟨{ initialCue c g with
      initialTime := c.atTimeoutStamp, ballState := "hit", buttonPressDelay := c.atHitStamp },
      false⟩ := by
  rw [loop_of_hit_house_due c g hrow hp hs h,
    hitBlock_of_fresh c (-1)
      { initialCue c g with initialTime := c.atTimeoutStamp, ballState := "hit" } rfl
      ((initialCue_buttonPressDelay c g).trans hd) hclk]
  unfold Run.andThen
  rw [if_neg (by simp), hitTargetBlock_of_ne c _ _ (by show "hit" ≠ "hit target"; decide)]

theorem hitBlock_fires (c : LoopClock) (index : Int) (g : Game) (hs : g.ballState = "hit")
    (h : 0 < (stampHit c g).buttonPressDelay ∧
      getElapsedTime c.atSettle (stampHit c g).buttonPressDelay ≥ 0.5) :
    hitBlock c index g = checkHitState index (stampHit c g) := by
  unfold hitBlock
  rw [if_pos hs]
  dsimp only
  rw [if_pos h]

theorem stampHit_of_stamped (c : LoopClock) (g : Game) (h : 0 < g.buttonPressDelay) :
    stampHit c g = g := by
  unfold stampHit
  rw [if_neg (by omega)]

theorem loop_of_hit_waiting (c : LoopClock) (g : Game) (hrow : currentRow g ≠ none)
    (hs : g.ballState = "hit") (hd : 0 < g.buttonPressDelay)
    (h : getElapsedTime c.atSettle g.buttonPressDelay < 0.5) :
    (loop c g).game.ballState = "hit" := by
  obtain ⟨row, hrow⟩ := Option.ne_none_iff_exists'.mp hrow
  have hs₀ : (initialCue c g).ballState = "hit" := by rw [initialCue_ballState, hs]
  have hd₀ : 0 < (initialCue c g).buttonPressDelay := by
    rw [initialCue_buttonPressDelay]
    exact hd
  rw [loop_of_hit c g hrow hs, andThen_hitTargetBlock_ballState,
    hitBlock_waits c _ _ hs₀
      (by
        rw [stampHit_of_stamped c _ hd₀, initialCue_buttonPressDelay]
        exact fun hh => absurd hh.2 (not_le.mpr h))]
  show (stampHit c (initialCue c g)).ballState = "hit"
  rw [stampHit_ballState, hs₀]

theorem loop_of_hit_settled (c : LoopClock) (g : Game) (hrow : currentRow g ≠ none)
    (hp : true ∉ g.pressed) (hs : g.ballState = "hit") (hd : 0 < g.buttonPressDelay)
    (h : getElapsedTime c.atSettle g.buttonPressDelay ≥ 0.5) :
    (loop c g).game.ballState = "hit target" := by
  obtain ⟨row, hrow'⟩ := Option.ne_none_iff_exists'.mp hrow
  have hs₀ : (initialCue c g).ballState = "hit" := by rw [initialCue_ballState, hs]
  have hd₀ : 0 < (initialCue c g).buttonPressDelay := by
    rw [initialCue_buttonPressDelay]
    exact hd
  rw [loop_of_hit c g hrow' hs, andThen_hitTargetBlock_ballState,
    hitBlock_fires c _ _ hs₀
      (by
        rw [stampHit_of_stamped c _ hd₀, initialCue_buttonPressDelay]
        exact ⟨hd, h⟩),
    findIndex_eq_neg_one_of_not_mem hp]
  apply checkHitState_of_no_press
  rw [stampHit_currentRow, initialCue_currentRow]
  exact hrow

/-- C11: with the round's parameters present and no key pressed, a call of `loop` that finds
the ball in 'hit house' leaves it there as long as less than 2.5 s have elapsed since
`initialTime` at the clock read of line 396, and takes it out of 'hit house' once 2.5 s have
elapsed: `initialTime` is restamped and the ball is in 'hit' (given `buttonPressDelay` was
still 0 and less than 0.5 s lie between the clock reads of lines 407 and 410).  A call that
finds the ball in 'hit' and leaves it in 'hit target' is one where `buttonPressDelay`, the
stamp of the entry into 'hit', is set and at least 0.5 s old; with a stamp less than 0.5 s
old the ball stays in 'hit'.  Over successive frames: the ball sits in 'hit house' through
every frame before 2.5 s, is in 'hit' after the first frame at or past 2.5 s, and a frame
later is in 'hit target' exactly if 0.5 s have passed since that frame. -/
theorem loop_forced_timeout (c : LoopClock) (g : Game) (hrow : currentRow g ≠ none)
    (hp : true ∉ g.pressed) :
    (g.ballState = "hit house" → getElapsedTime c.atTimeout g.initialTime < 2.5 →
      (loop c g).game.ballState = "hit house" ∧
      (loop c g).game.initialTime = g.initialTime) ∧
    (g.ballState = "hit house" → getElapsedTime c.atTimeout g.initialTime ≥ 2.5 →
      ((loop c g).game.ballState = "hit" ∨ (loop c g).game.ballState = "hit target") ∧
      (loop c g).game.initialTime = c.atTimeoutStamp ∧
      (g.buttonPressDelay = 0 → getElapsedTime c.atSettle c.atHitStamp < 0.5 →
        (loop c g).game.ballState = "hit" ∧
        (loop c g).game.buttonPressDelay = c.atHitStamp)) ∧
    (g.ballState = "hit" → (loop c g).game.ballState = "hit target" →
      0 < (loop c g).game.buttonPressDelay ∧
      getElapsedTime c.atSettle (loop c g).game.buttonPressDelay ≥ 0.5 ∧
      (loop c g).game.buttonPressDelay =
        (if g.buttonPressDelay = 0 then c.atHitStamp else g.buttonPressDelay)) ∧
    (g.ballState = "hit" → 0 < g.buttonPressDelay →
      getElapsedTime c.atSettle g.buttonPressDelay < 0.5 →
      (loop c g).game.ballState = "hit") ∧
    (g.ballState = "hit house" → g.buttonPressDelay = 0 →
      ∀ (nows : List Int) (due settle : Int),
        (∀ now ∈ nows, getElapsedTime now g.initialTime < 2.5) →
        getElapsedTime due g.initialTime ≥ 2.5 → 0 < due →
        (frames g nows).ballState = "hit house" ∧
        (frames g (nows ++ [due])).ballState = "hit" ∧
        (getElapsedTime settle due < 0.5 →
          (frames g (nows ++ [due, settle])).ballState = "hit") ∧
        (getElapsedTime settle due ≥ 0.5 →
          (frames g (nows ++ [due, settle])).ballState = "hit target")) := by
  refine ⟨?_, ?_, ?_, ?_, ?_⟩
  · intro hs h
    rw [loop_of_hit_house_early c g hrow hp hs h]
    exact ⟨by rw [initialCue_ballState, hs], initialCue_initialTime c g⟩
  · intro hs h
    refine ⟨?_, ?_, ?_⟩
    · rw [loop_of_hit_house_due c g hrow hp hs h, andThen_hitTargetBlock_ballState]
      exact hitBlock_ballState_of_hit c _ _ rfl
    · rw [loop_of_hit_house_due c g hrow hp hs h, andThen_hitTargetBlock_initialTime,
        hitBlock_initialTime]
    · intro hd hclk
      rw [loop_of_hit_house_due_fresh c g hrow hp hs h hd hclk]
      exact ⟨rfl, rfl⟩
  · intro hs h
    obtain ⟨row, hrow'⟩ := Option.ne_none_iff_exists'.mp hrow
    have hs₀ : (initialCue c g).ballState = "hit" := by rw [initialCue_ballState, hs]
    rw [loop_of_hit c g hrow' hs, andThen_hitTargetBlock_ballState] at h
    rw [loop_of_hit c g hrow' hs, andThen_hitTargetBlock_buttonPressDelay,
      hitBlock_buttonPressDelay_of_hit c _ _ hs₀]
    have hset := hitBlock_settled_of_hit_target c _ _ hs₀ h
    refine ⟨hset.1, hset.2, ?_⟩
    rw [stampHit_buttonPressDelay, initialCue_buttonPressDelay]
  · intro hs hd h
    exact loop_of_hit_waiting c g hrow hs hd h
  · intro hs hd nows due settle hall hdue hpos
    obtain ⟨h₁, h₂, h₃, h₄, h₅⟩ := frames_of_hit_house_early g nows hrow hp hs hall
    have hrow₁ : currentRow (frames g nows) ≠ none := by rw [h₅]; exact hrow
    have hp₁ : true ∉ (frames g nows).pressed := by rw [h₂]; exact hp
    have hstep : (loop (LoopClock.const due) (frames g nows)) =
        ⟨{ initialCue (LoopClock.const due) (frames g nows) with
          initialTime := due, ballState := "hit", buttonPressDelay := due }, false⟩ :=
      loop_of_hit_house_due_fresh (LoopClock.const due) (frames g nows) hrow₁ hp₁ h₁
        (by rw [h₃]; exact hdue) (h₄.trans hd)
        (by
          show getElapsedTime due due < 0.5
          rw [getElapsedTime_self]
          norm_num)
    have hdue_frames : frames g (nows ++ [due]) =
        { initialCue (LoopClock.const due) (frames g nows) with
          initialTime := due, ballState := "hit", buttonPressDelay := due } := by
      rw [frames_append]
      show (loop (LoopClock.const due) (frames g nows)).game = _
      rw [hstep]
    have hsettle_frames : frames g (nows ++ [due, settle]) =
        (loop (LoopClock.const settle) (frames g (nows ++ [due]))).game := by
      rw [show nows ++ [due, settle] = (nows ++ [due]) ++ [settle] by simp, frames_append]
      rfl
    have hrow₂ : currentRow (frames g (nows ++ [due])) ≠ none := by
      rw [hdue_frames]
      show currentRow (initialCue (LoopClock.const due) (frames g nows)) ≠ none
      rw [initialCue_currentRow]
      exact hrow₁
    have hp₂ : true ∉ (frames g (nows ++ [due])).pressed := by
      rw [hdue_frames]
      show true ∉ (initialCue (LoopClock.const due) (frames g nows)).pressed
      rw [initialCue_pressed]
      exact hp₁
    have hs₂ : (frames g (nows ++ [due])).ballState = "hit" := by rw [hdue_frames]
    have hd₂ : (frames g (nows ++ [due])).buttonPressDelay = due := by rw [hdue_frames]
    refine ⟨h₁, hs₂, ?_, ?_⟩
    · intro hlt
      rw [hsettle_frames]
      exact loop_of_hit_waiting _ _ hrow₂ hs₂ (by rw [hd₂]; exact hpos)
        (by rw [hd₂]; exact hlt)
    · intro hge
      rw [hsettle_frames]
      exact loop_of_hit_settled _ _ hrow₂ hp₂ hs₂ (by rw [hd₂]; exact hpos)
        (by rw [hd₂]; exact hge)

theorem loop_forced_timeout_witness :
    (currentRow sampleHitHouse ≠ none ∧ true ∉ sampleHitHouse.pressed) ∧
    (loop (LoopClock.const 5000) sampleHitHouse).game.ballState = "hit house" ∧
    (loop (LoopClock.const 5500) sampleHitHouse).game.ballState = "hit" ∧
    (frames sampleHitHouse ([4000, 5000] ++ [5500, 5900])).ballState = "hit" ∧
    (frames sampleHitHouse ([4000, 5000] ++ [5500, 6000])).ballState = "hit target" :=
  have h := loop_forced_timeout (LoopClock.const 5000) sampleHitHouse (by decide) (by decide)
  have h' := loop_forced_timeout (LoopClock.const 5500) sampleHitHouse (by decide) (by decide)
  have ht := h.2.2.2.2 (by decide) (by decide) [4000, 5000] 5500
  ⟨⟨by decide, by decide⟩,
    (h.1 (by decide) (by with_unfolding_all decide)).1,
    ((h'.2.1 (by decide) (by with_unfolding_all decide)).2.2 (by decide)
      (by with_unfolding_all decide)).1,
    (ht 5900 (by with_unfolding_all decide) (by with_unfolding_all decide) (by decide)).2.2.1
      (by with_unfolding_all decide),
    (ht 6000 (by with_unfolding_all decide) (by with_unfolding_all decide) (by decide)).2.2.2
      (by with_unfolding_all decide)⟩

theorem exportData_of_row (now : Int) (g : Game) (hrow : currentRow g ≠ none) :
    ∃ r, exportData now g = some r := by
  obtain ⟨row, hrow⟩ := Option.ne_none_iff_exists'.mp hrow
  unfold exportData getCorrectIndex
  rw [hrow]
  exact ⟨_, rfl⟩

/-- C12: with the round's parameters present, a call of `dataCollection` with the ball in
'hit' or 'fall' appends exactly one `storeData` call, carrying the row it built, to the
calls made so far; with the ball in any other state, 'start', 'hit house' and 'hit target'
among them, it leaves the state as it found it and stores nothing. -/
theorem dataCollection_stores_once (now : Int) (g : Game) (hrow : currentRow g ≠ none) :
    (g.ballState = "hit" ∨ g.ballState = "fall" →
      ∃ r, exportData now g = some r ∧
        (dataCollection now g).game.effects = g.effects ++ [.storeData r] ∧
        (dataCollection now g).game = emit (.storeData r) g ∧
        (dataCollection now g).threw = false) ∧
    (g.ballState = "start" ∨ g.ballState = "hit house" ∨ g.ballState = "hit target" →
      dataCollection now g = ⟨g, false⟩) ∧
    (¬ (g.ballState = "hit" ∨ g.ballState = "fall") → dataCollection now g = ⟨g, false⟩) := by
  obtain ⟨r, hr⟩ := exportData_of_row now g hrow
  have hno : ¬ (g.ballState = "hit" ∨ g.ballState = "fall") → dataCollection now g = ⟨g, false⟩ := by
    intro h
    unfold dataCollection
    rw [hr]
    exact if_neg h
  refine ⟨?_, ?_, hno⟩
  · intro h
    refine ⟨r, hr, ?_⟩
    unfold dataCollection
    rw [hr]
    dsimp only
    rw [if_pos h]
    exact ⟨rfl, rfl, rfl⟩
  · intro h
    apply hno
    rintro (h' | h') <;> rcases h with h | h | h <;> rw [h] at h' <;> exact absurd h' (by decide)

theorem dataCollection_stores_once_witness :
    currentRow sampleHit ≠ none ∧
    (∃ r, (dataCollection 3200 sampleHit).game.effects = [.storeData r]) ∧
    dataCollection 3200 sampleHitHouse = ⟨sampleHitHouse, false⟩ ∧
    dataCollection 3200 sampleStart = ⟨sampleStart, false⟩ ∧
    dataCollection 6000 sampleHitTarget = ⟨sampleHitTarget, false⟩ :=
  ⟨by decide,
    ((dataCollection_stores_once 3200 sampleHit (by decide)).1 (Or.inl (by decide))).imp
      (fun _ h => h.2.1),
    (dataCollection_stores_once 3200 sampleHitHouse (by decide)).2.1
      (Or.inr (Or.inl (by decide))),
    (dataCollection_stores_once 3200 sampleStart (by decide)).2.1 (Or.inl (by decide)),
    (dataCollection_stores_once 6000 sampleHitTarget (by decide)).2.1
      (Or.inr (Or.inr (by decide)))⟩

/-- C13: whatever the state before, after `initGame` `pressed` is `[false, false, false]`,
`buttonPressDelay` and `initialTime` are 0, `targets` is `getWindow(0)`, `getWindow(1)`,
`getWindow(2)` and `ball` is the object returned by `ballObject()`; the per-trial state
after the call does not depend on the state before it, so a second call in succession
leaves the per-trial state of a single call, and nothing of an earlier trial survives. -/
theorem initGame_overwrites (env : InitEnv) (s : Session) :
    (initGame env s).game.pressed = [false, false, false] ∧
    (initGame env s).game.buttonPressDelay = 0 ∧
    (initGame env s).game.initialTime = 0 ∧
    (initGame env s).targets = [getWindow env.SCALE env.windowImgs 0,
      getWindow env.SCALE env.windowImgs 1, getWindow env.SCALE env.windowImgs 2] ∧
    (initGame env s).ball = env.ballObject ∧
    (initGame env s).game.ballState = env.ballObject.state ∧
    (∀ s' : Session, (initGame env s').perTrial = (initGame env s).perTrial) ∧
    (initGame env (initGame env s)).perTrial = (initGame env s).perTrial ∧
    (∀ first : InitEnv, (initGame env (initGame first s)).perTrial = (initGame env s).perTrial) := by
  have hper : ∀ t : Session, (initGame env t).perTrial =
      (env.ballObject, env.ballObject.state,
        [getWindow env.SCALE env.windowImgs 0, getWindow env.SCALE env.windowImgs 1,
          getWindow env.SCALE env.windowImgs 2], [false, false, false], 0, 0) := by
    intro t
    unfold initGame Session.perTrial emit
    dsimp only
    split_ifs <;> rfl
  have hfields := hper s
  unfold Session.perTrial at hfields
  simp only [Prod.mk.injEq] at hfields
  obtain ⟨hb, hst, ht, hp, hi, hd⟩ := hfields
  refine ⟨hp, hd, hi, ht, hb, hst, ?_, ?_, ?_⟩
  · intro s'
    rw [hper s', hper s]
  · rw [hper (initGame env s), hper s]
  · intro first
    rw [hper (initGame first s), hper s]

theorem initGame_overwrites_witness :
    sampleSession.game.pressed = [false, false, true] ∧
    (initGame sampleEnv sampleSession).game.pressed = [false, false, false] ∧
    (initGame sampleEnv sampleSession).ball = sampleEnv.ballObject ∧
    (initGame sampleEnv sampleSession).targets.length = 3 :=
  have h := initGame_overwrites sampleEnv sampleSession
  ⟨by decide, h.1, h.2.2.2.2.1, by rw [h.2.2.2.1]; rfl⟩

theorem pairRow_injective : Function.Injective (fun p : Int × Int => [p.1, p.2]) := by
  intro p q h
  simp only [List.cons.injEq, and_true] at h
  exact Prod.ext h.1 h.2

theorem count_row_eq_one_of_mem {l : List (List Int)} {a : List Int} (d : l.Nodup) (h : a ∈ l) :
    l.count a = 1 := by
  have h2 : 0 < l.count a := List.count_pos_iff.mpr h
  have h1 : l.count a ≤ 1 := by
    rw [List.count_eq_countP, List.countP_eq_length_filter]
    have hsub : (l.filter (fun x => x == a)).Sublist l := List.filter_sublist l
    have hnd : (l.filter (fun x => x == a)).Nodup := d.sublist hsub
    have hall : ∀ x ∈ l.filter (fun x => x == a), x = a := by
      intro x hx
      exact eq_of_beq (List.mem_filter.mp hx).2
    match hl : l.filter (fun x => x == a), hnd, hall with
    | [], _, _ => simp
    | [x], _, _ => simp
    | x :: y :: rest, hnd, hall =>
      have hx := hall x (by simp)
      have hy := hall y (by simp)
      rw [hx, hy] at hnd
      simp at hnd
  omega

theorem getTrajectoriesObstacles_of_equal_length (shuffle : Shuffle) (sizes velocities : List Int)
    (hlen : sizes.length = velocities.length) (hne : sizes ≠ []) :
    getTrajectoriesObstacles shuffle sizes velocities =
      some (shuffle.run ((List.product sizes velocities).map (fun p => [p.1, p.2]))) := by
  unfold getTrajectoriesObstacles
  rw [if_neg]
  rintro (h | h)
  · exact h hlen
  · exact hne h

/-- C14, as stated, fails: for the catalogs `[1, 2, 3]` and `[1, 2, 3]` of `init` the trial
list has 9 entries, not 3; and no list of 3 rows, however produced, contains each of the 9
combinations exactly once. -/
theorem getTrajectoriesObstacles_longer_than_catalog :
    (∃ trials, getTrajectoriesObstacles Shuffle.identity OBSTRUCTIONS VELOCITIES = some trials ∧
      trials.length = 9 ∧ trials.length ≠ OBSTRUCTIONS.length) ∧
    (∀ trials : List (List Int), trials.length = OBSTRUCTIONS.length →
      ¬ ∀ s ∈ OBSTRUCTIONS, ∀ v ∈ VELOCITIES, trials.count [s, v] = 1) := by
  refine ⟨⟨_, rfl, by decide, by decide⟩, ?_⟩
  intro trials hlen hall
  have hsub : (List.product OBSTRUCTIONS VELOCITIES).map (fun p => [p.1, p.2]) ⊆ trials := by
    intro t ht
    obtain ⟨p, hp, rfl⟩ := List.mem_map.mp ht
    have hp' := List.mem_product.mp hp
    have hc := hall p.1 hp'.1 p.2 hp'.2
    exact List.count_pos_iff.mp (by rw [hc]; exact Nat.one_pos)
  have hnodup : ((List.product OBSTRUCTIONS VELOCITIES).map (fun p => [p.1, p.2])).Nodup := by
    decide
  have hle := (List.subperm_of_subset hnodup hsub).length_le
  rw [hlen] at hle
  exact absurd hle (by decide)

/-- C14, amended: for non-empty catalogs of equal length the trial list has
`sizes.length * velocities.length` entries (9 for `[1, 2, 3]` and `[1, 2, 3]`), every entry
is a `[size, velocity]` combination of the catalogs, and, the catalogs having no repeated
value, every combination occurs in it exactly once. -/
theorem getTrajectoriesObstacles_full_factorial (shuffle : Shuffle) (sizes velocities : List Int)
    (hlen : sizes.length = velocities.length) (hne : sizes ≠ []) :
    ∃ trials, getTrajectoriesObstacles shuffle sizes velocities = some trials ∧
      trials.length = sizes.length * velocities.length ∧
      (∀ t ∈ trials, ∃ s ∈ sizes, ∃ v ∈ velocities, t = [s, v]) ∧
      (sizes.Nodup → velocities.Nodup →
        ∀ s ∈ sizes, ∀ v ∈ velocities, trials.count [s, v] = 1) := by
  have hperm := shuffle.perm ((List.product sizes velocities).map (fun p => [p.1, p.2]))
  refine ⟨_, getTrajectoriesObstacles_of_equal_length shuffle sizes velocities hlen hne,
    ?_, ?_, ?_⟩
  · rw [hperm.length_eq, List.length_map]
    exact List.length_product sizes velocities
  · intro t ht
    obtain ⟨p, hp, rfl⟩ := List.mem_map.mp (hperm.subset ht)
    have hp' := List.mem_product.mp hp
    exact ⟨p.1, hp'.1, p.2, hp'.2, rfl⟩
  · intro hs hv s hsm v hvm
    apply count_row_eq_one_of_mem
    · exact hperm.nodup_iff.mpr ((hs.product hv).map pairRow_injective)
    · exact hperm.mem_iff.mpr
        (List.mem_map.mpr ⟨(s, v), List.mem_product.mpr ⟨hsm, hvm⟩, rfl⟩)

theorem getTrajectoriesObstacles_full_factorial_witness :
    (OBSTRUCTIONS.length = VELOCITIES.length ∧ OBSTRUCTIONS ≠ []) ∧
    ∃ trials, getTrajectoriesObstacles Shuffle.reversed OBSTRUCTIONS VELOCITIES = some trials ∧
      trials.length = 9 ∧ trials.count [1, 3] = 1 := by
  obtain ⟨trials, h, hl, _, hc⟩ := getTrajectoriesObstacles_full_factorial Shuffle.reversed
    OBSTRUCTIONS VELOCITIES (by decide) (by decide)
  exact ⟨⟨by decide, by decide⟩, trials, h, hl,
    hc (by decide) (by decide) 1 (by decide) 3 (by decide)⟩

end DiscreteButtonSpatial

namespace FeedCroc

/-- C15, as stated, fails: for a ball of `initGame` (restitution -1.5) inside the contact
box, moving right at 3.9 and down at 5.2, the new vertical velocity is
`5.2 * (-1.5 * 1.12) = -8.736`, not `-5.2 * (-1.5) * 1.12 = 8.736`; taking the restitution
as the magnitude 1.5 instead, it is the horizontal velocity, `5.85`, that differs from
`-vx * restitution = -5.85`. -/
theorem paddleBallCollision_vertical_sign :
    inContactBox sampleContact.ball sampleContact.paddle ∧
    sampleContact.ball.restitution = -1.5 ∧
    (paddleBallCollision 500 500 sampleContact).ball.velocity.y = -8.736 ∧
    (paddleBallCollision 500 500 sampleContact).ball.velocity.y ≠
      -sampleContact.ball.velocity.y * sampleContact.ball.restitution * 1.12 ∧
    (paddleBallCollision 500 500 sampleContact).ball.velocity.x = 5.85 ∧
    (paddleBallCollision 500 500 sampleContact).ball.velocity.x ≠
      -sampleContact.ball.velocity.x * 1.5 := by
  have hbox : inContactBox sampleContact.ball sampleContact.paddle := by
    with_unfolding_all decide
  have hy : (paddleBallCollision 500 500 sampleContact).ball.velocity.y = -8.736 := by
    unfold paddleBallCollision
    rw [if_pos hbox]
    norm_num [sampleContact, initBall]
  have hx : (paddleBallCollision 500 500 sampleContact).ball.velocity.x = 5.85 := by
    unfold paddleBallCollision
    rw [if_pos hbox]
    norm_num [sampleContact, initBall]
  refine ⟨hbox, rfl, hy, ?_, hx, ?_⟩
  · rw [hy]
    norm_num [sampleContact, initBall]
  · rw [hx]
    norm_num [sampleContact, initBall]

/-- C15, amended: when the ball is inside the contact box, the new horizontal velocity is
`-vx * restitution`, the new vertical velocity is `vy * restitution * 1.12` (no sign change
in the formula: the restitution of `initGame` is negative), the ball is placed at
`paddle.position.y - radius`, and its horizontal position, radius and restitution are kept;
when the ball is outside the contact box nothing changes. -/
theorem paddleBallCollision_reflects (atSound atStamp : Int) (w : World) :
    (inContactBox w.ball w.paddle →
      (paddleBallCollision atSound atStamp w).ball.velocity.x =
        -w.ball.velocity.x * w.ball.restitution ∧
      (paddleBallCollision atSound atStamp w).ball.velocity.y =
        w.ball.velocity.y * w.ball.restitution * 1.12 ∧
      (paddleBallCollision atSound atStamp w).ball.position.y =
        w.paddle.position.y - w.ball.radius ∧
      (paddleBallCollision atSound atStamp w).ball.position.x = w.ball.position.x ∧
      (paddleBallCollision atSound atStamp w).ball.radius = w.ball.radius ∧
      (paddleBallCollision atSound atStamp w).ball.restitution = w.ball.restitution) ∧
    (¬ inContactBox w.ball w.paddle → paddleBallCollision atSound atStamp w = w) := by
  constructor
  · intro h
    unfold paddleBallCollision
    rw [if_pos h]
    dsimp only
    refine ⟨by ring, by ring, rfl, rfl, rfl, rfl⟩
  · intro h
    unfold paddleBallCollision
    rw [if_neg h]

theorem paddleBallCollision_reflects_witness :
    (inContactBox sampleContact.ball sampleContact.paddle ∧
      ¬ inContactBox sampleApart.ball sampleApart.paddle) ∧
    (paddleBallCollision 500 500 sampleContact).ball.velocity.x =
      -sampleContact.ball.velocity.x * sampleContact.ball.restitution ∧
    (paddleBallCollision 500 500 sampleContact).ball.velocity.y =
      sampleContact.ball.velocity.y * sampleContact.ball.restitution * 1.12 ∧
    paddleBallCollision 500 500 sampleApart = sampleApart :=
  have h := (paddleBallCollision_reflects 500 500 sampleContact).1
    (by with_unfolding_all decide)
  ⟨⟨by with_unfolding_all decide, by with_unfolding_all decide⟩, h.1, h.2.1,
    (paddleBallCollision_reflects 500 500 sampleApart).2 (by with_unfolding_all decide)⟩

end FeedCroc

namespace Select

variable {V F P : Type}

theorem whichFramesList_absent (frameConfig : FrameConfig V)
    (h : frameConfig.whichFrames = .absent) :
    whichFramesList frameConfig = (List.range frameConfig.frameOptions.length).map Int.ofNat := by
  unfold whichFramesList
  rw [h]
  rfl

theorem whichFramesList_minus_one (frameConfig : FrameConfig V)
    (h : frameConfig.whichFrames = .number (-1)) :
    whichFramesList frameConfig = (List.range frameConfig.frameOptions.length).map Int.ofNat := by
  unfold whichFramesList
  rw [h]
  rfl

theorem whichFramesList_number (frameConfig : FrameConfig V) (k : Int)
    (h : frameConfig.whichFrames = .number k) (hk : k ≠ -1) :
    whichFramesList frameConfig = [k] := by
  unfold whichFramesList
  rw [h]
  simp [typeofNumber, looseEqMinusOne, hk]

theorem whichFramesList_list (frameConfig : FrameConfig V) (indices : List Int)
    (h : frameConfig.whichFrames = .list indices) (hne : indices ≠ [-1]) :
    whichFramesList frameConfig = indices := by
  unfold whichFramesList
  rw [h]
  simp [typeofNumber, looseEqMinusOne, hasOwnWhichFrames, falsy, hne]

theorem whichFramesList_minus_one_list (frameConfig : FrameConfig V)
    (h : frameConfig.whichFrames = .list [-1]) :
    whichFramesList frameConfig = (List.range frameConfig.frameOptions.length).map Int.ofNat := by
  unfold whichFramesList
  rw [h]
  rfl

theorem forLoop_of_in_range (frameId : String) (frameConfig : FrameConfig V)
    (resolveFrame : String → Obj V → List F) (rest : List Int) (iFrame : Nat)
    (frames : List F) (calls : List (String × Obj V))
    (h : ∀ k ∈ rest, InRange frameConfig k) :
    forLoop frameId frameConfig resolveFrame rest iFrame frames calls =
      (calls ++ (rest.enumFrom iFrame).map
          (fun ik => (childId frameId ik.1, thisFrame frameConfig ik.2)),
        .ok (frames ++ (rest.enumFrom iFrame).flatMap
          (fun ik => resolveFrame (childId frameId ik.1) (thisFrame frameConfig ik.2)))) := by
  induction rest generalizing iFrame frames calls with
  | nil => simp [forLoop]
  | cons k rest ih =>
    have hk := h k (List.mem_cons_self _ _)
    unfold forLoop
    rw [if_neg (by unfold InRange at hk; omega),
      ih _ _ _ (fun j hj => h j (List.mem_cons_of_mem _ hj))]
    simp [List.enumFrom_cons, List.append_assoc]

theorem forLoop_of_out_of_range (frameId : String) (frameConfig : FrameConfig V)
    (resolveFrame : String → Obj V → List F) (rest : List Int) (iFrame : Nat)
    (frames : List F) (calls : List (String × Obj V))
    (h : ∃ k ∈ rest, ¬ InRange frameConfig k) :
    (forLoop frameId frameConfig resolveFrame rest iFrame frames calls).2 =
      .error outOfRange := by
  induction rest generalizing iFrame frames calls with
  | nil =>
    obtain ⟨k, hk, _⟩ := h
    exact absurd hk (List.not_mem_nil _)
  | cons k rest ih =>
    unfold forLoop
    split_ifs with hr
    · rfl
    · apply ih
      obtain ⟨j, hj, hout⟩ := h
      rcases List.mem_cons.mp hj with rfl | hj'
      · exact absurd (show InRange frameConfig j by unfold InRange; omega) hout
      · exact ⟨j, hj', hout⟩

theorem inRange_rewritten (frameConfig : FrameConfig V) (w : WhichFrames) (k : Int) :
    InRange { frameConfig with whichFrames := w } k ↔ InRange frameConfig k :=
  Iff.rfl

theorem thisFrame_rewritten (frameConfig : FrameConfig V) (w : WhichFrames) (k : Int) :
    thisFrame { frameConfig with whichFrames := w } k = thisFrame frameConfig k :=
  rfl

theorem randomizer_of_in_range (frameId : String) (frameConfig : FrameConfig V)
    (pastSessions : P) (resolveFrame : String → Obj V → List F)
    (h : ∀ k ∈ whichFramesList frameConfig, InRange frameConfig k) :
    (randomizer frameId frameConfig pastSessions resolveFrame).calls =
      (whichFramesList frameConfig).enum.map
        (fun ik => (childId frameId ik.1, thisFrame frameConfig ik.2)) ∧
    (randomizer frameId frameConfig pastSessions resolveFrame).result =
      .ok ((whichFramesList frameConfig).enum.flatMap
        (fun ik => resolveFrame (childId frameId ik.1) (thisFrame frameConfig ik.2)),
        whichFramesList frameConfig) := by
  unfold randomizer
  dsimp only
  rw [forLoop_of_in_range frameId
    { frameConfig with whichFrames := .list (whichFramesList frameConfig) } resolveFrame _ 0 [] [] h]
  exact ⟨rfl, rfl⟩

theorem randomizer_of_out_of_range (frameId : String) (frameConfig : FrameConfig V)
    (pastSessions : P) (resolveFrame : String → Obj V → List F)
    (h : ∃ k ∈ whichFramesList frameConfig, ¬ InRange frameConfig k) :
    (randomizer frameId frameConfig pastSessions resolveFrame).result = .error outOfRange := by
  unfold randomizer
  dsimp only
  rw [forLoop_of_out_of_range frameId
    { frameConfig with whichFrames := .list (whichFramesList frameConfig) } resolveFrame _ 0 [] [] h]
  rfl

theorem range_in_range (frameConfig : FrameConfig V) :
    ∀ k ∈ (List.range frameConfig.frameOptions.length).map Int.ofNat, InRange frameConfig k := by
  intro k hk
  obtain ⟨n, hn, rfl⟩ := List.mem_map.mp hk
  have := List.mem_range.mp hn
  unfold InRange
  constructor
  · exact Int.ofNat_nonneg n
  · exact Int.ofNat_lt.mpr this

theorem enum_range_cast (n : Nat) :
    ((List.range n).map Int.ofNat).enum = (List.range n).map (fun i => (i, Int.ofNat i)) := by
  apply List.ext_getElem?
  intro i
  rw [List.getElem?_enum, List.getElem?_map, List.getElem?_map]
  by_cases h : i < n
  · rw [List.getElem?_range h]
    rfl
  · rw [List.getElem?_eq_none (by rw [List.length_range]; omega)]
    rfl

theorem list_ne_minus_one_of_in_range (frameConfig : FrameConfig V) (indices : List Int)
    (h : ∀ k ∈ indices, InRange frameConfig k) : indices ≠ [-1] := by
  rintro rfl
  have := (h (-1) (List.mem_singleton.mpr rfl)).1
  omega

theorem randomizer_list_out_of_range (frameId : String) (frameConfig : FrameConfig V)
    (pastSessions : P) (resolveFrame : String → Obj V → List F) (indices : List Int)
    (hw : frameConfig.whichFrames = .list indices) (hne : indices ≠ [-1])
    (h : ∃ k ∈ indices, ¬ InRange frameConfig k) :
    (randomizer frameId frameConfig pastSessions resolveFrame).result = .error outOfRange := by
  apply randomizer_of_out_of_range
  rw [whichFramesList_list frameConfig indices hw hne]
  exact h

theorem randomizer_list_in_range (frameId : String) (frameConfig : FrameConfig V)
    (pastSessions : P) (resolveFrame : String → Obj V → List F) (indices : List Int)
    (hw : frameConfig.whichFrames = .list indices)
    (h : ∀ k ∈ indices, InRange frameConfig k) :
    ∃ frames, (randomizer frameId frameConfig pastSessions resolveFrame).result =
      .ok (frames, indices) := by
  have hl := whichFramesList_list frameConfig indices hw
    (list_ne_minus_one_of_in_range frameConfig indices h)
  have := (randomizer_of_in_range frameId frameConfig pastSessions resolveFrame
    (by rw [hl]; exact h)).2
  rw [hl] at this
  exact ⟨_, this⟩

/-- C16 fails on the code at the list `[-1]`: the index -1 is out of range, yet the
randomizer does not throw; the loose comparison `whichFrames == -1` of line 103 holds for
the array `[-1]`, so the list is replaced by all of `frameOptions`, and both frames of the
documentation example come back with `whichFrames = [0, 1]`. -/
theorem randomizer_minus_one_list_not_rejected :
    ¬ InRange (sampleConfig (.list [-1])) (-1) ∧
    (randomizer "sel" (sampleConfig (.list [-1])) () sampleResolve).result =
      .ok ([("sel-0", "exp-lookit-text", "FRAME 1"), ("sel-1", "special-frame", "FRAME 2")],
        [0, 1]) ∧
    (randomizer "sel" (sampleConfig (.list [-1, 0])) () sampleResolve).result =
      .error outOfRange :=
  ⟨fun h => absurd h.1 (by decide), rfl, rfl⟩

/-- C17: when `frameConfig` has no `whichFrames` property, or `whichFrames` is -1, the
randomizer calls `resolveFrame` once per option, in the order 0, 1, ...,
`frameOptions.length - 1`, with the id `frameId-i` and the merged frame of option `i`; it
returns the frames of these calls in that order and the condition
`whichFrames = [0, 1, ..., frameOptions.length - 1]`. -/
theorem randomizer_all_options (frameId : String) (frameConfig : FrameConfig V)
    (pastSessions : P) (resolveFrame : String → Obj V → List F)
    (h : frameConfig.whichFrames = .absent ∨ frameConfig.whichFrames = .number (-1)) :
    (randomizer frameId frameConfig pastSessions resolveFrame).calls =
      (List.range frameConfig.frameOptions.length).map
        (fun i => (childId frameId i, thisFrame frameConfig (Int.ofNat i))) ∧
    (randomizer frameId frameConfig pastSessions resolveFrame).result =
      .ok ((List.range frameConfig.frameOptions.length).flatMap
          (fun i => resolveFrame (childId frameId i) (thisFrame frameConfig (Int.ofNat i))),
        (List.range frameConfig.frameOptions.length).map Int.ofNat) ∧
    (randomizer frameId frameConfig pastSessions resolveFrame).frameConfig.whichFrames =
      .list ((List.range frameConfig.frameOptions.length).map Int.ofNat) := by
  have hl : whichFramesList frameConfig =
      (List.range frameConfig.frameOptions.length).map Int.ofNat := by
    rcases h with h | h
    · exact whichFramesList_absent frameConfig h
    · exact whichFramesList_minus_one frameConfig h
  have hr := randomizer_of_in_range frameId frameConfig pastSessions resolveFrame
    (by rw [hl]; exact range_in_range frameConfig)
  rw [hl, enum_range_cast] at hr
  refine ⟨?_, ?_, ?_⟩
  · rw [hr.1, List.map_map]
    rfl
  · rw [hr.2, List.flatMap_map]
  · show WhichFrames.list (whichFramesList frameConfig) = _
    rw [hl]

theorem randomizer_all_options_witness :
    (sampleConfig .absent).whichFrames = .absent ∧
    (randomizer "sel" (sampleConfig .absent) () sampleResolve).result =
      .ok ([("sel-0", "exp-lookit-text", "FRAME 1"), ("sel-1", "special-frame", "FRAME 2")],
        [0, 1]) ∧
    (randomizer "sel" (sampleConfig (.number (-1))) () sampleResolve).result =
      .ok ([("sel-0", "exp-lookit-text", "FRAME 1"), ("sel-1", "special-frame", "FRAME 2")],
        [0, 1]) :=
  ⟨rfl,
    (randomizer_all_options "sel" (sampleConfig .absent) () sampleResolve (Or.inl rfl)).2.1,
    (randomizer_all_options "sel" (sampleConfig (.number (-1))) () sampleResolve
      (Or.inr rfl)).2.1⟩

/-- C18: when `whichFrames` is the empty list, the randomizer keeps it: `resolveFrame` is
not called, the frame list returned is empty, the condition is `whichFrames = []`, and
`frameConfig.whichFrames` is still the empty list. -/
theorem randomizer_empty_list (frameId : String) (frameConfig : FrameConfig V)
    (pastSessions : P) (resolveFrame : String → Obj V → List F)
    (h : frameConfig.whichFrames = .list []) :
    (randomizer frameId frameConfig pastSessions resolveFrame).calls = [] ∧
    (randomizer frameId frameConfig pastSessions resolveFrame).result = .ok ([], []) ∧
    (randomizer frameId frameConfig pastSessions resolveFrame).frameConfig.whichFrames =
      .list [] := by
  have hl := whichFramesList_list frameConfig [] h (by decide)
  have hr := randomizer_of_in_range frameId frameConfig pastSessions resolveFrame
    (by rw [hl]; exact fun k hk => absurd hk (List.not_mem_nil _))
  rw [hl] at hr
  refine ⟨hr.1, hr.2, ?_⟩
  show WhichFrames.list (whichFramesList frameConfig) = _
  rw [hl]

theorem randomizer_empty_list_witness :
    (sampleConfig (.list [])).whichFrames = .list [] ∧
    (sampleConfig (.list [])).frameOptions.length = 2 ∧
    (randomizer "sel" (sampleConfig (.list [])) () sampleResolve).result = .ok ([], []) :=
  ⟨rfl, rfl, (randomizer_empty_list "sel" (sampleConfig (.list [])) () sampleResolve rfl).2.1⟩

theorem thisFrame_lookup (frameConfig : FrameConfig V) (k : Int) (option : Obj V)
    (hopt : frameConfig.frameOptions[k.toNat]? = some option) (p : String) :
    thisFrame frameConfig k p =
      match option p with
      | some v => some v
      | none => frameConfig.commonFrameProperties p := by
  unfold thisFrame assign emptyObject
  rw [hopt]
  dsimp only [Option.getD_some]
  cases option p with
  | some v => rfl
  | none =>
    dsimp only
    cases frameConfig.commonFrameProperties p <;> rfl

theorem forLoop_calls_mem (frameId : String) (frameConfig : FrameConfig V)
    (resolveFrame : String → Obj V → List F) (rest : List Int) (iFrame : Nat)
    (frames : List F) (calls : List (String × Obj V)) (call : String × Obj V)
    (h : call ∈ (forLoop frameId frameConfig resolveFrame rest iFrame frames calls).1) :
    call ∈ calls ∨ ∃ (j : Nat) (k : Int), rest[j]? = some k ∧ InRange frameConfig k ∧
      call = (childId frameId (iFrame + j), thisFrame frameConfig k) := by
  induction rest generalizing iFrame frames calls with
  | nil => exact Or.inl h
  | cons k rest ih =>
    unfold forLoop at h
    split_ifs at h with hr
    · exact Or.inl h
    · rcases ih _ _ _ h with hmem | ⟨j, k', hj, hin, hcall⟩
      · rcases List.mem_append.mp hmem with hold | hnew
        · exact Or.inl hold
        · refine Or.inr ⟨0, k, List.getElem?_cons_zero, ?_, List.mem_singleton.mp hnew⟩
          unfold InRange
          omega
      · refine Or.inr ⟨j + 1, k', by rw [List.getElem?_cons_succ]; exact hj, hin, ?_⟩
        rw [hcall, Nat.add_assoc, Nat.add_comm 1 j]

/-- C19: every frame object the randomizer passes to `resolveFrame` is that of a selected
index `k`, the `i`-th of `whichFrames`, in range of `frameOptions`; for each property `p`
it holds the value of `frameOptions[k]` where that option defines `p`, and otherwise what
`commonFrameProperties` holds for `p`.  The `frameOptions` and `commonFrameProperties` of
`frameConfig` are the same after the call. -/
theorem thisFrame_option_over_common (frameId : String) (frameConfig : FrameConfig V)
    (pastSessions : P) (resolveFrame : String → Obj V → List F) :
    (∀ call ∈ (randomizer frameId frameConfig pastSessions resolveFrame).calls,
      ∃ (i : Nat) (k : Int) (option : Obj V),
        (whichFramesList frameConfig)[i]? = some k ∧ InRange frameConfig k ∧
        frameConfig.frameOptions[k.toNat]? = some option ∧
        call.1 = childId frameId i ∧
        ∀ p : String, (∀ v, option p = some v → call.2 p = some v) ∧
          (option p = none → call.2 p = frameConfig.commonFrameProperties p)) ∧
    (randomizer frameId frameConfig pastSessions resolveFrame).frameConfig.frameOptions =
      frameConfig.frameOptions ∧
    (randomizer frameId frameConfig pastSessions resolveFrame).frameConfig.commonFrameProperties =
      frameConfig.commonFrameProperties := by
  refine ⟨?_, rfl, rfl⟩
  intro call hcall
  rcases forLoop_calls_mem frameId
    { frameConfig with whichFrames := .list (whichFramesList frameConfig) } resolveFrame
    (whichFramesList frameConfig) 0 [] [] call hcall with hnil | ⟨j, k, hj, hin, hc⟩
  · exact absurd hnil (List.not_mem_nil _)
  · have hin' : InRange frameConfig k := hin
    have hlt : k.toNat < frameConfig.frameOptions.length := by
      unfold InRange at hin'
      omega
    refine ⟨j, k, frameConfig.frameOptions[k.toNat], hj, hin',
      List.getElem?_eq_getElem hlt, ?_, ?_⟩
    · rw [hc, Nat.zero_add]
    · intro p
      have hlook := thisFrame_lookup frameConfig k _ (List.getElem?_eq_getElem hlt) p
      rw [hc]
      show (∀ v, _ → thisFrame frameConfig k p = some v) ∧
        (_ → thisFrame frameConfig k p = frameConfig.commonFrameProperties p)
      constructor
      · intro v hv
        rw [hlook, hv]
      · intro hnone
        rw [hlook, hnone]

/-- C20: for a `whichFrames` list of indices all in range (repeats allowed) the randomizer
calls `resolveFrame(frameId-i, merged frame of option k_i)` for `i = 0, 1, ...` in list
order, returns the concatenation of the frame lists these calls give, in that order, and
returns the list itself as the condition `whichFrames`.  A single number `k` other than -1
gives, in every respect, what the list `[k]` gives. -/
theorem randomizer_list_in_order (frameId : String) (frameConfig : FrameConfig V)
    (pastSessions : P) (resolveFrame : String → Obj V → List F) (indices : List Int)
    (hw : frameConfig.whichFrames = .list indices)
    (hin : ∀ k ∈ indices, InRange frameConfig k) :
    (randomizer frameId frameConfig pastSessions resolveFrame).result =
      .ok (indices.enum.flatMap
          (fun ik => resolveFrame (childId frameId ik.1) (thisFrame frameConfig ik.2)),
        indices) ∧
    (randomizer frameId frameConfig pastSessions resolveFrame).calls =
      indices.enum.map (fun ik => (childId frameId ik.1, thisFrame frameConfig ik.2)) ∧
    (∀ k : Int, k ≠ -1 →
      randomizer frameId { frameConfig with whichFrames := .number k } pastSessions
          resolveFrame =
        randomizer frameId { frameConfig with whichFrames := .list [k] } pastSessions
          resolveFrame) := by
  have hl := whichFramesList_list frameConfig indices hw
    (list_ne_minus_one_of_in_range frameConfig indices hin)
  have hr := randomizer_of_in_range frameId frameConfig pastSessions resolveFrame
    (by rw [hl]; exact hin)
  rw [hl] at hr
  refine ⟨hr.2, hr.1, ?_⟩
  intro k hk
  have h₁ : whichFramesList { frameConfig with whichFrames := .number k } = [k] :=
    whichFramesList_number _ k rfl hk
  have h₂ : whichFramesList { frameConfig with whichFrames := .list [k] } = [k] :=
    whichFramesList_list _ [k] rfl (by
      intro h
      exact hk (List.head_eq_of_cons_eq h))
  unfold randomizer
  rw [h₁, h₂]

theorem randomizer_list_in_order_witness :
    ((sampleConfig (.list [1, 0, 1])).whichFrames = .list [1, 0, 1] ∧
      ∀ k ∈ [1, 0, 1], InRange (sampleConfig (.list [1, 0, 1])) k) ∧
    (randomizer "sel" (sampleConfig (.list [1, 0, 1])) () sampleResolve).result =
      .ok ([("sel-0", "special-frame", "FRAME 2"), ("sel-1", "exp-lookit-text", "FRAME 1"),
        ("sel-2", "special-frame", "FRAME 2")], [1, 0, 1]) ∧
    (randomizer "sel" (sampleConfig (.number 1)) () sampleResolve).result =
      .ok ([("sel-0", "special-frame", "FRAME 2")], [1]) :=
  have hin : ∀ k ∈ [1, 0, 1], InRange (sampleConfig (.list [1, 0, 1])) k := by
    intro k hk
    simp only [List.mem_cons, List.mem_singleton, List.not_mem_nil, or_false] at hk
    rcases hk with rfl | rfl | rfl <;> exact ⟨by decide, by decide⟩
  have h := randomizer_list_in_order "sel" (sampleConfig (.list [1, 0, 1])) ()
    sampleResolve [1, 0, 1] rfl hin
  ⟨⟨rfl, hin⟩, h.1, congrArg Outcome.result (h.2.2 1 (by decide))⟩

theorem thisFrame_option_over_common_witness :
    (randomizer "sel" (sampleConfig (.list [1, 0])) () sampleResolve).calls.length = 2 ∧
    ∀ call ∈ (randomizer "sel" (sampleConfig (.list [1, 0])) () sampleResolve).calls,
      ∃ (i : Nat) (k : Int), [1, 0][i]? = some k ∧ call.1 = childId "sel" i :=
  ⟨rfl, fun call hcall =>
    have ⟨i, k, _, hk, _, _, hid, _⟩ := (thisFrame_option_over_common "sel"
      (sampleConfig (.list [1, 0])) () sampleResolve).1 call hcall
    ⟨i, k, hk, hid⟩⟩

end Select

namespace InfantControlledTiming

/-- C21 fails on the code: parent control starts at 0 ms, the parent presses the lookaway
key at 1000 ms (the end-trial timer is set for 2000 ms), `endParentControl` is called at
1500 ms with the key still down, and at 3000 ms the timer has run out:
`onLookawayCriterion` is called after `parentControlPeriodEnd`, with no
`startParentControl` in between. -/
theorem endParentControl_leaves_timer_armed :
    (run defaultConfig (didInsertElement 0)
      [(0, .startParentControl), (1000, .keydown "p"), (1500, .endParentControl)]).timers =
      [⟨1, 1000, 2000⟩] ∧
    (run defaultConfig (didInsertElement 0)
      [(0, .startParentControl), (1000, .keydown "p"), (1500, .endParentControl),
        (3000, .wait)]).log =
      [.timeEvent "parentControlPeriodStart", .timeEvent "lookawayStart",
        .timeEvent "parentControlPeriodEnd", .timeEvent "lookawayEndedTrial",
        .onLookawayCriterion] := by
  constructor
  · with_unfolding_all rfl
  · with_unfolding_all decide

theorem foldl_timerCallback_fields (l : List Timer) (s : Mixin) :
    (l.foldl (fun s _ => timerCallback s) s).totalLookaway = s.totalLookaway ∧
    (l.foldl (fun s _ => timerCallback s) s).lastLookawayStart = s.lastLookawayStart ∧
    (l.foldl (fun s _ => timerCallback s) s).isLooking = s.isLooking ∧
    (l.foldl (fun s _ => timerCallback s) s).controlPeriodStarted = s.controlPeriodStarted ∧
    (l.foldl (fun s _ => timerCallback s) s).anyLookDuringControlPeriod =
      s.anyLookDuringControlPeriod ∧
    (l.foldl (fun s _ => timerCallback s) s).parentEndTrialHandlers =
      s.parentEndTrialHandlers ∧
    (l.foldl (fun s _ => timerCallback s) s).timers = s.timers ∧
    (l.foldl (fun s _ => timerCallback s) s).nextTimerId = s.nextTimerId ∧
    (l.foldl (fun s _ => timerCallback s) s).endTrialDueToLookawayTimer =
      s.endTrialDueToLookawayTimer := by
  induction l generalizing s with
  | nil => exact ⟨rfl, rfl, rfl, rfl, rfl, rfl, rfl, rfl, rfl⟩
  | cons t rest ih => exact ih (timerCallback s)

theorem fireDue_fields (now : Int) (s : Mixin) :
    (fireDue now s).totalLookaway = s.totalLookaway ∧
    (fireDue now s).lastLookawayStart = s.lastLookawayStart ∧
    (fireDue now s).isLooking = s.isLooking ∧
    (fireDue now s).controlPeriodStarted = s.controlPeriodStarted ∧
    (fireDue now s).anyLookDuringControlPeriod = s.anyLookDuringControlPeriod ∧
    (fireDue now s).parentEndTrialHandlers = s.parentEndTrialHandlers ∧
    (fireDue now s).nextTimerId = s.nextTimerId ∧
    (fireDue now s).endTrialDueToLookawayTimer = s.endTrialDueToLookawayTimer := by
  unfold fireDue
  obtain ⟨h₁, h₂, h₃, h₄, h₅, h₆, _, h₈, h₉⟩ := foldl_timerCallback_fields
    (s.timers.filter (fun t => decide ((t.setAt : ℚ) + max t.delay 0 ≤ now)))
    { s with
      timers := s.timers.filter (fun t => !decide ((t.setAt : ℚ) + max t.delay 0 ≤ now)) }
  exact ⟨h₁, h₂, h₃, h₄, h₅, h₆, h₈, h₉⟩

theorem fireDue_of_no_timer (now : Int) (s : Mixin) (h : s.timers = []) : fireDue now s = s := by
  cases s
  simp only at h
  subst h
  rfl

theorem silent_of_log_eq {s t : Mixin} (h : t.log = s.log) : Silent s t :=
  ⟨[], by rw [h, List.append_nil], List.not_mem_nil _⟩

theorem silent_time_event {s t : Mixin} {name : String}
    (h : t.log = s.log ++ [.timeEvent name]) : Silent s t :=
  ⟨[.timeEvent name], h, by simp⟩

theorem lookawayOn_control_off (cfg : Config) (now : Int) (s : Mixin) (h : ControlOff s) :
    ControlOff (lookawayOn cfg now s) ∧ Silent s (lookawayOn cfg now s) := by
  obtain ⟨h₁, h₂, h₃⟩ := h
  unfold lookawayOn
  split_ifs
  · unfold recordLookawayStart setTimeEvent
    dsimp only
    rw [if_neg (by rw [h₁]; decide)]
    exact ⟨⟨h₁, h₂, h₃⟩, silent_time_event rfl⟩
  · exact ⟨⟨h₁, h₂, h₃⟩, silent_of_log_eq rfl⟩

theorem lookawayOff_control_off (cfg : Config) (now : Int) (s : Mixin) (h : ControlOff s) :
    ControlOff (lookawayOff cfg now s) ∧ Silent s (lookawayOff cfg now s) := by
  obtain ⟨h₁, h₂, h₃⟩ := h
  unfold lookawayOff
  split_ifs
  · unfold recordLookawayEnd setTimeEvent
    dsimp only
    rw [if_neg (by rw [h₁]; simp)]
    exact ⟨⟨h₁, h₂, by rw [h₃]; rfl⟩, silent_time_event rfl⟩
  · exact ⟨⟨h₁, h₂, h₃⟩, silent_of_log_eq rfl⟩

theorem step_control_off (cfg : Config) (s : Mixin) (te : Int × Event) (h : ControlOff s)
    (hs : te.2 ≠ .startParentControl) :
    ControlOff (step cfg s te) ∧ Silent s (step cfg s te) := by
  obtain ⟨now, e⟩ := te
  show ControlOff (handle cfg now e (fireDue now s)) ∧
    Silent s (handle cfg now e (fireDue now s))
  rw [fireDue_of_no_timer now s h.2.2]
  cases e with
  | keydown key =>
    simp only [handle]
    split_ifs
    · exact lookawayOn_control_off cfg now s h
    · exact ⟨h, silent_of_log_eq rfl⟩
  | mousedown =>
    simp only [handle]
    split_ifs
    · exact lookawayOn_control_off cfg now s h
    · exact ⟨h, silent_of_log_eq rfl⟩
  | keyup key fullscreen =>
    have hfold : ∀ t : Mixin, ControlOff t →
        (List.range t.parentEndTrialHandlers).foldl
          (fun s _ => parentEndTrial cfg key fullscreen s) t = t := by
      intro t ht
      rw [ht.2.1]
      rfl
    simp only [handle]
    split_ifs
    · rw [hfold _ (lookawayOff_control_off cfg now s h).1]
      exact lookawayOff_control_off cfg now s h
    · rw [hfold _ h]
      exact ⟨h, silent_of_log_eq rfl⟩
  | mouseup =>
    simp only [handle]
    split_ifs
    · exact lookawayOff_control_off cfg now s h
    · exact ⟨h, silent_of_log_eq rfl⟩
  | startParentControl => exact absurd rfl hs
  | endParentControl =>
    obtain ⟨h₁, h₂, h₃⟩ := h
    exact ⟨⟨rfl, rfl, h₃⟩, silent_time_event rfl⟩
  | wait => exact ⟨h, silent_of_log_eq rfl⟩

theorem silent_trans_step {s t u : Mixin} (h₁ : Silent s t) (h₂ : Silent t u) : Silent s u := by
  obtain ⟨a, ha, hna⟩ := h₁
  obtain ⟨b, hb, hnb⟩ := h₂
  refine ⟨a ++ b, by rw [hb, ha, List.append_assoc], ?_⟩
  intro hx
  rcases List.mem_append.mp hx with h | h
  · exact hna h
  · exact hnb h

/-- With no timer pending when parent control ends, the documented behaviour holds: through
any events up to the next `startParentControl`, `onLookawayCriterion` is not called. -/
theorem run_silent_of_control_off (cfg : Config) (events : List (Int × Event)) (s : Mixin)
    (h : ControlOff s) (hs : ∀ te ∈ events, te.2 ≠ Event.startParentControl) :
    ControlOff (run cfg s events) ∧ Silent s (run cfg s events) := by
  induction events generalizing s with
  | nil => exact ⟨h, silent_of_log_eq rfl⟩
  | cons te rest ih =>
    have h₁ := step_control_off cfg s te h (hs te (List.mem_cons_self _ _))
    have h₂ := ih (step cfg s te) h₁.1 (fun x hx => hs x (List.mem_cons_of_mem _ hx))
    exact ⟨h₂.1, silent_trans_step h₁.2 h₂.2⟩

theorem fireDue_counters (now : Int) (s : Mixin) : (fireDue now s).counters = s.counters := by
  obtain ⟨h₁, h₂, h₃, h₄, h₅, _⟩ := fireDue_fields now s
  unfold Mixin.counters
  rw [h₁, h₂, h₃, h₄, h₅]

theorem foldl_parentEndTrial_fields (cfg : Config) (key : String) (fullscreen : Bool)
    (l : List Nat) (s : Mixin) :
    (l.foldl (fun s _ => parentEndTrial cfg key fullscreen s) s).counters = s.counters ∧
    (l.foldl (fun s _ => parentEndTrial cfg key fullscreen s) s).timers = s.timers ∧
    (l.foldl (fun s _ => parentEndTrial cfg key fullscreen s) s).nextTimerId = s.nextTimerId ∧
    (l.foldl (fun s _ => parentEndTrial cfg key fullscreen s) s).endTrialDueToLookawayTimer =
      s.endTrialDueToLookawayTimer := by
  induction l generalizing s with
  | nil => exact ⟨rfl, rfl, rfl, rfl⟩
  | cons t rest ih =>
    have h := ih (parentEndTrial cfg key fullscreen s)
    have hp : (parentEndTrial cfg key fullscreen s).counters = s.counters ∧
        (parentEndTrial cfg key fullscreen s).timers = s.timers ∧
        (parentEndTrial cfg key fullscreen s).nextTimerId = s.nextTimerId ∧
        (parentEndTrial cfg key fullscreen s).endTrialDueToLookawayTimer =
          s.endTrialDueToLookawayTimer := by
      unfold parentEndTrial
      split_ifs <;> exact ⟨rfl, rfl, rfl, rfl⟩
    exact ⟨h.1.trans hp.1, h.2.1.trans hp.2.1, h.2.2.1.trans hp.2.2.1,
      h.2.2.2.trans hp.2.2.2⟩

theorem handle_of_lookaway_start (cfg : Config) (now : Int) (e : Event) (s : Mixin)
    (hon : isLookawayOn cfg e = true) (hl : s.isLooking = true) :
    handle cfg now e s = recordLookawayStart cfg now { s with isLooking := false } := by
  cases e with
  | keydown key => simp only [handle, hon, lookawayOn, hl, if_true]
  | mousedown => simp only [handle, hon, lookawayOn, hl, if_true]
  | _ => simp [isLookawayOn] at hon

theorem handle_of_lookaway_end (cfg : Config) (now : Int) (e : Event) (s : Mixin)
    (hoff : isLookawayOff cfg e = true) (hl : s.isLooking = false) :
    (handle cfg now e s).counters =
      (recordLookawayEnd cfg now { s with isLooking := true }).counters := by
  cases e with
  | keyup key fullscreen =>
    simp only [handle, hoff, lookawayOff, hl, if_true, Bool.not_false]
    exact (foldl_parentEndTrial_fields cfg key fullscreen _ _).1
  | mouseup => simp only [handle, hoff, lookawayOff, hl, if_true, Bool.not_false]
  | _ => simp [isLookawayOff] at hoff

theorem handle_of_other (cfg : Config) (now : Int) (e : Event) (s : Mixin)
    (hon : ¬ (s.isLooking = true ∧ isLookawayOn cfg e = true))
    (hoff : ¬ (s.isLooking = false ∧ isLookawayOff cfg e = true))
    (hs : e ≠ .startParentControl) (he : e ≠ .endParentControl) :
    (handle cfg now e s).counters = s.counters := by
  have hon' : ∀ t : Mixin, t = s → isLookawayOn cfg e = true → lookawayOn cfg now t = t := by
    intro t ht h
    unfold lookawayOn
    rw [if_neg]
    intro hl
    exact hon ⟨by rw [← ht]; exact hl, h⟩
  have hoff' : ∀ t : Mixin, t = s → isLookawayOff cfg e = true → lookawayOff cfg now t = t := by
    intro t ht h
    unfold lookawayOff
    rw [if_neg]
    intro hl
    exact hoff ⟨by rw [← ht]; simpa using hl, h⟩
  cases e with
  | keydown key =>
    simp only [handle]
    split_ifs with h
    · rw [hon' s rfl h]
    · rfl
  | mousedown =>
    simp only [handle]
    split_ifs with h
    · rw [hon' s rfl h]
    · rfl
  | keyup key fullscreen =>
    simp only [handle]
    rw [(foldl_parentEndTrial_fields cfg key fullscreen _ _).1]
    split_ifs with h
    · rw [hoff' s rfl h]
    · rfl
  | mouseup =>
    simp only [handle]
    split_ifs with h
    · rw [hoff' s rfl h]
    · rfl
  | startParentControl => exact absurd rfl hs
  | endParentControl => exact absurd rfl he
  | wait => rfl

theorem counters_fields {s t : Mixin} (h : s.counters = t.counters) :
    s.totalLookaway = t.totalLookaway ∧ s.lastLookawayStart = t.lastLookawayStart ∧
    s.isLooking = t.isLooking ∧ s.controlPeriodStarted = t.controlPeriodStarted ∧
    s.anyLookDuringControlPeriod = t.anyLookDuringControlPeriod := by
  unfold Mixin.counters at h
  simp only [Prod.mk.injEq] at h
  exact h

theorem recordLookawayStart_counters (cfg : Config) (now : Int) (s : Mixin) :
    (recordLookawayStart cfg now s).counters =
      (s.totalLookaway, now, s.isLooking, s.controlPeriodStarted,
        s.anyLookDuringControlPeriod) := by
  unfold recordLookawayStart setTimeEvent Mixin.counters
  dsimp only
  split_ifs <;> rfl

theorem recordLookawayEnd_counters (cfg : Config) (now : Int) (s : Mixin)
    (htotal : cfg.lookawayType = "total") (hc : s.controlPeriodStarted = true) :
    (recordLookawayEnd cfg now s).counters =
      if s.anyLookDuringControlPeriod then
        (s.totalLookaway + (now - s.lastLookawayStart), s.lastLookawayStart, s.isLooking, true,
          true)
      else (s.totalLookaway, s.lastLookawayStart, s.isLooking, true, true) := by
  unfold recordLookawayEnd setTimeEvent Mixin.counters
  dsimp only
  rw [if_pos ⟨htotal, hc⟩]
  split_ifs with h
  · simp [hc, h]
  · simp [hc]

theorem run_cons (cfg : Config) (s : Mixin) (te : Int × Event) (rest : List (Int × Event)) :
    run cfg s (te :: rest) = run cfg (step cfg s te) rest :=
  rfl

theorem run_total_tracks (cfg : Config) (htotal : cfg.lookawayType = "total")
    (events : List (Int × Event)) (hw : WithinControl events) (s : Mixin)
    (began : Option Int) (hc : s.controlPeriodStarted = true) (ht : Tracks s began) :
    (run cfg s events).controlPeriodStarted = true ∧
    (run cfg s events).totalLookaway =
      s.totalLookaway + (lookawayDurations cfg s.isLooking began events).sum := by
  induction events generalizing s began with
  | nil => exact ⟨hc, by simp [run, lookawayDurations]⟩
  | cons te rest ih =>
    obtain ⟨now, e⟩ := te
    have hw' : WithinControl rest := fun x hx => hw x (List.mem_cons_of_mem _ hx)
    have he := hw (now, e) (List.mem_cons_self _ _)
    obtain ⟨f₁, f₂, f₃, f₄, f₅⟩ := counters_fields (fireDue_counters now s)
    rw [run_cons]
    by_cases hon : s.isLooking = true ∧ isLookawayOn cfg e = true
    · have hstep : (step cfg s (now, e)).counters =
          (s.totalLookaway, now, false, true, s.anyLookDuringControlPeriod) := by
        show (handle cfg now e (fireDue now s)).counters = _
        rw [handle_of_lookaway_start cfg now e _ hon.2 (f₃.trans hon.1),
          recordLookawayStart_counters]
        simp [f₁, f₄, f₅, hc]
      have g := counters_fields (t := ⟨s.totalLookaway, now, false, none, true,
        s.anyLookDuringControlPeriod, 0, [], 0, []⟩) hstep
      obtain ⟨g₁, g₂, g₃, g₄, g₅⟩ := g
      have hany := (ht.1 hon.1).1
      have htr : Tracks (step cfg s (now, e)) (some now) := by
        constructor
        · intro h
          rw [g₃] at h
          cases h
        · intro _
          rw [g₅, g₂]
          simp [hany]
      obtain ⟨i₁, i₂⟩ := ih hw' (step cfg s (now, e)) (some now) g₄ htr
      refine ⟨i₁, ?_⟩
      rw [i₂, g₁, g₃, hon.1]
      simp [lookawayDurations, hon.2]
    · by_cases hoff : s.isLooking = false ∧ isLookawayOff cfg e = true
      · have hstep : (step cfg s (now, e)).counters =
            if s.anyLookDuringControlPeriod then
              (s.totalLookaway + (now - s.lastLookawayStart), s.lastLookawayStart, true, true,
                true)
            else (s.totalLookaway, s.lastLookawayStart, true, true, true) := by
          show (handle cfg now e (fireDue now s)).counters = _
          rw [handle_of_lookaway_end cfg now e _ hoff.2 (f₃.trans hoff.1),
            recordLookawayEnd_counters cfg now { fireDue now s with isLooking := true } htotal
              (f₄.trans hc)]
          simp [f₁, f₂, f₅]
        have hbegan := ht.2 hoff.1
        cases hany : s.anyLookDuringControlPeriod with
        | true =>
          rw [hany] at hstep hbegan
          obtain ⟨g₁, g₂, g₃, g₄, g₅⟩ := counters_fields
            (t := ⟨s.totalLookaway + (now - s.lastLookawayStart), s.lastLookawayStart, true,
              none, true, true, 0, [], 0, []⟩) hstep
          have htr : Tracks (step cfg s (now, e)) none :=
            ⟨fun _ => ⟨g₅, rfl⟩, fun h => by rw [g₃] at h; cases h⟩
          obtain ⟨i₁, i₂⟩ := ih hw' (step cfg s (now, e)) none g₄ htr
          refine ⟨i₁, ?_⟩
          rw [i₂, g₁, g₃, hoff.1, hbegan]
          simp [lookawayDurations, hoff.2]
          ring
        | false =>
          rw [hany] at hstep hbegan
          obtain ⟨g₁, g₂, g₃, g₄, g₅⟩ := counters_fields
            (t := ⟨s.totalLookaway, s.lastLookawayStart, true, none, true, true, 0, [], 0, []⟩)
            hstep
          have htr : Tracks (step cfg s (now, e)) none :=
            ⟨fun _ => ⟨g₅, rfl⟩, fun h => by rw [g₃] at h; cases h⟩
          obtain ⟨i₁, i₂⟩ := ih hw' (step cfg s (now, e)) none g₄ htr
          refine ⟨i₁, ?_⟩
          rw [i₂, g₁, g₃, hoff.1, hbegan]
          simp [lookawayDurations, hoff.2]
      · have hstep : (step cfg s (now, e)).counters = s.counters := by
          show (handle cfg now e (fireDue now s)).counters = _
          rw [handle_of_other cfg now e _ (by rw [f₃]; exact hon) (by rw [f₃]; exact hoff)
            he.1 he.2]
          exact fireDue_counters now s
        obtain ⟨g₁, g₂, g₃, g₄, g₅⟩ := counters_fields hstep
        have htr : Tracks (step cfg s (now, e)) began := by
          unfold Tracks
          rw [g₃, g₅, g₂]
          exact ht
        obtain ⟨i₁, i₂⟩ := ih hw' (step cfg s (now, e)) began (g₄.trans hc) htr
        refine ⟨i₁, ?_⟩
        rw [i₂, g₁, g₃]
        congr 2
        have hon' : (s.isLooking && isLookawayOn cfg e) = false := by
          rw [Bool.and_eq_false_iff]
          by_contra hcon
          push_neg at hcon
          exact hon ⟨by simpa using hcon.1, by simpa using hcon.2⟩
        have hoff' : (!s.isLooking && isLookawayOff cfg e) = false := by
          rw [Bool.and_eq_false_iff]
          by_contra hcon
          push_neg at hcon
          exact hoff ⟨by simpa using hcon.1, by simpa using hcon.2⟩
        conv_rhs => unfold lookawayDurations
        simp [hon', hoff']

theorem recordLookawayEnd_controlPeriodStarted (cfg : Config) (now : Int) (s : Mixin) :
    (recordLookawayEnd cfg now s).controlPeriodStarted = s.controlPeriodStarted := by
  unfold recordLookawayEnd setTimeEvent
  dsimp only
  split_ifs <;> rfl

theorem handle_controlPeriodStarted (cfg : Config) (now : Int) (e : Event) (s : Mixin)
    (hs : e ≠ .startParentControl) (he : e ≠ .endParentControl) :
    (handle cfg now e s).controlPeriodStarted = s.controlPeriodStarted := by
  have hon : (lookawayOn cfg now s).controlPeriodStarted = s.controlPeriodStarted := by
    unfold lookawayOn
    split_ifs
    · unfold recordLookawayStart setTimeEvent
      dsimp only
      split_ifs <;> rfl
    · rfl
  have hoff : (lookawayOff cfg now s).controlPeriodStarted = s.controlPeriodStarted := by
    unfold lookawayOff
    split_ifs
    · exact recordLookawayEnd_controlPeriodStarted cfg now _
    · rfl
  cases e with
  | keydown key =>
    simp only [handle]
    split_ifs
    · exact hon
    · rfl
  | mousedown =>
    simp only [handle]
    split_ifs
    · exact hon
    · rfl
  | keyup key fullscreen =>
    simp only [handle]
    rw [(counters_fields (foldl_parentEndTrial_fields cfg key fullscreen _ _).1).2.2.2.1]
    split_ifs
    · exact hoff
    · rfl
  | mouseup =>
    simp only [handle]
    split_ifs
    · exact hoff
    · rfl
  | startParentControl => exact absurd rfl hs
  | endParentControl => exact absurd rfl he
  | wait => rfl

theorem run_controlPeriodStarted (cfg : Config) (events : List (Int × Event))
    (hw : WithinControl events) (s : Mixin) :
    (run cfg s events).controlPeriodStarted = s.controlPeriodStarted := by
  induction events generalizing s with
  | nil => rfl
  | cons te rest ih =>
    have he := hw te (List.mem_cons_self _ _)
    rw [run_cons, ih (fun x hx => hw x (List.mem_cons_of_mem _ hx))]
    show (handle cfg te.1 te.2 (fireDue te.1 s)).controlPeriodStarted = _
    rw [handle_controlPeriodStarted cfg _ _ _ he.1 he.2]
    exact (fireDue_fields te.1 s).2.2.2.1

theorem tracks_startParentControl (s : Mixin) : Tracks (startParentControl s) none := by
  unfold Tracks startParentControl setTimeEvent
  dsimp only
  constructor
  · intro h
    exact ⟨h, rfl⟩
  · intro h
    rw [h]
    rfl

theorem step_arms_timer (cfg : Config) (now : Int) (e : Event) (s : Mixin)
    (hon : isLookawayOn cfg e = true) (hl : s.isLooking = true)
    (hc : s.controlPeriodStarted = true) :
    (step cfg s (now, e)).timers = (fireDue now s).timers ++
      [⟨s.nextTimerId, now,
        if cfg.lookawayType = "total" then cfg.lookawayThreshold * 1000 - s.totalLookaway
        else cfg.lookawayThreshold * 1000⟩] ∧
    (step cfg s (now, e)).endTrialDueToLookawayTimer = some s.nextTimerId := by
  obtain ⟨f₁, _, f₃, f₄, _, _, f₇, _⟩ := fireDue_fields now s
  show (handle cfg now e (fireDue now s)).timers = _ ∧
    (handle cfg now e (fireDue now s)).endTrialDueToLookawayTimer = _
  rw [handle_of_lookaway_start cfg now e _ hon (f₃.trans hl)]
  unfold recordLookawayStart setTimeEvent
  dsimp only
  rw [if_pos (f₄.trans hc), f₁, f₇]
  exact ⟨rfl, rfl⟩

theorem step_arms_no_timer (cfg : Config) (now : Int) (e : Event) (s : Mixin)
    (hon : isLookawayOn cfg e = true) (hc : s.controlPeriodStarted = false) :
    (step cfg s (now, e)).timers = (fireDue now s).timers := by
  obtain ⟨_, _, _, f₄, _⟩ := fireDue_fields now s
  show (handle cfg now e (fireDue now s)).timers = _
  have hstart : ∀ t : Mixin, t.controlPeriodStarted = false →
      (recordLookawayStart cfg now t).timers = t.timers := by
    intro t ht
    unfold recordLookawayStart setTimeEvent
    dsimp only
    rw [if_neg (by rw [ht]; decide)]
  have hlook : (lookawayOn cfg now (fireDue now s)).timers = (fireDue now s).timers := by
    unfold lookawayOn
    split_ifs
    · exact hstart _ (f₄.trans hc)
    · rfl
  cases e with
  | keydown key => simp only [handle, hon, if_true, hlook]
  | mousedown => simp only [handle, hon, if_true, hlook]
  | _ => simp [isLookawayOn] at hon

/-- C22: after `startParentControl`, through any events in which parent control is neither
started again nor ended, a lookaway that starts (the child was looking) sets the end-trial
timer with the delay `lookawayThreshold * 1000` ms in 'continuous' mode and
`lookawayThreshold * 1000 - _totalLookaway` ms in 'total' mode, where `_totalLookaway` is
the sum of the durations of the lookaways that began and were completed since
`startParentControl`; a lookaway in progress when the period starts began before the first
look and is not in the sum.  A lookaway that starts while the control period has not
started sets no timer. -/
theorem lookaway_timer_delay (cfg : Config) (s₀ : Mixin) (events : List (Int × Event))
    (now : Int) (e : Event) (hw : WithinControl events) (hon : isLookawayOn cfg e = true)
    (hl : (run cfg (startParentControl s₀) events).isLooking = true) :
    (cfg.lookawayType = "continuous" →
      (step cfg (run cfg (startParentControl s₀) events) (now, e)).timers =
        (fireDue now (run cfg (startParentControl s₀) events)).timers ++
          [⟨(run cfg (startParentControl s₀) events).nextTimerId, now,
            cfg.lookawayThreshold * 1000⟩]) ∧
    (cfg.lookawayType = "total" →
      (run cfg (startParentControl s₀) events).totalLookaway =
        (lookawayDurations cfg s₀.isLooking none events).sum ∧
      (step cfg (run cfg (startParentControl s₀) events) (now, e)).timers =
        (fireDue now (run cfg (startParentControl s₀) events)).timers ++
          [⟨(run cfg (startParentControl s₀) events).nextTimerId, now,
            cfg.lookawayThreshold * 1000 -
              ((lookawayDurations cfg s₀.isLooking none events).sum : Int)⟩]) ∧
    (step cfg (run cfg (startParentControl s₀) events) (now, e)).endTrialDueToLookawayTimer =
      some (run cfg (startParentControl s₀) events).nextTimerId ∧
    (∀ s : Mixin, s.controlPeriodStarted = false →
      (step cfg s (now, e)).timers = (fireDue now s).timers) := by
  have hc : (run cfg (startParentControl s₀) events).controlPeriodStarted = true :=
    (run_controlPeriodStarted cfg events hw _).trans rfl
  have harm := step_arms_timer cfg now e _ hon hl hc
  refine ⟨?_, ?_, harm.2, fun s hs => step_arms_no_timer cfg now e s hon hs⟩
  · intro hcont
    rw [harm.1, if_neg (by rw [hcont]; decide)]
  · intro htotal
    have htr := (run_total_tracks cfg htotal events hw (startParentControl s₀) none rfl
      (tracks_startParentControl s₀)).2
    have hsum : (run cfg (startParentControl s₀) events).totalLookaway =
        (lookawayDurations cfg s₀.isLooking none events).sum := by
      rw [htr]
      show 0 + _ = _
      rw [Int.zero_add]
      rfl
    refine ⟨hsum, ?_⟩
    rw [harm.1, if_pos htotal, hsum]

theorem lookaway_timer_delay_witness :
    (WithinControl sampleEvents ∧ isLookawayOn defaultConfig (.keydown "p") = true ∧
      (run defaultConfig (startParentControl (didInsertElement 0)) sampleEvents).isLooking =
        true) ∧
    (lookawayDurations defaultConfig true none sampleEvents).sum = 500 ∧
    (step defaultConfig (run defaultConfig (startParentControl (didInsertElement 0))
      sampleEvents) (3000, .keydown "p")).timers = [⟨2, 3000, 1500⟩] := by
  have hw : WithinControl sampleEvents := by
    intro te hte
    simp only [sampleEvents, List.mem_cons, List.mem_singleton, List.not_mem_nil,
      or_false] at hte
    rcases hte with rfl | rfl <;> exact ⟨by decide, by decide⟩
  have h := lookaway_timer_delay defaultConfig (didInsertElement 0) sampleEvents 3000
    (.keydown "p") hw (by decide) (by with_unfolding_all decide)
  refine ⟨⟨hw, by decide, by with_unfolding_all decide⟩, by decide, ?_⟩
  rw [(h.2.1 rfl).2]
  with_unfolding_all rfl

end InfantControlledTiming

namespace VideoAssent

/-! ### The age check -/

theorem anniversary_before_of_lt (dob today : Date) (i : Nat)
    (h : dob.year + 1 + (i : Int) < today.year) : (anniversary dob i).OnOrBefore today :=
  Or.inl h

theorem filter_length_of_all {α : Type} (p : α → Bool) (l : List α) (h : ∀ x ∈ l, p x = true) :
    (l.filter p).length = l.length := by
  rw [List.filter_eq_self.mpr h]

theorem yearsReached_eq (dob today : Date) (hle : dob.OnOrBefore today) :
    ageInYears dob today = (yearsReached dob today : Int) := by
  unfold ageInYears yearsReached
  have hy : dob.year ≤ today.year := by
    rcases hle with h | ⟨h, _⟩ <;> omega
  obtain ⟨n, hn⟩ : ∃ n : Nat, today.year - dob.year = (n : Int) := ⟨(today.year - dob.year).toNat, by omega⟩
  rw [hn, Int.toNat_ofNat]
  cases n with
  | zero =>
    have hyy : dob.year = today.year := by omega
    rcases hle with h | ⟨_, h⟩
    · omega
    · have : ¬ (today.month < dob.month ∨ (today.month = dob.month ∧ today.date < dob.date)) := by
        omega
      simp [this]
  | succ k =>
    rw [List.range_succ, List.filter_append, List.length_append]
    rw [filter_length_of_all _ _ (by
      intro i hi
      rw [List.mem_range] at hi
      exact decide_eq_true (anniversary_before_of_lt dob today i (by omega)))]
    rw [List.length_range]
    have hyear : dob.year + 1 + (k : Int) = today.year := by push_cast at hn; omega
    by_cases hb : today.month < dob.month ∨ (today.month = dob.month ∧ today.date < dob.date)
    · have hno : ¬ (anniversary dob k).OnOrBefore today := by
        unfold Date.OnOrBefore anniversary
        dsimp only
        omega
      simp [hb, hno]
    · have hyes : (anniversary dob k).OnOrBefore today := by
        unfold Date.OnOrBefore anniversary
        dsimp only
        omega
      simp [hb, hyes]

theorem daysInMonth_ge (y : Int) (m : Nat) (hm : m ≠ 1) (y2 : Int) :
    daysInMonth y m = daysInMonth y2 m := by
  unfold daysInMonth
  split <;> first | rfl | omega

theorem february_ge (y : Int) : 28 ≤ daysInMonth y 1 := by
  unfold daysInMonth
  dsimp only
  split_ifs <;> omega

theorem february_le (y : Int) : daysInMonth y 1 ≤ 29 := by
  unfold daysInMonth
  dsimp only
  split_ifs <;> omega

theorem anniversary_valid (dob : Date) (hv : dob.Valid) (h29 : ¬ (dob.month = 1 ∧ dob.date = 29))
    (i : Nat) : (anniversary dob i).Valid := by
  obtain ⟨h1, h2, h3⟩ := hv
  refine ⟨h1, h2, ?_⟩
  show dob.date ≤ daysInMonth (dob.year + 1 + i) dob.month
  by_cases hm : dob.month = 1
  · rw [hm] at h3 ⊢
    have := february_ge (dob.year + 1 + i)
    have := february_le dob.year
    omega
  · rw [daysInMonth_ge _ _ hm dob.year]
    exact h3

theorem birthdays_eq_yearsReached (dob today : Date) (hv : dob.Valid)
    (h29 : ¬ (dob.month = 1 ∧ dob.date = 29)) : birthdays dob today = yearsReached dob today := by
  unfold birthdays yearsReached
  congr 1
  apply List.filter_congr
  intro i _
  have := anniversary_valid dob hv h29 i
  simp [this]

/-! ### What the actions keep and change -/

theorem pageAt_of_config (f g : Frame) (h : g.config = f.config) (i : Int) :
    pageAt g i = pageAt f i := by
  unfold pageAt
  rw [h]

theorem updatePage_fields (f : Frame) :
    (updatePage f).frame.config = f.config ∧
    (updatePage f).frame.pageIndex = f.pageIndex ∧
    (updatePage f).frame.hasCompletedEachPageAudio = f.hasCompletedEachPageAudio ∧
    (updatePage f).frame.hasCompletedEachPageVideo = f.hasCompletedEachPageVideo ∧
    ((updatePage f).threw = true ↔ pageAt f f.pageIndex = none) ∧
    (∀ o, o ∈ (updatePage f).frame.log → o ∈ f.log ∨ o = .startRecorder ∨ o = .playAudio ∨
      o = .playVideo) := by
  unfold updatePage send
  dsimp only
  split_ifs <;> split <;> rename_i hp <;>
    simp only [pageAt] at hp ⊢ <;> simp only [hp] <;>
    refine ⟨?_, ?_, ?_, ?_, ?_, ?_⟩ <;> (try split_ifs) <;> (try simp) <;> (try tauto)

theorem updatePage_flags (f : Frame) (h : (updatePage f).threw = false) :
    (updatePage f).frame.hasCompletedThisPageAudio =
      (updatePage f).frame.hasCompletedEachPageAudio (updatePage f).frame.pageIndex ∧
    (updatePage f).frame.hasCompletedThisPageVideo =
      (updatePage f).frame.hasCompletedEachPageVideo (updatePage f).frame.pageIndex := by
  revert h
  unfold updatePage send
  dsimp only
  split_ifs <;> split <;> simp

theorem nextVideo_fields (f : Frame) :
    (nextVideo f).frame.config = f.config ∧
    (nextVideo f).frame.pageIndex = f.pageIndex + 1 ∧
    (nextVideo f).frame.hasCompletedEachPageAudio = f.hasCompletedEachPageAudio ∧
    (nextVideo f).frame.hasCompletedEachPageVideo = f.hasCompletedEachPageVideo ∧
    ((nextVideo f).threw = true ↔ pageAt f (f.pageIndex + 1) = none) ∧
    (∀ o, o ∈ (nextVideo f).frame.log → o ∈ f.log ∨ o ≠ .next) := by
  unfold nextVideo send
  dsimp only
  split_ifs with h
  · split
    · rename_i hp
      refine ⟨rfl, rfl, rfl, rfl, ?_, fun o ho => Or.inl ho⟩
      simpa using hp
    · rename_i page hp
      split_ifs <;>
      · refine ⟨(updatePage_fields _).1, (updatePage_fields _).2.1, (updatePage_fields _).2.2.1,
          (updatePage_fields _).2.2.2.1, (updatePage_fields _).2.2.2.2.1, ?_⟩
        intro o ho
        rcases (updatePage_fields _).2.2.2.2.2 o ho with h | h | h | h
        · simp only [List.mem_append, List.mem_singleton] at h
          rcases h with h | h
          · exact Or.inl h
          · right; rw [h]; simp
        all_goals right; rw [h]; simp
  · refine ⟨(updatePage_fields _).1, (updatePage_fields _).2.1, (updatePage_fields _).2.2.1,
      (updatePage_fields _).2.2.2.1, (updatePage_fields _).2.2.2.2.1, ?_⟩
    intro o ho
    rcases (updatePage_fields _).2.2.2.2.2 o ho with h | h | h | h
    · simp only [List.mem_append, List.mem_singleton] at h
      rcases h with h | h
      · exact Or.inl h
      · right; rw [h]; simp
    all_goals right; rw [h]; simp

theorem nextVideo_flags (f : Frame) (h : (nextVideo f).threw = false) :
    (nextVideo f).frame.hasCompletedThisPageAudio =
      (nextVideo f).frame.hasCompletedEachPageAudio (nextVideo f).frame.pageIndex ∧
    (nextVideo f).frame.hasCompletedThisPageVideo =
      (nextVideo f).frame.hasCompletedEachPageVideo (nextVideo f).frame.pageIndex := by
  revert h
  unfold nextVideo
  dsimp only
  split_ifs
  · split
    · simp
    · split_ifs <;> exact updatePage_flags _
  · exact updatePage_flags _

theorem previousVideo_fields (f : Frame) :
    (previousVideo f).frame.config = f.config ∧
    (previousVideo f).frame.pageIndex = f.pageIndex - 1 ∧
    (previousVideo f).frame.hasCompletedEachPageAudio = f.hasCompletedEachPageAudio ∧
    (previousVideo f).frame.hasCompletedEachPageVideo = f.hasCompletedEachPageVideo ∧
    ((previousVideo f).threw = true ↔ pageAt f (f.pageIndex - 1) = none) :=
  ⟨(updatePage_fields _).1, (updatePage_fields _).2.1, (updatePage_fields _).2.2.1,
    (updatePage_fields _).2.2.2.1, (updatePage_fields _).2.2.2.2.1⟩

theorem previousVideo_flags (f : Frame) (h : (previousVideo f).threw = false) :
    (previousVideo f).frame.hasCompletedThisPageAudio =
      (previousVideo f).frame.hasCompletedEachPageAudio (previousVideo f).frame.pageIndex ∧
    (previousVideo f).frame.hasCompletedThisPageVideo =
      (previousVideo f).frame.hasCompletedEachPageVideo (previousVideo f).frame.pageIndex :=
  updatePage_flags _ h

theorem audioCompleted_fields (f : Frame) :
    (audioCompleted f).config = f.config ∧
    (audioCompleted f).pageIndex = f.pageIndex ∧
    (audioCompleted f).hasCompletedEachPageAudio =
      (fun i => if i = f.pageIndex then some true else f.hasCompletedEachPageAudio i) ∧
    (audioCompleted f).hasCompletedEachPageVideo = f.hasCompletedEachPageVideo ∧
    (audioCompleted f).hasCompletedThisPageAudio = some true ∧
    (audioCompleted f).hasCompletedThisPageVideo = f.hasCompletedThisPageVideo := by
  unfold audioCompleted
  dsimp only
  split_ifs <;> exact ⟨rfl, rfl, rfl, rfl, rfl, rfl⟩

theorem videoCompleted_fields (f : Frame) :
    (videoCompleted f).config = f.config ∧
    (videoCompleted f).pageIndex = f.pageIndex ∧
    (videoCompleted f).hasCompletedEachPageAudio = f.hasCompletedEachPageAudio ∧
    (videoCompleted f).hasCompletedEachPageVideo =
      (fun i => if i = f.pageIndex then some true else f.hasCompletedEachPageVideo i) ∧
    (videoCompleted f).hasCompletedThisPageAudio = f.hasCompletedThisPageAudio ∧
    (videoCompleted f).hasCompletedThisPageVideo = some true := by
  unfold videoCompleted
  dsimp only
  split_ifs <;> exact ⟨rfl, rfl, rfl, rfl, rfl, rfl⟩

theorem act_config (a : Action) (f : Frame) : (act a f).frame.config = f.config := by
  cases a
  · exact (nextVideo_fields f).1
  · exact (previousVideo_fields f).1
  · exact (audioCompleted_fields f).1
  · exact (videoCompleted_fields f).1

theorem act_audio (a : Action) (f : Frame) (i : Int) :
    (act a f).frame.hasCompletedEachPageAudio i =
      if a = .audioCompleted ∧ f.pageIndex = i then some true
      else f.hasCompletedEachPageAudio i := by
  cases a
  · simp [act, (nextVideo_fields f).2.2.1]
  · simp [act, (previousVideo_fields f).2.2.1]
  · simp only [act, (audioCompleted_fields f).2.2.1, true_and]
    by_cases h : i = f.pageIndex
    · simp [h]
    · simp [h, Ne.symm h]
  · simp [act, (videoCompleted_fields f).2.2.1]

theorem act_video (a : Action) (f : Frame) (i : Int) :
    (act a f).frame.hasCompletedEachPageVideo i =
      if a = .videoCompleted ∧ f.pageIndex = i then some true
      else f.hasCompletedEachPageVideo i := by
  cases a
  · simp [act, (nextVideo_fields f).2.2.2.1]
  · simp [act, (previousVideo_fields f).2.2.2.1]
  · simp [act, (audioCompleted_fields f).2.2.2.1]
  · simp only [act, (videoCompleted_fields f).2.2.2.1, true_and]
    by_cases h : i = f.pageIndex
    · simp [h]
    · simp [h, Ne.symm h]

theorem act_synced (a : Action) (f : Frame) (h : Synced f) : Synced (act a f).frame := by
  cases a
  · show Synced (nextVideo f).frame
    intro page hp
    rw [pageAt_of_config f _ (nextVideo_fields f).1, (nextVideo_fields f).2.1] at hp
    have ht : (nextVideo f).threw = false := by
      cases hthrew : (nextVideo f).threw
      · rfl
      · rw [(nextVideo_fields f).2.2.2.2.1.mp hthrew] at hp
        cases hp
    exact nextVideo_flags f ht
  · show Synced (previousVideo f).frame
    intro page hp
    rw [pageAt_of_config f _ (previousVideo_fields f).1, (previousVideo_fields f).2.1] at hp
    have ht : (previousVideo f).threw = false := by
      cases hthrew : (previousVideo f).threw
      · rfl
      · rw [(previousVideo_fields f).2.2.2.2.mp hthrew] at hp
        cases hp
    exact previousVideo_flags f ht
  · show Synced (audioCompleted f)
    intro page hp
    obtain ⟨h1, h2, h3, h4, h5, h6⟩ := audioCompleted_fields f
    rw [pageAt_of_config f _ h1, h2] at hp
    rw [h2, h3, h4, h5, h6]
    exact ⟨by simp, (h page hp).2⟩
  · show Synced (videoCompleted f)
    intro page hp
    obtain ⟨h1, h2, h3, h4, h5, h6⟩ := videoCompleted_fields f
    rw [pageAt_of_config f _ h1, h2] at hp
    rw [h2, h3, h4, h5, h6]
    exact ⟨(h page hp).1, by simp⟩

theorem runActions_cons (f : Frame) (a : Action) (rest : List Action) :
    runActions f (a :: rest) = runActions (act a f).frame rest := rfl

theorem runActions_append (f : Frame) (xs ys : List Action) :
    runActions f (xs ++ ys) = runActions (runActions f xs) ys := by
  unfold runActions
  rw [List.foldl_append]

theorem runActions_config (f : Frame) (actions : List Action) :
    (runActions f actions).config = f.config := by
  induction actions generalizing f with
  | nil => rfl
  | cons a rest ih => rw [runActions_cons, ih, act_config]

theorem runActions_synced (f : Frame) (actions : List Action) (h : Synced f) :
    Synced (runActions f actions) := by
  induction actions generalizing f with
  | nil => exact h
  | cons a rest ih => exact ih _ (act_synced a f h)

theorem runActions_audio (f : Frame) (actions : List Action) (i : Int) :
    (runActions f actions).hasCompletedEachPageAudio i =
      if completedOn .audioCompleted f actions i = true then some true
      else f.hasCompletedEachPageAudio i := by
  induction actions generalizing f with
  | nil => simp [runActions, completedOn]
  | cons a rest ih =>
    rw [runActions_cons, ih, act_audio]
    simp only [completedOn]
    by_cases h1 : completedOn .audioCompleted (act a f).frame rest i = true
    · simp [h1]
    · by_cases h2 : a = .audioCompleted ∧ f.pageIndex = i
      · simp [h1, h2]
      · have : (decide (a = Action.audioCompleted) && decide (f.pageIndex = i)) = false := by
          simpa using h2
        simp [h1, h2, this]

theorem runActions_video (f : Frame) (actions : List Action) (i : Int) :
    (runActions f actions).hasCompletedEachPageVideo i =
      if completedOn .videoCompleted f actions i = true then some true
      else f.hasCompletedEachPageVideo i := by
  induction actions generalizing f with
  | nil => simp [runActions, completedOn]
  | cons a rest ih =>
    rw [runActions_cons, ih, act_video]
    simp only [completedOn]
    by_cases h1 : completedOn .videoCompleted (act a f).frame rest i = true
    · simp [h1]
    · by_cases h2 : a = .videoCompleted ∧ f.pageIndex = i
      · simp [h1, h2]
      · have : (decide (a = Action.videoCompleted) && decide (f.pageIndex = i)) = false := by
          simpa using h2
        simp [h1, h2, this]

/-! ### The frame after `didInsertElement` -/

theorem pageAt_zero_eq_none (f : Frame) : pageAt f 0 = none ↔ f.config.pages = [] := by
  unfold pageAt
  cases h : f.config.pages <;> simp

theorem didInsertElement_frame (config : Config) (birthday : Option Date) (today : Date) :
    (didInsertElement config birthday today).frame.config = config ∧
    (didInsertElement config birthday today).frame.pageIndex = 0 ∧
    (didInsertElement config birthday today).frame.hasCompletedEachPageAudio =
      (populate (create config)).hasCompletedEachPageAudio ∧
    (didInsertElement config birthday today).frame.hasCompletedEachPageVideo =
      (populate (create config)).hasCompletedEachPageVideo ∧
    Synced (didInsertElement config birthday today).frame ∧
    ((didInsertElement config birthday today).threw = true ↔ config.pages = []) := by
  obtain ⟨h1, h2, h3, h4, h5, _⟩ := nextVideo_fields (populate (create config))
  have h2 : (nextVideo (populate (create config))).frame.pageIndex = 0 := by
    rw [h2]; rfl
  have h5 : (nextVideo (populate (create config))).threw = true ↔ config.pages = [] := by
    rw [h5]
    exact pageAt_zero_eq_none (populate (create config))
  have h6 : Synced (nextVideo (populate (create config))).frame := by
    intro page hp
    cases ht : (nextVideo (populate (create config))).threw
    · exact nextVideo_flags _ ht
    · rw [pageAt_of_config _ _ h1, h2, (pageAt_zero_eq_none _).mpr (h5.mp ht)] at hp
      cases hp
  unfold didInsertElement
  dsimp only
  split_ifs with ht
  · exact ⟨h1, h2, h3, h4, h6, h5⟩
  · cases birthday with
    | none => exact ⟨h1, h2, h3, h4, h6, h5⟩
    | some dob =>
      dsimp only
      split_ifs
      · refine ⟨h1, h2, h3, h4, h6, ?_⟩
        rw [← h5]
        simp [ht]
      · exact ⟨h1, h2, h3, h4, h6, h5⟩

theorem didInsertElement_next (config : Config) (birthday : Option Date) (today : Date) :
    Output.next ∈ (didInsertElement config birthday today).frame.log ↔
      config.pages ≠ [] ∧ ∃ dob, birthday = some dob ∧ config.minimumYearsToAssent ≠ 0 ∧
        (ageInYears dob today : ℚ) < config.minimumYearsToAssent := by
  obtain ⟨_, _, _, _, h5, h6⟩ := nextVideo_fields (populate (create config))
  have h5 : (nextVideo (populate (create config))).threw = true ↔ config.pages = [] := by
    rw [h5]
    exact pageAt_zero_eq_none (populate (create config))
  have hno : Output.next ∉ (nextVideo (populate (create config))).frame.log := by
    intro hmem
    rcases h6 _ hmem with h | h
    · simp [populate, create] at h
    · exact h rfl
  unfold didInsertElement
  dsimp only
  split_ifs with ht
  · have := h5.mp ht
    simp [hno, this]
  · have hne : config.pages ≠ [] := fun h => ht (h5.mpr h)
    cases birthday with
    | none => simp [hno]
    | some dob =>
      dsimp only
      split_ifs with hskip
      · simp [send, hne, hskip.1, hskip.2]
      · simp only [hno, false_iff, not_and, not_exists]
        intro _ d hd h0 hlt
        cases hd
        exact hskip ⟨h0, hlt⟩

theorem truthy_eq_true (x : Option Bool) : truthy x = true ↔ x = some true := by
  cases x with
  | none => simp [truthy]
  | some b => cases b <;> simp [truthy]

theorem noNext_iff (f : Frame) :
    noNext f = true ↔
      f.pageIndex ≥ (f.config.pages.length : Int) - 1 ∨
      f.hasCompletedThisPageAudio ≠ some true ∨ f.hasCompletedThisPageVideo ≠ some true := by
  unfold noNext
  rw [Bool.or_eq_true, Bool.or_eq_true, decide_eq_true_iff, Bool.not_eq_true', Bool.not_eq_true',
    ← Bool.not_eq_true, ← Bool.not_eq_true, truthy_eq_true, truthy_eq_true, or_assoc]

theorem runActions_monotone_audio (f : Frame) (more : List Action) (i : Int)
    (h : f.hasCompletedEachPageAudio i = some true) :
    (runActions f more).hasCompletedEachPageAudio i = some true := by
  rw [runActions_audio]
  split_ifs
  · rfl
  · exact h

theorem runActions_monotone_video (f : Frame) (more : List Action) (i : Int)
    (h : f.hasCompletedEachPageVideo i = some true) :
    (runActions f more).hasCompletedEachPageVideo i = some true := by
  rw [runActions_video]
  split_ifs
  · rfl
  · exact h

/-- Without a page `nextVideo` raises in `didInsertElement`, and `next` is not sent whatever
the age. -/
theorem didInsertElement_of_no_pages (config : Config) (birthday : Option Date) (today : Date)
    (h : config.pages = []) :
    (didInsertElement config birthday today).threw = true ∧
    Output.next ∉ (didInsertElement config birthday today).frame.log := by
  refine ⟨(didInsertElement_frame config birthday today).2.2.2.2.2.mpr h, ?_⟩
  rw [didInsertElement_next]
  exact fun hn => hn.1 h

/-! ### Claims -/

/-- C23, as stated, fails: for a child born on 29 February 2016 and today the first of March
2021, both days of the calendar and the first before the second, the code computes the age 5,
while a 29 February has occurred once since the birth (in 2020). -/
theorem ageInYears_leap_day_birthday :
    leapDayBirthday.Valid ∧ sampleToday.Valid ∧ leapDayBirthday.OnOrBefore sampleToday ∧
    ageInYears leapDayBirthday sampleToday = 5 ∧ birthdays leapDayBirthday sampleToday = 1 := by
  refine ⟨by decide, by decide, by decide, by decide, by decide⟩

/-- C23, amended: for a birth date on or before today, `ageInYears` is the number of years
after the year of birth in which the month and day of the birth date have been reached; when
the birth date is a day of the calendar other than 29 February this is the number of
birthdays on or before today.  When the frame has a page, `next` is sent exactly when a
birthday is present, `minimumYearsToAssent` is not zero and `ageInYears` is below it. -/
theorem ageInYears_counts_years_reached (config : Config) (dob today : Date)
    (hle : dob.OnOrBefore today) (hpages : config.pages ≠ []) :
    ageInYears dob today = (yearsReached dob today : Int) ∧
    (dob.Valid → ¬ (dob.month = 1 ∧ dob.date = 29) →
      ageInYears dob today = (birthdays dob today : Int)) ∧
    (∀ birthday : Option Date,
      Output.next ∈ (didInsertElement config birthday today).frame.log ↔
        ∃ d, birthday = some d ∧ config.minimumYearsToAssent ≠ 0 ∧
          (ageInYears d today : ℚ) < config.minimumYearsToAssent) := by
  refine ⟨yearsReached_eq dob today hle, fun hv h29 => ?_, fun birthday => ?_⟩
  · rw [birthdays_eq_yearsReached dob today hv h29]
    exact yearsReached_eq dob today hle
  · rw [didInsertElement_next]
    exact ⟨fun h => h.2, fun h => ⟨hpages, h⟩⟩

theorem ageInYears_counts_years_reached_witness :
    (Date.OnOrBefore ⟨2016, 5, 15⟩ ⟨2021, 5, 14⟩ ∧ sampleConfig.pages ≠ []) ∧
    ageInYears ⟨2016, 5, 15⟩ ⟨2021, 5, 14⟩ = 4 ∧
    birthdays ⟨2016, 5, 15⟩ ⟨2021, 5, 14⟩ = 4 ∧
    Output.next ∈ (didInsertElement sampleConfig (some ⟨2016, 5, 15⟩) ⟨2021, 5, 14⟩).frame.log := by
  have h := ageInYears_counts_years_reached sampleConfig ⟨2016, 5, 15⟩ ⟨2021, 5, 14⟩
    (by decide) (by decide)
  refine ⟨⟨by decide, by decide⟩, by decide, ?_, ?_⟩
  · have h2 := h.2.1 (by decide) (by decide)
    have h1 : ageInYears ⟨2016, 5, 15⟩ ⟨2021, 5, 14⟩ = 4 := by decide
    rw [h1] at h2
    exact_mod_cast h2.symm
  · rw [h.2.2]
    exact ⟨_, rfl, by with_unfolding_all decide, by with_unfolding_all decide⟩

/-- C24: after `didInsertElement` and any sequence of actions, `noNext` is true exactly when
`pageIndex >= pages.length - 1`, or `hasCompletedThisPageAudio` is not true, or
`hasCompletedThisPageVideo` is not true; and when there is a current page, exactly when it is
the last page, or it has audio and no `audioCompleted` was received on it, or it has video and
no `videoCompleted` was received on it. -/
theorem noNext_iff_last_or_media_unfinished (config : Config) (birthday : Option Date)
    (today : Date) (actions : List Action) (f₀ f : Frame)
    (h₀ : f₀ = (didInsertElement config birthday today).frame)
    (hf : f = runActions f₀ actions) :
    (noNext f = true ↔
      f.pageIndex ≥ (config.pages.length : Int) - 1 ∨
      f.hasCompletedThisPageAudio ≠ some true ∨ f.hasCompletedThisPageVideo ≠ some true) ∧
    (∀ page, pageAt f f.pageIndex = some page →
      (noNext f = true ↔
        f.pageIndex ≥ (config.pages.length : Int) - 1 ∨
        (page.audio = true ∧ completedOn .audioCompleted f₀ actions f.pageIndex = false) ∨
        (page.video = true ∧ completedOn .videoCompleted f₀ actions f.pageIndex = false))) := by
  obtain ⟨d1, _, d3, d4, d5, _⟩ := didInsertElement_frame config birthday today
  rw [← h₀] at d1 d3 d4 d5
  have hc : f.config = config := by rw [hf, runActions_config, d1]
  have hn := noNext_iff f
  rw [hc] at hn
  refine ⟨hn, fun page hp => ?_⟩
  have hs := (runActions_synced f₀ actions d5) page (by rw [← hf]; exact hp)
  rw [← hf] at hs
  have hp0 : pageAt (create config) f.pageIndex = some page := by
    rw [← hp]
    exact (pageAt_of_config _ _ hc _).symm
  have ha : f.hasCompletedThisPageAudio =
      if completedOn .audioCompleted f₀ actions f.pageIndex = true then some true
      else some (!page.audio) := by
    rw [hs.1, hf, runActions_audio, d3, ← hf]
    simp only [populate, hp0, Option.map_some']
  have hv : f.hasCompletedThisPageVideo =
      if completedOn .videoCompleted f₀ actions f.pageIndex = true then some true
      else some (!page.video) := by
    rw [hs.2, hf, runActions_video, d4, ← hf]
    simp only [populate, hp0, Option.map_some']
  rw [hn, ha, hv]
  cases completedOn .audioCompleted f₀ actions f.pageIndex <;>
    cases completedOn .videoCompleted f₀ actions f.pageIndex <;>
    cases page.audio <;> cases page.video <;> simp

theorem noNext_iff_last_or_media_unfinished_witness :
    (sampleStart = (didInsertElement sampleConfig none sampleToday).frame ∧
      runActions sampleStart [.nextVideo, .audioCompleted] =
        runActions sampleStart [.nextVideo, .audioCompleted]) ∧
    pageAt (runActions sampleStart [.nextVideo, .audioCompleted]) 1 = some ⟨true, true⟩ ∧
    noNext (runActions sampleStart [.nextVideo, .audioCompleted]) = true ∧
    noNext (runActions sampleStart [.nextVideo, .audioCompleted, .videoCompleted]) = false := by
  have h := noNext_iff_last_or_media_unfinished sampleConfig none sampleToday
    [.nextVideo, .audioCompleted] sampleStart _ rfl rfl
  refine ⟨⟨rfl, rfl⟩, rfl, ?_, rfl⟩
  exact (h.2 ⟨true, true⟩ rfl).mpr (Or.inr (Or.inr ⟨rfl, rfl⟩))

/-- C25: in a state reached from `didInsertElement` by any sequence of `nextVideo`,
`previousVideo`, `audioCompleted` and `videoCompleted`, an entry of
`hasCompletedEachPageAudio` or `hasCompletedEachPageVideo` that is true is still true after
any further sequence of these actions, and whenever there is a page of index `pageIndex`,
`hasCompletedThisPageAudio` and `hasCompletedThisPageVideo` are the stored entries of that
page. -/
theorem completed_entries_persist (config : Config) (birthday : Option Date) (today : Date)
    (actions : List Action) (f : Frame)
    (hf : f = runActions (didInsertElement config birthday today).frame actions) :
    (∀ (more : List Action) (i : Int), f.hasCompletedEachPageAudio i = some true →
      (runActions f more).hasCompletedEachPageAudio i = some true) ∧
    (∀ (more : List Action) (i : Int), f.hasCompletedEachPageVideo i = some true →
      (runActions f more).hasCompletedEachPageVideo i = some true) ∧
    (∀ page, pageAt f f.pageIndex = some page →
      f.hasCompletedThisPageAudio = f.hasCompletedEachPageAudio f.pageIndex ∧
      f.hasCompletedThisPageVideo = f.hasCompletedEachPageVideo f.pageIndex) := by
  refine ⟨fun more i h => runActions_monotone_audio f more i h,
    fun more i h => runActions_monotone_video f more i h, ?_⟩
  rw [hf]
  exact runActions_synced _ actions (didInsertElement_frame config birthday today).2.2.2.2.1

theorem completed_entries_persist_witness :
    runActions sampleStart [.nextVideo, .audioCompleted, .videoCompleted, .previousVideo] =
      runActions (didInsertElement sampleConfig none sampleToday).frame
        [.nextVideo, .audioCompleted, .videoCompleted, .previousVideo] ∧
    (runActions sampleStart [.nextVideo, .audioCompleted, .videoCompleted,
      .previousVideo]).hasCompletedEachPageAudio 1 = some true ∧
    (runActions sampleStart [.nextVideo, .audioCompleted, .videoCompleted, .previousVideo,
      .nextVideo]).hasCompletedEachPageAudio 1 = some true ∧
    (runActions sampleStart [.nextVideo, .audioCompleted, .videoCompleted, .previousVideo,
      .nextVideo]).hasCompletedThisPageAudio = some true := by
  have h := completed_entries_persist sampleConfig none sampleToday
    [.nextVideo, .audioCompleted, .videoCompleted, .previousVideo] _ rfl
  exact ⟨rfl, rfl, h.1 [.nextVideo] 1 rfl, rfl⟩

end VideoAssent
